import Mathlib

/-!
# mod_vhost_dbd 1.0.1: a shallow embedding of `mod_vhost_dbd.c`

The module resolves the document root of a request with a prepared statement
and caches the answer in the notes table of the connection.  The functions of
the file (`isSimpleName`, `setDocRoot`, `setVhostQuery`, `merge_config_server`,
`config_server`) are translated below.  Log calls have no effect on the
values computed and are left out.

Library functions the module calls but does not define are handled in two
ways.  The APR table (`apr_table_get`, `apr_table_set`, `apr_table_unset`)
is modelled as an association list whose keys are compared without regard to
ASCII letter case, as `apr_tables.c` does with `strcasecmp`.  The escaping
functions, the file-path merge and the natural-order comparison are fields
of `Runtime`; the database driver is the record `ap_dbd_t`.
-/

namespace VhostDbd

/-! ## Strings and constants -/

/-- C strings are lists of characters; the terminating NUL is not stored. -/
abbrev CStr := List Char

/-- The terminating NUL, read when an index equals the length of a string. -/
def NUL : Char := Char.ofNat 0

/-- Maximum number of parameters which can be passed to the query
(`#define MAX_PARAMS 100`). -/
def MAX_PARAMS : Nat := 100

/-- The value saved in the connection notes when no docroot was returned
(`#define NO_DOCROOT "-\t.\t"`). -/
def NO_DOCROOT : CStr := ['-', '\t', '.', '\t']

/-- The delimiter of the key components (`#define KEY_DELIMITER "\t"`; the
code writes the literal again in `apr_pstrcat`). -/
def KEY_DELIMITER : CStr := ['\t']

/-- Longest string that may be a statement label (`#define MAX_LABEL_SIZE 32`). -/
def MAX_LABEL_SIZE : Nat := 32

/-- Return value `OK` of httpd hooks. -/
def OK : Int := 0

/-- Return value `DECLINED` of httpd hooks. -/
def DECLINED : Int := -1

/-- Status `HTTP_BAD_REQUEST`. -/
def HTTP_BAD_REQUEST : Int := 400

/-- Status `HTTP_FORBIDDEN`. -/
def HTTP_FORBIDDEN : Int := 403

/-- Status `HTTP_INTERNAL_SERVER_ERROR`. -/
def HTTP_INTERNAL_SERVER_ERROR : Int := 500

/-- Flag `APR_FILEPATH_SECUREROOT` of `apr_filepath_merge` (0x03): fail when
the merged path is not below the root. -/
def APR_FILEPATH_SECUREROOT : Nat := 3

/-- Flag `APR_FILEPATH_TRUENAME` of `apr_filepath_merge` (0x20). -/
def APR_FILEPATH_TRUENAME : Nat := 32

/-- The test `apr_isalnum` in the C locale. -/
def apr_isalnum (c : Char) : Bool := c.isAlphanum

/-- The test `apr_isdigit`. -/
def apr_isdigit (c : Char) : Bool := c.isDigit

/-- The test `apr_isspace` in the C locale: space, and the controls 9 to 13. -/
def apr_isspace (c : Char) : Bool := c.toNat = 32 || (9 ≤ c.toNat && c.toNat ≤ 13)

/-- The loop of `isSimpleName`: 0 at the first character that is not
alphanumeric, `_` or `-`, and 1 at the end of the string. -/
def isSimpleNameLoop : CStr → Int
  | [] => 1
  | c :: s =>
    if !apr_isalnum c && c != '_' && c != '-' then 0 else isSimpleNameLoop s

/-- Check if a string could be a label name (lines 67-75). -/
def isSimpleName (s : CStr) : Int :=
  if s.length > MAX_LABEL_SIZE then 0 else isSimpleNameLoop s

/-- Digits of `atoi` after the sign: the value of the leading run of digits. -/
def atoiDigits : Nat → CStr → Nat
  | acc, [] => acc
  | acc, c :: s => if apr_isdigit c then atoiDigits (10 * acc + (c.toNat - 48)) s else acc

/-- The C function `atoi`: white space, an optional sign, decimal digits. -/
def atoi (s : CStr) : Int :=
  match s.dropWhile apr_isspace with
  | '-' :: t => - (atoiDigits 0 t : Int)
  | '+' :: t => (atoiDigits 0 t : Int)
  | t => (atoiDigits 0 t : Int)

/-- Decimal text of a number, as `apr_itoa` and `apr_ltoa` give it for a
value that is not negative. -/
def apr_itoa (n : Nat) : CStr := (Nat.repr n).toList

/-! ## APR tables -/

/-- An APR table: entries in insertion order. -/
abbrev apr_table_t := List (CStr × CStr)

/-- Keys of an APR table are compared with `strcasecmp`: equal when they
agree after lowering ASCII letters. -/
def keyMatch (a b : CStr) : Bool := a.map Char.toLower == b.map Char.toLower

/-- The value of the first entry whose key matches, as `apr_table_get`. -/
def apr_table_get : apr_table_t → CStr → Option CStr
  | [], _ => none
  | (k, v) :: rest, key => if keyMatch k key then some v else apr_table_get rest key

/-- Removal of every entry whose key matches, as `apr_table_unset`. -/
def apr_table_unset (t : apr_table_t) (key : CStr) : apr_table_t :=
  t.filter (fun e => !keyMatch e.1 key)

/-- The first entry whose key matches gets the new value and the other
matching entries are removed; without a match the pair is appended:
`apr_table_set`. -/
def apr_table_set : apr_table_t → CStr → CStr → apr_table_t
  | [], key, val => [(key, val)]
  | (k, v) :: rest, key, val =>
    if keyMatch k key then (k, val) :: apr_table_unset rest key
    else (k, v) :: apr_table_set rest key val

/-! ## Configuration, request and database records -/

/-- Parameter codes (`enum {hostname, ip, port, uri, ftpuser} paramNames`);
`hostname` has the value 0. -/
inductive ParamName
  | hostname
  | ip
  | port
  | uri
  | ftpuser
  deriving DecidableEq, Repr

/-- The server configuration `vhost_dbd_conf`.  The arrays `params` and
`urisegs` have `MAX_PARAMS` cells.  `sql` is read only when `label` is set,
and `setVhostQuery` assigns both together, so its NULL is kept as the empty
string. -/
structure vhost_dbd_conf where
  label : Option CStr
  sql : CStr
  nparams : Nat
  params : List ParamName
  urisegs : List Int
  deriving DecidableEq, Repr

/-- Functions of httpd and APR that the module calls and whose code is not
part of it. `ap_escape_logitem` and `ap_escape_uri` are given for a string
that is not NULL; `apr_filepath_merge root add flags` is the merged path, or
`none` when the merge fails; `mod_dbd_loaded` says that both optional
functions of mod_dbd were retrieved. -/
structure Runtime where
  ap_escape_logitem : CStr → CStr
  ap_escape_uri : CStr → CStr
  apr_filepath_merge : CStr → CStr → Nat → Option CStr
  apr_strnatcasecmp : CStr → CStr → Int
  ap_find_linked_module : CStr → Bool
  mod_dbd_loaded : Bool

/-- The fields of `conn_rec` that are read: `local_ip` and
`local_addr->port`.  The notes table of the connection is the state passed
to `setDocRoot`. -/
structure conn_rec where
  local_ip : CStr
  local_port : Nat
  deriving DecidableEq, Repr

/-- The fields of one `request_rec` that `setDocRoot` reads or writes. -/
structure ReqFields where
  proxyreq : Int
  uri : Option CStr
  hostname : Option CStr
  user : Option CStr
  connection : conn_rec
  subprocess_env : apr_table_t
  filename : Option CStr
  canonical_filename : Option CStr
  deriving DecidableEq, Repr

/-- A request with its chain of `main` requests: `top` has `main == NULL`. -/
inductive request_rec
  | top (f : ReqFields)
  | sub (f : ReqFields) (main : request_rec)
  deriving DecidableEq, Repr

/-- The fields of the request itself. -/
def request_rec.fields : request_rec → ReqFields
  | .top f => f
  | .sub f _ => f

/-- The loop `while (mainreq->main) mainreq = mainreq->main` (lines 114-115). -/
def request_rec.mainreq : request_rec → ReqFields
  | .top f => f
  | .sub _ m => m.mainreq

/-- The same request on a connection with another local address and port:
every request of the chain belongs to the connection. -/
def request_rec.withConnection (c : conn_rec) : request_rec → request_rec
  | .top f => .top { f with connection := c }
  | .sub f m => .sub { f with connection := c } (m.withConnection c)

/-- A row of a result set: `apr_dbd_get_entry(row, j)` is cell `j`, NULL for
an SQL NULL or a column that does not exist. -/
abbrev apr_dbd_row_t := List (Option CStr)

/-- A result set: what `apr_dbd_num_tuples` and `apr_dbd_num_cols` report,
the column names of `apr_dbd_get_name`, and the rows not fetched yet. -/
structure apr_dbd_results_t where
  num_tuples : Int
  num_cols : Int
  names : List (Option CStr)
  rows : List apr_dbd_row_t
  deriving DecidableEq, Repr

/-- A prepared statement is identified by a number. -/
abbrev apr_dbd_prepared_t := Nat

/-- The connection `ap_dbd_t` returned by `dbd_acquire_fn`: the hash of
prepared statements by label, and what `apr_dbd_pselect` returns for a
statement and its arguments (status `rv` and result set). -/
structure ap_dbd_t where
  prepared : List (CStr × apr_dbd_prepared_t)
  pselect : apr_dbd_prepared_t → List (Option CStr) → Int × apr_dbd_results_t

/-- Call `apr_dbd_get_entry(row, j)`. -/
def apr_dbd_get_entry (row : apr_dbd_row_t) (j : Nat) : Option CStr := row.getD j none

/-- Call `apr_dbd_get_name(res, j)`. -/
def apr_dbd_get_name (res : apr_dbd_results_t) (j : Nat) : Option CStr := res.names.getD j none

/-- Call `apr_dbd_get_row(.., -1)`: the next row and status 0 while a row is
left, a non-zero status (`none`) when there is none. -/
def apr_dbd_get_row (rows : List apr_dbd_row_t) : Option (apr_dbd_row_t × List apr_dbd_row_t) :=
  match rows with
  | [] => none
  | row :: rest => some (row, rest)

/-- Call `apr_hash_get(dbd->prepared, label, APR_HASH_KEY_STRING)`. -/
def apr_hash_get (h : List (CStr × apr_dbd_prepared_t)) (label : CStr) : Option apr_dbd_prepared_t :=
  h.lookup label

/-- What one call of `setDocRoot` did with the database: calls of
`dbd_acquire_fn`, the statements executed with their arguments, calls of
`apr_dbd_get_row`, the rows they delivered, and the rows of the result set
that were never fetched. -/
structure DbTrace where
  acquired : Nat
  executed : List (apr_dbd_prepared_t × List (Option CStr))
  get_row_calls : Nat
  fetched : List apr_dbd_row_t
  unfetched : List apr_dbd_row_t
  deriving DecidableEq, Repr

/-- No database operation at all. -/
def DbTrace.none : DbTrace :=
  { acquired := 0, executed := [], get_row_calls := 0, fetched := [], unfetched := [] }

/-- The result of one call of `setDocRoot`: the status returned, the notes of
the connection, the fields of the request it may write, and the trace. -/
structure Outcome where
  status : Int
  notes : apr_table_t
  subprocess_env : apr_table_t
  filename : Option CStr
  canonical_filename : Option CStr
  db : DbTrace
  deriving DecidableEq, Repr

/-! ## setDocRoot -/

/-- The loop `while (j && *p) if (*++p == '/') --j;` of lines 142-143, run
on the rest of the string at `p`: the number of characters `p` moves. -/
def skipSegments : Int → CStr → Nat
  | _, [] => 0
  | j, _ :: rest =>
    if j = 0 then 0
    else
      match rest with
      | [] => 1
      | c :: _ => if c = '/' then 1 + skipSegments (j - 1) rest else 1 + skipSegments j rest

/-- The `j` leading segments of the escaped URI `start`:
`apr_pstrndup(r->pool, start, p - start)` (line 144). -/
def leadingSegments (j : Int) (start : CStr) : CStr :=
  start.take (skipSegments j start)

/-- The local variables of `setDocRoot` that the parameter loop assigns. -/
structure ParamVars where
  params : List (Option CStr)
  keyHostname : Option CStr
  keyFTPuser : Option CStr
  keyUri : Option CStr
  maxseg : Int
  deriving DecidableEq, Repr

/-- The body of the loop of lines 121-157 for index `i`; `uri` is `r->uri`,
which line 106 has found not NULL. -/
def collectParam (rt : Runtime) (conf : vhost_dbd_conf) (r : request_rec) (uri : CStr)
    (v : ParamVars) (i : Nat) : ParamVars :=
  match conf.params.getD i ParamName.hostname with
  | ParamName.hostname =>
    let keyHostname := r.fields.hostname.map rt.ap_escape_logitem
    { v with keyHostname := keyHostname, params := v.params.set i keyHostname }
  | ParamName.ip =>
    { v with params := v.params.set i (some r.mainreq.connection.local_ip) }
  | ParamName.port =>
    { v with params := v.params.set i (some (apr_itoa r.mainreq.connection.local_port)) }
  | ParamName.ftpuser =>
    let keyFTPuser := r.mainreq.user.map rt.ap_escape_logitem
    { v with keyFTPuser := keyFTPuser, params := v.params.set i keyFTPuser }
  | ParamName.uri =>
    let start := rt.ap_escape_uri uri
    let j := conf.urisegs.getD i 0
    if j ≠ 0 then
      let param := leadingSegments j start
      let v1 := { v with params := v.params.set i (some param) }
      if j > v.maxseg then { v1 with maxseg := j, keyUri := some param } else v1
    else
      { v with params := v.params.set i (some start), maxseg := 10, keyUri := some start }

/-- The parameter loop of lines 111-157: `params` starts as `nparams` NULL
pointers, the keys as NULL and `maxseg` as 0. -/
def collectParams (rt : Runtime) (conf : vhost_dbd_conf) (r : request_rec) (uri : CStr) :
    ParamVars :=
  (List.range conf.nparams).foldl (collectParam rt conf r uri)
    { params := List.replicate conf.nparams none, keyHostname := none, keyFTPuser := none,
      keyUri := none, maxseg := 0 }

/-- The segment counts of the URI parameters among the first `k`
parameters of the configuration, in the order of the list. -/
def uriDescriptorsUpTo (conf : vhost_dbd_conf) (k : Nat) : List Int :=
  (List.range k).filterMap
    (fun i => if conf.params.getD i ParamName.hostname = ParamName.uri
              then some (conf.urisegs.getD i 0) else none)

/-- The segment counts of all the URI parameters of the configuration. -/
def uriDescriptors (conf : vhost_dbd_conf) : List Int :=
  uriDescriptorsUpTo conf conf.nparams

/-- The parameter codes of the configuration: the first `nparams` cells of
`params`. -/
def paramCodes (conf : vhost_dbd_conf) : List ParamName :=
  (List.range conf.nparams).map (fun i => conf.params.getD i ParamName.hostname)

/-- The key of lines 164-167.  A NULL `keyUri` ends the argument list of
`apr_pstrcat`, which adds nothing, like the empty string. -/
def cacheKey (v : ParamVars) : CStr :=
  "DBD:vhostKey=".toList ++ v.keyHostname.getD [] ++ ['\t'] ++ v.keyFTPuser.getD [] ++ ['\t']
    ++ v.keyUri.getD []

/-- The key `setDocRoot` computes for a request whose URI passed line 106. -/
def requestKey (rt : Runtime) (conf : vhost_dbd_conf) (r : request_rec) : CStr :=
  cacheKey (collectParams rt conf r (r.fields.uri.getD []))

/-- The test of line 106 on a URI that is not NULL: it neither begins with
`/` nor is the string `*`. -/
def invalidUri (uri : CStr) : Bool :=
  uri.headD NUL != '/' && uri != ['*']

/-- The loop `while (!apr_dbd_get_row(..)) continue;` (lines 204-205 and
283-284) on the rows that are left. -/
def flushRows : List apr_dbd_row_t → DbTrace → DbTrace
  | [], tr => { tr with get_row_calls := tr.get_row_calls + 1, unfetched := [] }
  | row :: rest, tr =>
    flushRows rest
      { tr with get_row_calls := tr.get_row_calls + 1, fetched := tr.fetched ++ [row],
                unfetched := rest }

/-- The name of the exported variable: every character that is not
alphanumeric becomes `_` (lines 254-257). -/
def sanitizeName (name : CStr) : CStr :=
  name.map (fun c => if !apr_isalnum c then '_' else c)

/-- The body of the loop of lines 248-264 for column `j`. -/
def exportColumn (res : apr_dbd_results_t) (row : apr_dbd_row_t) (env : apr_table_t)
    (j : Nat) : apr_table_t :=
  match apr_dbd_get_name res j with
  | none => env
  | some name =>
    if name = [] then env
    else
      let str := sanitizeName name
      match apr_dbd_get_entry row j with
      | none => apr_table_unset env str
      | some val => if val = [] then apr_table_unset env str else apr_table_set env str val

/-- The loop `for (j = 1; j < cols; j++)` of lines 248-264 (compiled in for
apr-util 1.3 and later). -/
def exportColumns (res : apr_dbd_results_t) (row : apr_dbd_row_t) (env : apr_table_t)
    (cols : Int) : apr_table_t :=
  ((List.range cols.toNat).drop 1).foldl (exportColumn res row) env

/-- Lines 304-325: the sentinel declines; otherwise the root is merged with
the URI without its leading slashes, a failed merge is forbidden, and a good
one sets both file names and saves the root under the key. -/
def mapToFile (rt : Runtime) (uri key newroot : CStr) (rv : Int) (o : Outcome) : Outcome :=
  if newroot = NO_DOCROOT then { o with status := DECLINED }
  else
    let trimmedUri := uri.dropWhile (fun c => c == '/')
    match rt.apr_filepath_merge newroot trimmedUri
        (APR_FILEPATH_TRUENAME ||| APR_FILEPATH_SECUREROOT) with
    | none => { o with status := HTTP_FORBIDDEN }
    | some path =>
      { o with status := if rv = 0 then OK else HTTP_BAD_REQUEST,
               filename := some path, canonical_filename := some path,
               notes := apr_table_set o.notes key newroot }

/-- Lines 177-188: the statement prepared under the label of the
configuration, replaced by the one prepared under `conf->sql` when that is a
simple name with a prepared statement; `none` when the label has none. -/
def resolveStatement (conf : vhost_dbd_conf) (dbd : ap_dbd_t) (label : CStr) :
    Option apr_dbd_prepared_t :=
  match apr_hash_get dbd.prepared label with
  | none => none
  | some stmt0 =>
    if isSimpleName conf.sql ≠ 0 then
      match apr_hash_get dbd.prepared conf.sql with
      | some prestmt => some prestmt
      | none => some stmt0
    else some stmt0

/-- Lines 198-284, after a successful `apr_dbd_pselect` with status `rv` and
result set `res`; `tr` is the trace up to the execution. -/
def readResult (rt : Runtime) (uri key : CStr) (rv : Int) (res : apr_dbd_results_t)
    (o : Outcome) (tr : DbTrace) : Outcome :=
  let rows := res.num_tuples
  if rows > 1 then
    { o with status := HTTP_INTERNAL_SERVER_ERROR, db := flushRows res.rows tr }
  else if rows = 0 then
    { o with status := DECLINED, notes := apr_table_set o.notes key NO_DOCROOT, db := tr }
  else
    let cols := res.num_cols
    if cols = 0 then { o with status := HTTP_INTERNAL_SERVER_ERROR, db := tr }
    else
      match apr_dbd_get_row res.rows with
      | none =>
        let tr3 : DbTrace := { tr with get_row_calls := tr.get_row_calls + 1 }
        if rows < 0 then { o with status := DECLINED, db := tr3 }
        else { o with status := HTTP_INTERNAL_SERVER_ERROR, db := tr3 }
      | some (row, rest) =>
        let tr3 : DbTrace :=
          { tr with get_row_calls := tr.get_row_calls + 1, fetched := tr.fetched ++ [row],
                    unfetched := rest }
        match apr_dbd_get_entry row 0 with
        | none => { o with status := HTTP_FORBIDDEN, db := tr3 }
        | some newroot =>
          if newroot = [] then { o with status := HTTP_FORBIDDEN, db := tr3 }
          else
            mapToFile rt uri key newroot rv
              { o with subprocess_env := exportColumns res row o.subprocess_env cols,
                       db := flushRows rest tr3 }

/-- Lines 171-196 and what follows them: the query that is run when the
notes have no value for the key.  `dbd` is what `dbd_acquire_fn(r)` returns. -/
def runQuery (rt : Runtime) (conf : vhost_dbd_conf) (label : CStr) (dbd : Option ap_dbd_t)
    (uri key : CStr) (params : List (Option CStr)) (o : Outcome) : Outcome :=
  let tr1 : DbTrace := { DbTrace.none with acquired := 1 }
  match dbd with
  | none => { o with status := HTTP_INTERNAL_SERVER_ERROR, db := tr1 }
  | some dbd =>
    match resolveStatement conf dbd label with
    | none => { o with status := HTTP_INTERNAL_SERVER_ERROR, db := tr1 }
    | some stmt =>
      let rv := (dbd.pselect stmt params).1
      let res := (dbd.pselect stmt params).2
      if rv ≠ 0 then
        { o with status := HTTP_INTERNAL_SERVER_ERROR,
                 db := { tr1 with executed := [(stmt, params)] } }
      else
        readResult rt uri key rv res o
          { tr1 with executed := [(stmt, params)], unfetched := res.rows }

/-- The notes and the request as they are when `setDocRoot` is entered, with
no database operation; the status is replaced on every path but the first
return of line 103, which declines. -/
def unchanged (r : request_rec) (notes : apr_table_t) : Outcome :=
  { status := DECLINED, notes := notes, subprocess_env := r.fields.subprocess_env,
    filename := r.fields.filename, canonical_filename := r.fields.canonical_filename,
    db := DbTrace.none }

/-- The trace when `apr_dbd_pselect` has returned: one connection acquired,
one statement executed, no row fetched yet. -/
def executedTrace (stmt : apr_dbd_prepared_t) (args : List (Option CStr))
    (rows : List apr_dbd_row_t) : DbTrace :=
  { acquired := 1, executed := [(stmt, args)], get_row_calls := 0, fetched := [],
    unfetched := rows }

/-- The hook `setDocRoot` (lines 77-326) for request `r`, with the notes of
its connection and the value `dbd` that `dbd_acquire_fn(r)` would return. -/
def setDocRoot (rt : Runtime) (conf : vhost_dbd_conf) (dbd : Option ap_dbd_t)
    (r : request_rec) (notes : apr_table_t) : Outcome :=
  let o : Outcome := unchanged r notes
  match conf.label with
  | none => o
  | some label =>
    if r.fields.proxyreq ≠ 0 then { o with status := HTTP_FORBIDDEN }
    else
      match r.fields.uri with
      | none => { o with status := HTTP_BAD_REQUEST }
      | some uri =>
        if invalidUri uri then { o with status := HTTP_BAD_REQUEST }
        else
          let v := collectParams rt conf r uri
          let key := cacheKey v
          match apr_table_get notes key with
          | some newroot => mapToFile rt uri key newroot 0 o
          | none => runQuery rt conf label dbd uri key v.params o

/-- A series of requests served one after the other on one connection: each
call of `setDocRoot` starts from the notes the call before it left. -/
def serve (rt : Runtime) (conf : vhost_dbd_conf) :
    apr_table_t → List (request_rec × Option ap_dbd_t) → List Outcome
  | _, [] => []
  | notes, (r, dbd) :: rest =>
    let o := setDocRoot rt conf dbd r notes
    o :: serve rt conf o.notes rest

/-- The notes a series of requests leaves on the connection. -/
def notesAfter (rt : Runtime) (conf : vhost_dbd_conf) :
    apr_table_t → List (request_rec × Option ap_dbd_t) → apr_table_t
  | notes, [] => notes
  | notes, (r, dbd) :: rest => notesAfter rt conf (setDocRoot rt conf dbd r notes).notes rest

/-- The keys the resolver uses in the notes begin with `DBD:vhostKey=`; the
table compares keys without regard to letter case. -/
def isResolverKey (key : CStr) : Bool :=
  keyMatch (key.take 13) "DBD:vhostKey=".toList

/-- What the notes may hold under a resolver key: the sentinel, or a root
that is not empty, is not the sentinel, and which `apr_filepath_merge` has
merged with a path. -/
def StoredValueOk (rt : Runtime) (v : CStr) : Prop :=
  v = NO_DOCROOT
    ∨ (v ≠ [] ∧ v ≠ NO_DOCROOT
      ∧ ∃ add path, rt.apr_filepath_merge v add
          (APR_FILEPATH_TRUENAME ||| APR_FILEPATH_SECUREROOT) = some path)

/-! ## Configuration -/

/-- The state a directive works on: the server configuration, the static
counter `label_num`, and the statements handed to `dbd_prepare_fn` as
pairs of label and SQL text. -/
structure DirectiveState where
  conf : vhost_dbd_conf
  label_num : Nat
  prepared : List (CStr × CStr)
  deriving DecidableEq, Repr

/-- The function `config_server` (lines 390-400): the zeroed configuration. -/
def config_server : vhost_dbd_conf :=
  { label := none, sql := [], nparams := 0,
    params := List.replicate MAX_PARAMS ParamName.hostname,
    urisegs := List.replicate MAX_PARAMS 0 }

/-- The function `merge_config_server` (lines 382-388). -/
def merge_config_server (base add : vhost_dbd_conf) : vhost_dbd_conf :=
  if add.label.isSome then add else base

/-- The chain of comparisons of lines 342-366: the parameter code for the
token, with the segment count for a URI token, or `none` for a name that is
not accepted. -/
def paramKind (rt : Runtime) (paramName : CStr) : Option (ParamName × Option Int) :=
  if rt.apr_strnatcasecmp paramName "hostname".toList = 0 then some (ParamName.hostname, none)
  else if rt.apr_strnatcasecmp paramName "ip".toList = 0 then some (ParamName.ip, none)
  else if rt.apr_strnatcasecmp paramName "port".toList = 0 then some (ParamName.port, none)
  else if rt.apr_strnatcasecmp paramName "ftpuser".toList = 0
      && rt.ap_find_linked_module "mod_ftp.c".toList then some (ParamName.ftpuser, none)
  else
    let uricmd := paramName.take 3
    if rt.apr_strnatcasecmp uricmd "uri".toList = 0
        && (paramName.getD 3 NUL == NUL
            || (apr_isdigit (paramName.getD 3 NUL) && paramName.getD 4 NUL == NUL)) then
      some (ParamName.uri, some (atoi (paramName.drop 3)))
    else none

/-- From the claim about the directive: the kind of a token compared without
regard to letter case.  HOSTNAME, IP, PORT, FTPUSER (when mod_ftp is linked,
`ftp`), URI with the segment count 0, and URI followed by one digit with that
digit as segment count; `none` for every other token. -/
def specTokenKind (ftp : Bool) (t : CStr) : Option (ParamName × Option Int) :=
  if keyMatch t "hostname".toList then some (ParamName.hostname, none)
  else if keyMatch t "ip".toList then some (ParamName.ip, none)
  else if keyMatch t "port".toList then some (ParamName.port, none)
  else if keyMatch t "ftpuser".toList && ftp then some (ParamName.ftpuser, none)
  else if keyMatch t "uri".toList then some (ParamName.uri, some 0)
  else
    match t with
    | [a, b, c, d] =>
      if keyMatch [a, b, c] "uri".toList && apr_isdigit d then
        some (ParamName.uri, some ((d.toNat - 48 : Nat) : Int))
      else none
    | _ => none

/-- The directive handler `setVhostQuery` (lines 329-380): the error message
or NULL, and the state after the call. -/
def setVhostQuery (rt : Runtime) (s : DirectiveState) (sql paramName : CStr) :
    Option CStr × DirectiveState :=
  if !rt.mod_dbd_loaded then (some "mod_dbd must be enabled to use mod_vhost_dbd".toList, s)
  else if s.conf.nparams ≥ MAX_PARAMS then (some "mod_vhost_dbd: Too many parameters".toList, s)
  else
    match paramKind rt paramName with
    | none => (some ("mod_vhost_dbd: invalid parameter name: ".toList ++ paramName), s)
    | some (code, segs) =>
      let conf1 : vhost_dbd_conf :=
        { s.conf with
          params := s.conf.params.set s.conf.nparams code,
          urisegs :=
            match segs with
            | some n => s.conf.urisegs.set s.conf.nparams n
            | none => s.conf.urisegs,
          nparams := s.conf.nparams + 1 }
      match conf1.label with
      | some _ => (none, { s with conf := conf1 })
      | none =>
        let label := "vhost_dbd_".toList ++ apr_itoa (s.label_num + 1)
        (none,
          { conf := { conf1 with label := some label, sql := sql },
            label_num := s.label_num + 1,
            prepared := s.prepared ++ [(label, sql)] })

/-- The configurations the server can hold: the one `config_server` creates,
those a `setVhostQuery` call leaves, and the merge of two of them. -/
inductive Configured (rt : Runtime) : vhost_dbd_conf → Prop
  | created : Configured rt config_server
  | directive (s : DirectiveState) (sql paramName : CStr) :
      Configured rt s.conf → Configured rt (setVhostQuery rt s sql paramName).2.conf
  | merged (base add : vhost_dbd_conf) :
      Configured rt base → Configured rt add → Configured rt (merge_config_server base add)

/-! ## Example values -/

/-- A stand-in for `ap_escape_logitem`: a tab becomes `\t` and a backslash is
doubled, other characters are kept. -/
def escapeTabs : CStr → CStr
  | [] => []
  | c :: s =>
    if c = '\t' then '\\' :: 't' :: escapeTabs s
    else if c = '\\' then '\\' :: '\\' :: escapeTabs s
    else c :: escapeTabs s

/-- A stand-in for `apr_filepath_merge`: the root, a slash and the added
path, and a failure when the added path starts with two dots. -/
def joinPath (root add : CStr) (_flags : Nat) : Option CStr :=
  if add.take 2 = ['.', '.'] then none else some (root ++ '/' :: add)

/-- A runtime for the examples: the stand-ins above, a comparison that is 0
for strings equal up to letter case, mod_dbd loaded and mod_ftp not linked. -/
def exampleRuntime : Runtime :=
  { ap_escape_logitem := escapeTabs,
    ap_escape_uri := escapeTabs,
    apr_filepath_merge := joinPath,
    apr_strnatcasecmp := fun a b => if keyMatch a b then 0 else 1,
    ap_find_linked_module := fun _ => false,
    mod_dbd_loaded := true }

/-- The state before the first directive. -/
def firstState : DirectiveState :=
  { conf := config_server, label_num := 0, prepared := [] }

/-- The configuration after the directives given by `names`, all with the
query text `sql`. -/
def configure (rt : Runtime) (sql : CStr) (names : List CStr) : DirectiveState :=
  names.foldl (fun s n => (setVhostQuery rt s sql n).2) firstState

/-- A top-level request with the given host name, URI, user, local address
and port, an empty environment and no file name. -/
def plainRequest (host uri : CStr) (user : Option CStr) (ip : CStr) (port : Nat) : request_rec :=
  request_rec.top
    { proxyreq := 0, uri := some uri, hostname := some host, user := user,
      connection := { local_ip := ip, local_port := port },
      subprocess_env := [], filename := none, canonical_filename := none }

/-- A database with the statement `vhost_dbd_1` prepared as statement 1,
whose execution succeeds with the given result set whatever the arguments. -/
def fixedDb (res : apr_dbd_results_t) : ap_dbd_t :=
  { prepared := [("vhost_dbd_1".toList, 1)], pselect := fun _ _ => (0, res) }

/-- A configuration with the single parameter HOSTNAME; its statement is
labelled `vhost_dbd_1`. -/
def hostConf : vhost_dbd_conf :=
  (configure exampleRuntime "SELECT root, theme FROM vhosts WHERE host = %s".toList
    ["hostname".toList]).conf

/-- A request for `/x/y` on host `a.example`. -/
def hostRequest : request_rec :=
  plainRequest "a.example".toList "/x/y".toList none "10.0.0.1".toList 80

/-- A result set of two rows, reported as two rows. -/
def twoRows : apr_dbd_results_t :=
  { num_tuples := 2, num_cols := 1, names := [some "root".toList],
    rows := [[some "/srv/a".toList], [some "/srv/b".toList]] }

/-- A result set reported as empty. -/
def zeroRows : apr_dbd_results_t :=
  { num_tuples := 0, num_cols := 1, names := [some "root".toList], rows := [] }

/-- An empty result set of a driver that cannot report the number of rows. -/
def unknownNoRows : apr_dbd_results_t :=
  { num_tuples := -1, num_cols := 1, names := [some "root".toList], rows := [] }

/-- One row with the root `/srv/site1` and the column `theme` set to `dark`. -/
def siteRow : apr_dbd_results_t :=
  { num_tuples := 1, num_cols := 2, names := [some "root".toList, some "theme".toList],
    rows := [[some "/srv/site1".toList, some "dark".toList]] }

/-- Two rows of a driver that cannot report the number of rows; the root of
the first row is the empty string. -/
def emptyRootRows : apr_dbd_results_t :=
  { num_tuples := -1, num_cols := 1, names := [some "root".toList],
    rows := [[some []], [some "/srv/b".toList]] }

/-- A configuration with the single parameter URI2. -/
def segmentConf : vhost_dbd_conf :=
  (configure exampleRuntime "SELECT root FROM sites WHERE path = %s".toList ["URI2".toList]).conf

/-- A request for `/a/b/c` on host `a.example`. -/
def segmentRequest : request_rec :=
  plainRequest "a.example".toList "/a/b/c".toList none "10.0.0.1".toList 80

/-- One row whose columns `Theme` and `THEME` differ in letter case only;
the first has the value `dark`, the second the empty string. -/
def caseRow : apr_dbd_results_t :=
  { num_tuples := 1, num_cols := 3,
    names := [some "root".toList, some "Theme".toList, some "THEME".toList],
    rows := [[some "/srv/site1".toList, some "dark".toList, some []]] }

/-- One row with the root `/srv/site1` and an empty value in the column
`theme`. -/
def clearRow : apr_dbd_results_t :=
  { num_tuples := 1, num_cols := 2, names := [some "root".toList, some "theme".toList],
    rows := [[some "/srv/site1".toList, some []]] }

/-- The request `hostRequest` with the variable `theme` already set to
`light` in its environment. -/
def themedRequest : request_rec :=
  request_rec.top
    { proxyreq := 0, uri := some "/x/y".toList, hostname := some "a.example".toList,
      user := none, connection := { local_ip := "10.0.0.1".toList, local_port := 80 },
      subprocess_env := [("theme".toList, "light".toList)], filename := none,
      canonical_filename := none }

/-- The request `segmentRequest` sent to the host `b.example`. -/
def otherHostRequest : request_rec :=
  plainRequest "b.example".toList "/a/b/c".toList none "10.0.0.1".toList 80

/-- The request `segmentRequest` with the first two segments of its URI in
capital letters. -/
def capitalRequest : request_rec :=
  plainRequest "a.example".toList "/A/B/c".toList none "10.0.0.1".toList 80

/-- The request `hostRequest` sent to the host `b.example`. -/
def secondHostRequest : request_rec :=
  plainRequest "b.example".toList "/x/y".toList none "10.0.0.1".toList 80

/-- The request `hostRequest` made as a proxy request. -/
def proxiedRequest : request_rec :=
  request_rec.top
    { proxyreq := 1, uri := some "/x/y".toList, hostname := some "a.example".toList,
      user := none, connection := { local_ip := "10.0.0.1".toList, local_port := 80 },
      subprocess_env := [], filename := none, canonical_filename := none }

/-- A request whose URI is an absolute URL: it does not begin with a slash. -/
def absoluteUrlRequest : request_rec :=
  plainRequest "a.example".toList "http://a.example/x".toList none "10.0.0.1".toList 80

/-- One row whose root is NULL; its second column has a value. -/
def nullRootRow : apr_dbd_results_t :=
  { num_tuples := 1, num_cols := 2, names := [some "root".toList, some "theme".toList],
    rows := [[none, some "dark".toList]] }

/-- The notes of a connection on which `hostRequest` was resolved to
`/srv/site1` before. -/
def resolvedNotes : apr_table_t :=
  [(requestKey exampleRuntime hostConf hostRequest, "/srv/site1".toList)]

/-- A configuration whose query text is the label `site_query` of a
statement prepared elsewhere (with `DBDPrepareSQL`); its own statement is
labelled `vhost_dbd_1`. -/
def aliasConf : vhost_dbd_conf :=
  (configure exampleRuntime "site_query".toList ["hostname".toList]).conf

/-- A database with the statements `vhost_dbd_1` and `site_query` prepared
as statements 1 and 7; statement 7 returns the row of `siteRow`, and any
other statement fails with status 1. -/
def aliasDb : ap_dbd_t :=
  { prepared := [("vhost_dbd_1".toList, 1), ("site_query".toList, 7)],
    pselect := fun stmt _ => if stmt = 7 then (0, siteRow) else (1, zeroRows) }

/-- The state after one hundred directives with the token `ip`. -/
def fullState : DirectiveState :=
  configure exampleRuntime "SELECT root FROM sites WHERE ip = %s".toList
    (List.replicate 100 "ip".toList)

end VhostDbd

namespace VhostDbd

/-! ## Facts about APR tables -/

theorem keyMatch_iff (a b : CStr) :
    keyMatch a b = true ↔ a.map Char.toLower = b.map Char.toLower := by
  simp [keyMatch]

theorem keyMatch_self (a : CStr) : keyMatch a a = true := by
  simp [keyMatch]

theorem apr_table_get_congr (t : apr_table_t) (a b : CStr) (h : keyMatch a b = true) :
    apr_table_get t a = apr_table_get t b := by
  rw [keyMatch_iff] at h
  induction t with
  | nil => rfl
  | cons e rest ih =>
    obtain ⟨k, v⟩ := e
    simp only [apr_table_get, keyMatch, h, ih]

theorem apr_table_get_unset (t : apr_table_t) (k k2 : CStr) :
    apr_table_get (apr_table_unset t k) k2
      = if keyMatch k k2 then none else apr_table_get t k2 := by
  induction t with
  | nil => simp [apr_table_unset, apr_table_get]
  | cons e rest ih =>
    obtain ⟨k0, v0⟩ := e
    simp only [apr_table_unset] at ih
    by_cases h0 : keyMatch k0 k = true
    · have e1 : apr_table_unset ((k0, v0) :: rest) k = apr_table_unset rest k := by
        simp [apr_table_unset, h0]
      rw [e1]
      simp only [apr_table_unset, ih, apr_table_get]
      by_cases h1 : keyMatch k k2 = true
      · simp [h1]
      · have h2 : keyMatch k0 k2 = false := by
          rw [keyMatch_iff] at h0
          simp only [keyMatch] at h1 ⊢
          simpa [h0] using h1
        simp [h1, h2]
    · have e1 : apr_table_unset ((k0, v0) :: rest) k = (k0, v0) :: apr_table_unset rest k := by
        simp [apr_table_unset, h0]
      rw [e1]
      simp only [apr_table_unset, ih, apr_table_get]
      by_cases h2 : keyMatch k0 k2 = true
      · have h1 : keyMatch k k2 = false := by
          rw [keyMatch_iff] at h2
          rw [Bool.eq_false_iff]
          intro h1
          rw [keyMatch_iff] at h1
          exact h0 ((keyMatch_iff _ _).2 (h2.trans h1.symm))
        simp [h1, h2]
      · simp [h2]

theorem apr_table_get_set (t : apr_table_t) (k v k2 : CStr) :
    apr_table_get (apr_table_set t k v) k2
      = if keyMatch k k2 then some v else apr_table_get t k2 := by
  induction t with
  | nil => simp [apr_table_set, apr_table_get]
  | cons e rest ih =>
    obtain ⟨k0, v0⟩ := e
    by_cases h0 : keyMatch k0 k = true
    · simp only [apr_table_set, h0, if_true, apr_table_get, apr_table_get_unset]
      by_cases h1 : keyMatch k k2 = true
      · have h2 : keyMatch k0 k2 = true := by
          rw [keyMatch_iff] at h0 h1 ⊢
          rw [h0, h1]
        simp [h1, h2]
      · have h2 : keyMatch k0 k2 = false := by
          rw [keyMatch_iff] at h0
          simp only [keyMatch] at h1 ⊢
          simpa [h0] using h1
        simp [h1, h2]
    · simp only [apr_table_set, h0, apr_table_get, ih]
      by_cases h2 : keyMatch k0 k2 = true
      · have h1 : keyMatch k k2 = false := by
          rw [keyMatch_iff] at h2
          rw [Bool.eq_false_iff]
          intro h1
          rw [keyMatch_iff] at h1
          exact h0 ((keyMatch_iff _ _).2 (h2.trans h1.symm))
        simp [h1, h2]
      · simp [h2]

/-- Setting a key to the value it has, or setting a key that has no value,
leaves every value that was in the table. -/
theorem apr_table_get_set_of_get (t : apr_table_t) (k v K w : CStr)
    (hk : apr_table_get t k = none ∨ apr_table_get t k = some v)
    (hK : apr_table_get t K = some w) :
    apr_table_get (apr_table_set t k v) K = some w := by
  rw [apr_table_get_set]
  by_cases h : keyMatch k K = true
  · have := apr_table_get_congr t k K h
    rw [hK] at this
    rcases hk with hk | hk
    · rw [hk] at this; cases this
    · rw [hk] at this; simp [h, this]
  · simp [h, hK]

end VhostDbd

namespace VhostDbd

/-! ## Effects of one call -/

/-- The three ways `mapToFile` ends. -/
theorem mapToFile_cases (rt : Runtime) (uri key newroot : CStr) (rv : Int) (o : Outcome) :
    (newroot = NO_DOCROOT ∧ mapToFile rt uri key newroot rv o = { o with status := DECLINED })
    ∨ (newroot ≠ NO_DOCROOT
        ∧ rt.apr_filepath_merge newroot (uri.dropWhile (fun c => c == '/'))
            (APR_FILEPATH_TRUENAME ||| APR_FILEPATH_SECUREROOT) = none
        ∧ mapToFile rt uri key newroot rv o = { o with status := HTTP_FORBIDDEN })
    ∨ (newroot ≠ NO_DOCROOT
        ∧ ∃ path, rt.apr_filepath_merge newroot (uri.dropWhile (fun c => c == '/'))
            (APR_FILEPATH_TRUENAME ||| APR_FILEPATH_SECUREROOT) = some path
        ∧ mapToFile rt uri key newroot rv o
            = { o with status := if rv = 0 then OK else HTTP_BAD_REQUEST,
                       filename := some path, canonical_filename := some path,
                       notes := apr_table_set o.notes key newroot }) := by
  unfold mapToFile
  by_cases h : newroot = NO_DOCROOT
  · left; simp [h]
  · right
    simp only [h, if_false]
    cases hm : rt.apr_filepath_merge newroot (uri.dropWhile (fun c => c == '/'))
        (APR_FILEPATH_TRUENAME ||| APR_FILEPATH_SECUREROOT) with
    | none => left; simp [h]
    | some path => right; simp [h]

theorem mapToFile_db (rt : Runtime) (uri key newroot : CStr) (rv : Int) (o : Outcome) :
    (mapToFile rt uri key newroot rv o).db = o.db := by
  rcases mapToFile_cases rt uri key newroot rv o with ⟨_, h⟩ | ⟨_, _, h⟩ | ⟨_, _, _, h⟩ <;>
    rw [h]

theorem mapToFile_env (rt : Runtime) (uri key newroot : CStr) (rv : Int) (o : Outcome) :
    (mapToFile rt uri key newroot rv o).subprocess_env = o.subprocess_env := by
  rcases mapToFile_cases rt uri key newroot rv o with ⟨_, h⟩ | ⟨_, _, h⟩ | ⟨_, _, _, h⟩ <;>
    rw [h]

theorem mapToFile_notes (rt : Runtime) (uri key newroot : CStr) (rv : Int) (o : Outcome) :
    (mapToFile rt uri key newroot rv o).notes = o.notes
      ∨ (mapToFile rt uri key newroot rv o).notes = apr_table_set o.notes key newroot := by
  rcases mapToFile_cases rt uri key newroot rv o with ⟨_, h⟩ | ⟨_, _, h⟩ | ⟨_, _, _, h⟩
  · left; rw [h]
  · left; rw [h]
  · right; rw [h]

theorem readResult_notes (rt : Runtime) (uri key : CStr) (rv : Int) (res : apr_dbd_results_t)
    (o : Outcome) (tr : DbTrace) :
    (readResult rt uri key rv res o tr).notes = o.notes
      ∨ ∃ val, (readResult rt uri key rv res o tr).notes = apr_table_set o.notes key val := by
  unfold readResult
  simp only []
  repeat' split
  all_goals first
    | (left; rfl)
    | (right; exact ⟨_, rfl⟩)
    | (rcases mapToFile_notes rt uri key _ _ _ with h | h
       · left; rw [h]
       · right; exact ⟨_, h⟩)

theorem runQuery_notes (rt : Runtime) (conf : vhost_dbd_conf) (label : CStr)
    (dbd : Option ap_dbd_t) (uri key : CStr) (params : List (Option CStr)) (o : Outcome) :
    (runQuery rt conf label dbd uri key params o).notes = o.notes
      ∨ ∃ val, (runQuery rt conf label dbd uri key params o).notes
          = apr_table_set o.notes key val := by
  unfold runQuery
  simp only []
  repeat' split
  all_goals first
    | (left; rfl)
    | exact readResult_notes _ _ _ _ _ _ _

theorem setDocRoot_notes (rt : Runtime) (conf : vhost_dbd_conf) (dbd : Option ap_dbd_t)
    (r : request_rec) (notes : apr_table_t) :
    (setDocRoot rt conf dbd r notes).notes = notes
      ∨ ∃ key val, (setDocRoot rt conf dbd r notes).notes = apr_table_set notes key val
          ∧ (apr_table_get notes key = none ∨ apr_table_get notes key = some val) := by
  unfold setDocRoot unchanged
  simp only []
  split
  · left; rfl
  · split
    · left; rfl
    · split
      · left; rfl
      · split
        · left; rfl
        · split
          · rename_i newroot hget
            rcases mapToFile_notes rt _ (cacheKey (collectParams rt conf r _)) newroot 0 _ with h | h
            · left; rw [h]
            · right; exact ⟨_, _, h, Or.inr hget⟩
          · rename_i hget
            rcases runQuery_notes rt conf _ dbd _ (cacheKey (collectParams rt conf r _))
              (collectParams rt conf r _).params _ with h | ⟨val, h⟩
            · left; rw [h]
            · right; exact ⟨_, _, h, Or.inl hget⟩

/-- A value held by the notes is still held after any call. -/
theorem setDocRoot_keeps (rt : Runtime) (conf : vhost_dbd_conf) (dbd : Option ap_dbd_t)
    (r : request_rec) (notes : apr_table_t) (K w : CStr)
    (hK : apr_table_get notes K = some w) :
    apr_table_get (setDocRoot rt conf dbd r notes).notes K = some w := by
  rcases setDocRoot_notes rt conf dbd r notes with h | ⟨key, val, h, hk⟩
  · rw [h]; exact hK
  · rw [h]; exact apr_table_get_set_of_get notes key val K w hk hK

/-- A call whose key has a value in the notes does nothing with the database. -/
theorem setDocRoot_hit_db (rt : Runtime) (conf : vhost_dbd_conf) (dbd : Option ap_dbd_t)
    (r : request_rec) (notes : apr_table_t)
    (hK : apr_table_get notes (requestKey rt conf r) ≠ none) :
    (setDocRoot rt conf dbd r notes).db = DbTrace.none := by
  unfold setDocRoot unchanged
  simp only []
  split
  · rfl
  · split
    · rfl
    · split
      · rfl
      · split
        · rfl
        · rename_i uri huri _
          split
          · rw [mapToFile_db]
          · rename_i hget
            exfalso
            apply hK
            simpa [requestKey, huri] using hget

end VhostDbd

namespace VhostDbd

theorem flushRows_executed (rows : List apr_dbd_row_t) (tr : DbTrace) :
    (flushRows rows tr).executed = tr.executed := by
  induction rows generalizing tr with
  | nil => rfl
  | cons row rest ih => simp only [flushRows, ih]

theorem flushRows_acquired (rows : List apr_dbd_row_t) (tr : DbTrace) :
    (flushRows rows tr).acquired = tr.acquired := by
  induction rows generalizing tr with
  | nil => rfl
  | cons row rest ih => simp only [flushRows, ih]

theorem flushRows_unfetched (rows : List apr_dbd_row_t) (tr : DbTrace) :
    (flushRows rows tr).unfetched = [] := by
  induction rows generalizing tr with
  | nil => rfl
  | cons row rest ih => simp only [flushRows, ih]

theorem flushRows_fetched (rows : List apr_dbd_row_t) (tr : DbTrace) :
    (flushRows rows tr).fetched = tr.fetched ++ rows := by
  induction rows generalizing tr with
  | nil => simp [flushRows]
  | cons row rest ih => simp only [flushRows, ih, List.append_assoc, List.singleton_append]

theorem flushRows_calls (rows : List apr_dbd_row_t) (tr : DbTrace) :
    (flushRows rows tr).get_row_calls = tr.get_row_calls + rows.length + 1 := by
  induction rows generalizing tr with
  | nil => simp [flushRows]
  | cons row rest ih => simp only [flushRows, ih, List.length_cons]; omega

theorem readResult_executed (rt : Runtime) (uri key : CStr) (rv : Int)
    (res : apr_dbd_results_t) (o : Outcome) (tr : DbTrace) :
    (readResult rt uri key rv res o tr).db.executed = tr.executed := by
  unfold readResult
  simp only []
  repeat' split
  all_goals simp [mapToFile_db, flushRows_executed]

theorem readResult_acquired (rt : Runtime) (uri key : CStr) (rv : Int)
    (res : apr_dbd_results_t) (o : Outcome) (tr : DbTrace) :
    (readResult rt uri key rv res o tr).db.acquired = tr.acquired := by
  unfold readResult
  simp only []
  repeat' split
  all_goals simp [mapToFile_db, flushRows_acquired]

theorem runQuery_executed (rt : Runtime) (conf : vhost_dbd_conf) (label : CStr)
    (dbd : Option ap_dbd_t) (uri key : CStr) (params : List (Option CStr)) (o : Outcome) :
    (runQuery rt conf label dbd uri key params o).db.executed.length ≤ 1 := by
  unfold runQuery
  simp only []
  repeat' split
  all_goals simp [readResult_executed, DbTrace.none]

theorem runQuery_acquired (rt : Runtime) (conf : vhost_dbd_conf) (label : CStr)
    (dbd : Option ap_dbd_t) (uri key : CStr) (params : List (Option CStr)) (o : Outcome) :
    (runQuery rt conf label dbd uri key params o).db.acquired = 1 := by
  unfold runQuery
  simp only []
  repeat' split
  all_goals simp [readResult_acquired, DbTrace.none]

theorem setDocRoot_executed (rt : Runtime) (conf : vhost_dbd_conf) (dbd : Option ap_dbd_t)
    (r : request_rec) (notes : apr_table_t) :
    (setDocRoot rt conf dbd r notes).db.executed.length ≤ 1 := by
  unfold setDocRoot unchanged
  simp only []
  repeat' split
  all_goals first
    | exact runQuery_executed _ _ _ _ _ _ _ _
    | simp [mapToFile_db, DbTrace.none]

theorem mapToFile_ok (rt : Runtime) (uri key newroot : CStr) (rv : Int) (o : Outcome)
    (h : (mapToFile rt uri key newroot rv o).status = OK) :
    apr_table_get (mapToFile rt uri key newroot rv o).notes key = some newroot := by
  rcases mapToFile_cases rt uri key newroot rv o with ⟨_, e⟩ | ⟨_, _, e⟩ | ⟨_, _, _, e⟩
  · rw [e] at h; simp [OK, DECLINED] at h
  · rw [e] at h; simp [OK, HTTP_FORBIDDEN] at h
  · rw [e]; simp [apr_table_get_set, keyMatch_self]

theorem readResult_ok (rt : Runtime) (uri key : CStr) (rv : Int) (res : apr_dbd_results_t)
    (o : Outcome) (tr : DbTrace) (h : (readResult rt uri key rv res o tr).status = OK) :
    apr_table_get (readResult rt uri key rv res o tr).notes key ≠ none := by
  revert h
  unfold readResult
  simp only []
  repeat' split
  all_goals first
    | (intro h; simp [OK, DECLINED, HTTP_FORBIDDEN, HTTP_INTERNAL_SERVER_ERROR] at h; done)
    | (intro h; rw [mapToFile_ok _ _ _ _ _ _ h]; simp)

theorem runQuery_ok (rt : Runtime) (conf : vhost_dbd_conf) (label : CStr)
    (dbd : Option ap_dbd_t) (uri key : CStr) (params : List (Option CStr)) (o : Outcome)
    (h : (runQuery rt conf label dbd uri key params o).status = OK) :
    apr_table_get (runQuery rt conf label dbd uri key params o).notes key ≠ none := by
  revert h
  unfold runQuery
  simp only []
  repeat' split
  all_goals first
    | (intro h; simp [OK, DECLINED, HTTP_FORBIDDEN, HTTP_INTERNAL_SERVER_ERROR] at h; done)
    | exact readResult_ok _ _ _ _ _ _ _

/-- A call that returns OK leaves a value under the key of its request. -/
theorem setDocRoot_ok_cached (rt : Runtime) (conf : vhost_dbd_conf) (dbd : Option ap_dbd_t)
    (r : request_rec) (notes : apr_table_t)
    (h : (setDocRoot rt conf dbd r notes).status = OK) :
    apr_table_get (setDocRoot rt conf dbd r notes).notes (requestKey rt conf r) ≠ none := by
  revert h
  unfold setDocRoot unchanged
  simp only []
  split
  · intro h; simp [OK, DECLINED] at h
  · split
    · intro h; simp [OK, HTTP_FORBIDDEN] at h
    · split
      · intro h; simp [OK, HTTP_BAD_REQUEST] at h
      · rename_i uri huri
        have hk : requestKey rt conf r = cacheKey (collectParams rt conf r uri) := by
          simp [requestKey, huri]
        split
        · intro h; simp [OK, HTTP_BAD_REQUEST] at h
        · split
          · intro h; rw [hk, mapToFile_ok _ _ _ _ _ _ h]; simp
          · intro h; rw [hk]; exact runQuery_ok _ _ _ _ _ _ _ _ h

/-- Once the notes hold a value for the key that all the requests share, no
call touches the database and the value stays. -/
theorem serve_cached (rt : Runtime) (conf : vhost_dbd_conf) (K w : CStr)
    (steps : List (request_rec × Option ap_dbd_t)) (notes : apr_table_t)
    (hK : ∀ s ∈ steps, requestKey rt conf s.1 = K)
    (hw : apr_table_get notes K = some w) :
    ∀ o ∈ serve rt conf notes steps, o.db = DbTrace.none ∧ apr_table_get o.notes K = some w := by
  induction steps generalizing notes with
  | nil => intro o ho; simp [serve] at ho
  | cons s rest ih =>
    obtain ⟨r, dbd⟩ := s
    intro o ho
    simp only [serve, List.mem_cons] at ho
    have hr : requestKey rt conf r = K := hK (r, dbd) (List.mem_cons_self _ _)
    have hkeep := setDocRoot_keeps rt conf dbd r notes K w hw
    rcases ho with rfl | ho
    · refine ⟨setDocRoot_hit_db rt conf dbd r notes ?_, hkeep⟩
      rw [hr, hw]; simp
    · exact ih _ (fun s hs => hK s (List.mem_cons_of_mem _ hs)) hkeep o ho

theorem serve_pair (rt : Runtime) (conf : vhost_dbd_conf) (K : CStr)
    (steps : List (request_rec × Option ap_dbd_t)) (notes : apr_table_t)
    (hK : ∀ s ∈ steps, requestKey rt conf s.1 = K)
    (i j : Nat) (oi oj : Outcome) (hij : i < j)
    (hi : (serve rt conf notes steps)[i]? = some oi)
    (hj : (serve rt conf notes steps)[j]? = some oj)
    (hc : apr_table_get oi.notes K ≠ none) :
    oj.db = DbTrace.none ∧ apr_table_get oj.notes K = apr_table_get oi.notes K := by
  induction steps generalizing notes i j with
  | nil => simp [serve] at hi
  | cons s rest ih =>
    obtain ⟨r, dbd⟩ := s
    have hrest : ∀ s ∈ rest, requestKey rt conf s.1 = K :=
      fun s hs => hK s (List.mem_cons_of_mem _ hs)
    cases j with
    | zero => omega
    | succ j =>
      simp only [serve, List.getElem?_cons_succ] at hj
      cases i with
      | zero =>
        simp only [serve, List.getElem?_cons_zero, Option.some.injEq] at hi
        subst hi
        obtain ⟨w, hw⟩ := Option.ne_none_iff_exists'.1 hc
        have := serve_cached rt conf K w rest _ hrest hw oj (List.getElem?_mem hj)
        rw [hw]; exact this
      | succ i =>
        simp only [serve, List.getElem?_cons_succ] at hi
        exact ih _ hrest i j (by omega) hi hj

theorem serve_mem (rt : Runtime) (conf : vhost_dbd_conf)
    (steps : List (request_rec × Option ap_dbd_t)) (notes : apr_table_t) (o : Outcome)
    (ho : o ∈ serve rt conf notes steps) :
    ∃ r dbd notes0, (r, dbd) ∈ steps ∧ o = setDocRoot rt conf dbd r notes0 := by
  induction steps generalizing notes with
  | nil => simp [serve] at ho
  | cons s rest ih =>
    obtain ⟨r, dbd⟩ := s
    simp only [serve, List.mem_cons] at ho
    rcases ho with rfl | ho
    · exact ⟨r, dbd, notes, List.mem_cons_self _ _, rfl⟩
    · obtain ⟨r2, d2, n2, hm, e⟩ := ih _ ho
      exact ⟨r2, d2, n2, List.mem_cons_of_mem _ hm, e⟩

end VhostDbd

namespace VhostDbd

theorem notesAfter_keeps (rt : Runtime) (conf : vhost_dbd_conf) (K w : CStr)
    (steps : List (request_rec × Option ap_dbd_t)) (notes : apr_table_t)
    (hK : apr_table_get notes K = some w) :
    apr_table_get (notesAfter rt conf notes steps) K = some w := by
  induction steps generalizing notes with
  | nil => exact hK
  | cons s rest ih =>
    obtain ⟨r, dbd⟩ := s
    exact ih _ (setDocRoot_keeps rt conf dbd r notes K w hK)

/-- A request that passes the checks of lines 102-110 and finds the sentinel
under its key is declined, with no database operation and the notes as
they were. -/
theorem setDocRoot_hit_sentinel (rt : Runtime) (conf : vhost_dbd_conf) (dbd : Option ap_dbd_t)
    (r : request_rec) (notes : apr_table_t)
    (hK : apr_table_get notes (requestKey rt conf r) = some NO_DOCROOT) :
    ((setDocRoot rt conf dbd r notes).status = DECLINED
        ∨ (setDocRoot rt conf dbd r notes).status = HTTP_FORBIDDEN ∧ r.fields.proxyreq ≠ 0
        ∨ (setDocRoot rt conf dbd r notes).status = HTTP_BAD_REQUEST
            ∧ (r.fields.uri = none ∨ ∃ u, r.fields.uri = some u ∧ invalidUri u = true))
      ∧ (setDocRoot rt conf dbd r notes).db = DbTrace.none
      ∧ (setDocRoot rt conf dbd r notes).notes = notes := by
  refine ⟨?_, setDocRoot_hit_db rt conf dbd r notes (by rw [hK]; simp), ?_⟩
  · unfold setDocRoot
    simp only []
    split
    · left; rfl
    · split
      · rename_i hp; right; left; exact ⟨rfl, hp⟩
      · split
        · rename_i hu; right; right; exact ⟨rfl, Or.inl hu⟩
        · rename_i uri huri
          split
          · rename_i hinv; right; right; exact ⟨rfl, Or.inr ⟨uri, huri, hinv⟩⟩
          · have hk : apr_table_get notes (cacheKey (collectParams rt conf r uri))
                = some NO_DOCROOT := by
              simpa [requestKey, huri] using hK
            rw [hk]
            left
            simp [mapToFile]
  · unfold setDocRoot
    simp only []
    split
    · rfl
    · split
      · rfl
      · split
        · rfl
        · rename_i uri huri
          split
          · rfl
          · have hk : apr_table_get notes (cacheKey (collectParams rt conf r uri))
                = some NO_DOCROOT := by
              simpa [requestKey, huri] using hK
            rw [hk]
            simp [mapToFile, unchanged]

theorem readResult_zero_rows (rt : Runtime) (uri key : CStr) (rv : Int)
    (res : apr_dbd_results_t) (o : Outcome) (tr : DbTrace) (h : res.num_tuples = 0) :
    readResult rt uri key rv res o tr
      = { o with status := DECLINED, notes := apr_table_set o.notes key NO_DOCROOT, db := tr } := by
  unfold readResult
  simp [h]

end VhostDbd

namespace VhostDbd

theorem runQuery_inv (rt : Runtime) (conf : vhost_dbd_conf) (label : CStr)
    (dbd : ap_dbd_t) (uri key : CStr) (params : List (Option CStr)) (o : Outcome)
    (stmt : apr_dbd_prepared_t) (args : List (Option CStr))
    (hex : (runQuery rt conf label (some dbd) uri key params o).db.executed = [(stmt, args)])
    (hrv : (dbd.pselect stmt args).1 = 0) :
    resolveStatement conf dbd label = some stmt ∧ args = params
      ∧ runQuery rt conf label (some dbd) uri key params o
        = readResult rt uri key 0 (dbd.pselect stmt args).2 o
            (executedTrace stmt args (dbd.pselect stmt args).2.rows) := by
  revert hex
  unfold runQuery
  simp only []
  cases hres : resolveStatement conf dbd label with
  | none => simp [DbTrace.none]
  | some s =>
    simp only []
    by_cases hr : (dbd.pselect s params).1 ≠ 0
    · rw [if_pos hr]
      intro hex
      simp only [List.cons.injEq, Prod.mk.injEq, and_true] at hex
      obtain ⟨rfl, rfl⟩ := hex
      exact absurd hrv hr
    · rw [if_neg hr]
      simp only [readResult_executed]
      intro hex
      simp only [List.cons.injEq, Prod.mk.injEq, and_true] at hex
      obtain ⟨rfl, rfl⟩ := hex
      refine ⟨rfl, rfl, ?_⟩
      rw [hrv]
      rfl

/-- When a call has executed a statement with success, what it returns is
what `readResult` makes of the result set, starting from the notes and the
request as they were: the request passed the checks of lines 102-110 and
its key had no value in the notes. -/
theorem setDocRoot_inv (rt : Runtime) (conf : vhost_dbd_conf) (dbd : ap_dbd_t)
    (r : request_rec) (notes : apr_table_t)
    (stmt : apr_dbd_prepared_t) (args : List (Option CStr))
    (hex : (setDocRoot rt conf (some dbd) r notes).db.executed = [(stmt, args)])
    (hrv : (dbd.pselect stmt args).1 = 0) :
    ∃ uri label, r.fields.uri = some uri ∧ invalidUri uri = false ∧ r.fields.proxyreq = 0
      ∧ conf.label = some label
      ∧ resolveStatement conf dbd label = some stmt
      ∧ args = (collectParams rt conf r uri).params
      ∧ apr_table_get notes (requestKey rt conf r) = none
      ∧ setDocRoot rt conf (some dbd) r notes
        = readResult rt uri (requestKey rt conf r) 0 (dbd.pselect stmt args).2
            (unchanged r notes) (executedTrace stmt args (dbd.pselect stmt args).2.rows) := by
  revert hex
  unfold setDocRoot
  simp only []
  split
  · simp [unchanged, DbTrace.none]
  · rename_i label hlabel
    split
    · simp [unchanged, DbTrace.none]
    · rename_i hp
      split
      · simp [unchanged, DbTrace.none]
      · rename_i uri huri
        have hk : requestKey rt conf r = cacheKey (collectParams rt conf r uri) := by
          simp [requestKey, huri]
        split
        · simp [unchanged, DbTrace.none]
        · rename_i hinv
          split
          · simp [mapToFile_db, unchanged, DbTrace.none]
          · rename_i hget
            intro hex
            obtain ⟨h1, h2, h3⟩ := runQuery_inv rt conf _ dbd uri _ _ _ stmt args hex hrv
            refine ⟨uri, label, huri, by simpa using hinv, by simpa using hp, hlabel, h1, h2, ?_, ?_⟩
            · rw [hk]; exact hget
            · rw [hk]; exact h3

end VhostDbd

namespace VhostDbd

/-! ## C1: reuse of the cached value -/

/-- C1 (as stated, refuted): two requests with the same host name, no FTP
user and the same URI, hence the same cache key, are served on one connection
that starts with empty notes, by a database whose statement returns two rows.
Both calls fail with status 500, nothing is saved in the notes, and the
statement is executed by each of the two calls: twice over the sequence. -/
theorem same_key_queried_twice :
    requestKey exampleRuntime hostConf hostRequest
        = requestKey exampleRuntime hostConf hostRequest
      ∧ (serve exampleRuntime hostConf []
            [(hostRequest, some (fixedDb twoRows)), (hostRequest, some (fixedDb twoRows))]).map
          (fun o => (o.status, o.db.executed.length, o.notes))
        = [(HTTP_INTERNAL_SERVER_ERROR, 1, []), (HTTP_INTERNAL_SERVER_ERROR, 1, [])] := by
  decide

/-- C1 (amended): for requests that all have the cache key `K`, served one
after the other on a connection whose notes start empty, whatever the
database does: each call executes the statement at most once; a call that
returns OK leaves a value under `K`; and once a call has left a value under
`K`, every later call does no database operation at all and finds the same
value under `K`. -/
theorem cached_key_not_queried_again (rt : Runtime) (conf : vhost_dbd_conf)
    (steps : List (request_rec × Option ap_dbd_t)) (K : CStr)
    (hK : ∀ s ∈ steps, requestKey rt conf s.1 = K) :
    (∀ o ∈ serve rt conf [] steps, o.db.executed.length ≤ 1)
      ∧ (∀ o ∈ serve rt conf [] steps, o.status = OK → apr_table_get o.notes K ≠ none)
      ∧ (∀ (i j : Nat) (oi oj : Outcome), i < j → (serve rt conf [] steps)[i]? = some oi →
          (serve rt conf [] steps)[j]? = some oj → apr_table_get oi.notes K ≠ none →
          oj.db = DbTrace.none ∧ apr_table_get oj.notes K = apr_table_get oi.notes K) := by
  refine ⟨?_, ?_, ?_⟩
  · intro o ho
    obtain ⟨r, dbd, n0, _, rfl⟩ := serve_mem rt conf steps [] o ho
    exact setDocRoot_executed rt conf dbd r n0
  · intro o ho hok
    obtain ⟨r, dbd, n0, hm, rfl⟩ := serve_mem rt conf steps [] o ho
    have := setDocRoot_ok_cached rt conf dbd r n0 hok
    rwa [hK (r, dbd) hm] at this
  · intro i j oi oj hij hi hj hc
    exact serve_pair rt conf K steps [] hK i j oi oj hij hi hj hc

/-- C1 (amended), on an example: two requests for the same host, the first
answered with one row. -/
theorem cached_key_not_queried_again_witness :
    (∀ s ∈ [(hostRequest, some (fixedDb siteRow)), (hostRequest, some (fixedDb twoRows))],
        requestKey exampleRuntime hostConf s.1 = requestKey exampleRuntime hostConf hostRequest)
      ∧ ((∀ o ∈ serve exampleRuntime hostConf []
              [(hostRequest, some (fixedDb siteRow)), (hostRequest, some (fixedDb twoRows))],
            o.db.executed.length ≤ 1)
        ∧ (∀ o ∈ serve exampleRuntime hostConf []
              [(hostRequest, some (fixedDb siteRow)), (hostRequest, some (fixedDb twoRows))],
            o.status = OK →
              apr_table_get o.notes (requestKey exampleRuntime hostConf hostRequest) ≠ none)
        ∧ (∀ (i j : Nat) (oi oj : Outcome), i < j →
            (serve exampleRuntime hostConf []
              [(hostRequest, some (fixedDb siteRow)), (hostRequest, some (fixedDb twoRows))])[i]?
              = some oi →
            (serve exampleRuntime hostConf []
              [(hostRequest, some (fixedDb siteRow)), (hostRequest, some (fixedDb twoRows))])[j]?
              = some oj →
            apr_table_get oi.notes (requestKey exampleRuntime hostConf hostRequest) ≠ none →
            oj.db = DbTrace.none
              ∧ apr_table_get oj.notes (requestKey exampleRuntime hostConf hostRequest)
                = apr_table_get oi.notes (requestKey exampleRuntime hostConf hostRequest))) :=
  have h : ∀ s ∈ [(hostRequest, some (fixedDb siteRow)), (hostRequest, some (fixedDb twoRows))],
      requestKey exampleRuntime hostConf s.1 = requestKey exampleRuntime hostConf hostRequest := by
    intro s hs
    simp only [List.mem_cons, List.mem_singleton, List.not_mem_nil, or_false] at hs
    rcases hs with rfl | rfl <;> rfl
  ⟨h, cached_key_not_queried_again exampleRuntime hostConf _ _ h⟩

/-! ## C3: a reported empty result -/

/-- C3: when the statement a call executed succeeded and reported a row count
of 0, the call returns `DECLINED` and the notes hold `NO_DOCROOT` under the
key of the request; after any further requests on the connection, a request
with the same key that passes the checks of lines 102-110 is declined
without acquiring a connection, executing a statement or fetching a row. -/
theorem zero_rows_declined_and_remembered (rt : Runtime) (conf : vhost_dbd_conf)
    (dbd : ap_dbd_t) (r : request_rec) (notes : apr_table_t)
    (stmt : apr_dbd_prepared_t) (args : List (Option CStr))
    (hex : (setDocRoot rt conf (some dbd) r notes).db.executed = [(stmt, args)])
    (hrv : (dbd.pselect stmt args).1 = 0)
    (hrows : (dbd.pselect stmt args).2.num_tuples = 0) :
    (setDocRoot rt conf (some dbd) r notes).status = DECLINED
      ∧ apr_table_get (setDocRoot rt conf (some dbd) r notes).notes (requestKey rt conf r)
          = some NO_DOCROOT
      ∧ ∀ (later : List (request_rec × Option ap_dbd_t)) (r2 : request_rec)
          (dbd2 : Option ap_dbd_t) (u2 : CStr),
          requestKey rt conf r2 = requestKey rt conf r →
          r2.fields.proxyreq = 0 → r2.fields.uri = some u2 → invalidUri u2 = false →
          (setDocRoot rt conf dbd2 r2
              (notesAfter rt conf (setDocRoot rt conf (some dbd) r notes).notes later)).status
            = DECLINED
          ∧ (setDocRoot rt conf dbd2 r2
              (notesAfter rt conf (setDocRoot rt conf (some dbd) r notes).notes later)).db
            = DbTrace.none := by
  obtain ⟨uri, label, _, _, _, _, _, _, _, hrun⟩ := setDocRoot_inv rt conf dbd r notes stmt args hex hrv
  have hsent : apr_table_get (setDocRoot rt conf (some dbd) r notes).notes (requestKey rt conf r)
      = some NO_DOCROOT := by
    rw [hrun, readResult_zero_rows _ _ _ _ _ _ _ hrows]
    simp [apr_table_get_set, keyMatch_self]
  refine ⟨?_, hsent, ?_⟩
  · rw [hrun, readResult_zero_rows _ _ _ _ _ _ _ hrows]
  · intro later r2 dbd2 u2 hkey hp hu hv
    have hlater := notesAfter_keeps rt conf _ _ later _ hsent
    rw [← hkey] at hlater
    obtain ⟨hst, hdb, _⟩ := setDocRoot_hit_sentinel rt conf dbd2 r2 _ hlater
    refine ⟨?_, hdb⟩
    rcases hst with h | ⟨_, h⟩ | ⟨_, h | ⟨u, h1, h2⟩⟩
    · exact h
    · exact absurd hp h
    · rw [hu] at h; cases h
    · rw [hu] at h1; cases h1; rw [hv] at h2; cases h2

/-- C3, on an example: the statement of `hostConf` reports no row for the
request to `a.example`. -/
theorem zero_rows_declined_and_remembered_witness :
    ((setDocRoot exampleRuntime hostConf (some (fixedDb zeroRows)) hostRequest []).db.executed
        = [(1, [some "a.example".toList])]
      ∧ ((fixedDb zeroRows).pselect 1 [some "a.example".toList]).1 = 0
      ∧ ((fixedDb zeroRows).pselect 1 [some "a.example".toList]).2.num_tuples = 0)
    ∧ ((setDocRoot exampleRuntime hostConf (some (fixedDb zeroRows)) hostRequest []).status
          = DECLINED
      ∧ apr_table_get
          (setDocRoot exampleRuntime hostConf (some (fixedDb zeroRows)) hostRequest []).notes
          (requestKey exampleRuntime hostConf hostRequest) = some NO_DOCROOT
      ∧ ∀ (later : List (request_rec × Option ap_dbd_t)) (r2 : request_rec)
          (dbd2 : Option ap_dbd_t) (u2 : CStr),
          requestKey exampleRuntime hostConf r2 = requestKey exampleRuntime hostConf hostRequest →
          r2.fields.proxyreq = 0 → r2.fields.uri = some u2 → invalidUri u2 = false →
          (setDocRoot exampleRuntime hostConf dbd2 r2
              (notesAfter exampleRuntime hostConf
                (setDocRoot exampleRuntime hostConf (some (fixedDb zeroRows)) hostRequest []).notes
                later)).status = DECLINED
          ∧ (setDocRoot exampleRuntime hostConf dbd2 r2
              (notesAfter exampleRuntime hostConf
                (setDocRoot exampleRuntime hostConf (some (fixedDb zeroRows)) hostRequest []).notes
                later)).db = DbTrace.none) :=
  ⟨⟨by decide, rfl, rfl⟩,
    zero_rows_declined_and_remembered exampleRuntime hostConf (fixedDb zeroRows) hostRequest []
      1 [some "a.example".toList] (by decide) rfl rfl⟩

end VhostDbd

namespace VhostDbd

/-! ## C4: an empty result of a driver that reports no row count -/

/-- C4 (the code at the failing input): the driver reports the row count -1
and the first fetch finds no row.  The call returns `DECLINED`, as for a
reported count of 0, but the notes stay empty, where the reported count of 0
saves `NO_DOCROOT` under the key; so the next request with the same key
executes the statement again. -/
theorem unknown_count_no_rows_not_remembered :
    (setDocRoot exampleRuntime hostConf (some (fixedDb unknownNoRows)) hostRequest []).status
        = DECLINED
      ∧ (setDocRoot exampleRuntime hostConf (some (fixedDb unknownNoRows)) hostRequest []).notes
        = []
      ∧ (setDocRoot exampleRuntime hostConf (some (fixedDb zeroRows)) hostRequest []).notes
        = [(requestKey exampleRuntime hostConf hostRequest, NO_DOCROOT)]
      ∧ (serve exampleRuntime hostConf []
            [(hostRequest, some (fixedDb unknownNoRows)),
             (hostRequest, some (fixedDb unknownNoRows))]).map
          (fun o => (o.status, o.db.executed.length))
        = [(DECLINED, 1), (DECLINED, 1)] := by
  decide

/-! ## C5: more than one row -/

theorem readResult_many_rows (rt : Runtime) (uri key : CStr) (rv : Int)
    (res : apr_dbd_results_t) (o : Outcome) (tr : DbTrace) (h : 1 < res.num_tuples) :
    readResult rt uri key rv res o tr
      = { o with status := HTTP_INTERNAL_SERVER_ERROR, db := flushRows res.rows tr } := by
  unfold readResult
  simp [h]

/-- C5: when the statement a call executed succeeded and reported more than
one row, the call returns status 500 after fetching until the driver has no
row left: every row of the result set was fetched, in order, none is left,
and `apr_dbd_get_row` was called once more than there are rows. The notes
are not changed. -/
theorem many_rows_error_after_flush (rt : Runtime) (conf : vhost_dbd_conf)
    (dbd : ap_dbd_t) (r : request_rec) (notes : apr_table_t)
    (stmt : apr_dbd_prepared_t) (args : List (Option CStr))
    (hex : (setDocRoot rt conf (some dbd) r notes).db.executed = [(stmt, args)])
    (hrv : (dbd.pselect stmt args).1 = 0)
    (hrows : 1 < (dbd.pselect stmt args).2.num_tuples) :
    (setDocRoot rt conf (some dbd) r notes).status = HTTP_INTERNAL_SERVER_ERROR
      ∧ (setDocRoot rt conf (some dbd) r notes).db.fetched = (dbd.pselect stmt args).2.rows
      ∧ (setDocRoot rt conf (some dbd) r notes).db.unfetched = []
      ∧ (setDocRoot rt conf (some dbd) r notes).db.get_row_calls
          = (dbd.pselect stmt args).2.rows.length + 1
      ∧ (setDocRoot rt conf (some dbd) r notes).notes = notes := by
  obtain ⟨uri, label, _, _, _, _, _, _, _, hrun⟩ := setDocRoot_inv rt conf dbd r notes stmt args hex hrv
  rw [hrun, readResult_many_rows _ _ _ _ _ _ _ hrows]
  simp [flushRows_fetched, flushRows_unfetched, flushRows_calls, executedTrace, unchanged]

/-- C5, on the result set of two rows: both rows are fetched. -/
theorem many_rows_error_after_flush_witness :
    ((setDocRoot exampleRuntime hostConf (some (fixedDb twoRows)) hostRequest []).db.executed
        = [(1, [some "a.example".toList])]
      ∧ ((fixedDb twoRows).pselect 1 [some "a.example".toList]).1 = 0
      ∧ 1 < ((fixedDb twoRows).pselect 1 [some "a.example".toList]).2.num_tuples)
    ∧ ((setDocRoot exampleRuntime hostConf (some (fixedDb twoRows)) hostRequest []).status
          = HTTP_INTERNAL_SERVER_ERROR
      ∧ (setDocRoot exampleRuntime hostConf (some (fixedDb twoRows)) hostRequest []).db.fetched
          = ((fixedDb twoRows).pselect 1 [some "a.example".toList]).2.rows
      ∧ (setDocRoot exampleRuntime hostConf (some (fixedDb twoRows)) hostRequest []).db.unfetched
          = []
      ∧ (setDocRoot exampleRuntime hostConf (some (fixedDb twoRows)) hostRequest []).db.get_row_calls
          = ((fixedDb twoRows).pselect 1 [some "a.example".toList]).2.rows.length + 1
      ∧ (setDocRoot exampleRuntime hostConf (some (fixedDb twoRows)) hostRequest []).notes = []) :=
  ⟨⟨by decide, rfl, by decide⟩,
    many_rows_error_after_flush exampleRuntime hostConf (fixedDb twoRows) hostRequest []
      1 [some "a.example".toList] (by decide) rfl (by decide)⟩

/-! ## C6: rows left after the first one -/

/-- C6 (the code at the failing input): a driver that reports the row count
-1 returns two rows, and the root in the first row is empty.  The call
returns status 403 after one call of `apr_dbd_get_row`: the second row is
never fetched and the driver is never asked for the row after the last. -/
theorem empty_root_leaves_rows_unfetched :
    (setDocRoot exampleRuntime hostConf (some (fixedDb emptyRootRows)) hostRequest []).status
        = HTTP_FORBIDDEN
      ∧ (setDocRoot exampleRuntime hostConf (some (fixedDb emptyRootRows)) hostRequest []).db
        = { acquired := 1, executed := [(1, [some "a.example".toList])], get_row_calls := 1,
            fetched := [[some []]], unfetched := [[some "/srv/b".toList]] } := by
  decide

end VhostDbd

namespace VhostDbd

/-! ## C7: from the root to the file name -/

theorem dropWhile_slash (u : CStr) :
    (∃ k, u = List.replicate k '/' ++ u.dropWhile (fun c => c == '/'))
      ∧ (u.dropWhile (fun c => c == '/')).head? ≠ some '/' := by
  induction u with
  | nil => exact ⟨⟨0, rfl⟩, by simp⟩
  | cons c t ih =>
    by_cases hc : c = '/'
    · subst hc
      obtain ⟨⟨k, hk⟩, hh⟩ := ih
      have e : List.dropWhile (fun c => c == '/') ('/' :: t)
          = List.dropWhile (fun c => c == '/') t := by
        simp [List.dropWhile]
      rw [e]
      refine ⟨⟨k + 1, ?_⟩, hh⟩
      rw [List.replicate_succ, List.cons_append, ← hk]
    · have e : List.dropWhile (fun c => c == '/') (c :: t) = c :: t := by
        apply List.dropWhile_cons_of_neg
        simpa using hc
      rw [e]
      exact ⟨⟨0, rfl⟩, by simp [hc]⟩

/-- What `mapToFile` gives for a root that is not the sentinel, when the
status of the execution is 0. -/
theorem mapToFile_root (rt : Runtime) (uri key root : CStr) (o : Outcome)
    (hroot : root ≠ NO_DOCROOT) :
    (rt.apr_filepath_merge root (uri.dropWhile (fun c => c == '/'))
          (APR_FILEPATH_TRUENAME ||| APR_FILEPATH_SECUREROOT) = none →
        (mapToFile rt uri key root 0 o).status = HTTP_FORBIDDEN
          ∧ (mapToFile rt uri key root 0 o).filename = o.filename
          ∧ (mapToFile rt uri key root 0 o).canonical_filename = o.canonical_filename)
      ∧ (∀ path, rt.apr_filepath_merge root (uri.dropWhile (fun c => c == '/'))
          (APR_FILEPATH_TRUENAME ||| APR_FILEPATH_SECUREROOT) = some path →
        (mapToFile rt uri key root 0 o).status = OK
          ∧ (mapToFile rt uri key root 0 o).filename = some path
          ∧ (mapToFile rt uri key root 0 o).canonical_filename = some path) := by
  rcases mapToFile_cases rt uri key root 0 o with ⟨h, _⟩ | ⟨_, hm, e⟩ | ⟨_, path, hm, e⟩
  · exact absurd h hroot
  · refine ⟨fun _ => by rw [e]; exact ⟨rfl, rfl, rfl⟩, fun p hp => ?_⟩
    rw [hm] at hp; cases hp
  · refine ⟨fun hn => ?_, fun p hp => ?_⟩
    · rw [hm] at hn; cases hn
    · rw [hm] at hp; cases hp; rw [e]; exact ⟨rfl, rfl, rfl⟩

/-- The result of `readResult` when at most one row is reported, there are
columns, and the first row has a root that is not empty. -/
theorem readResult_row (rt : Runtime) (uri key : CStr) (rv : Int)
    (res : apr_dbd_results_t) (o : Outcome) (tr : DbTrace)
    (row : apr_dbd_row_t) (rest : List apr_dbd_row_t) (root : CStr)
    (h1 : res.num_tuples ≤ 1) (h0 : res.num_tuples ≠ 0) (hc : res.num_cols ≠ 0)
    (hrows : res.rows = row :: rest) (hroot : apr_dbd_get_entry row 0 = some root)
    (hne : root ≠ []) :
    readResult rt uri key rv res o tr
      = mapToFile rt uri key root rv
          { o with subprocess_env := exportColumns res row o.subprocess_env res.num_cols,
                   db := flushRows rest
                     { tr with get_row_calls := tr.get_row_calls + 1,
                               fetched := tr.fetched ++ [row], unfetched := rest } } := by
  unfold readResult
  have h1' : ¬ res.num_tuples > 1 := by omega
  simp [h1', h0, hc, hrows, apr_dbd_get_row, hroot, hne]

/-- A call that returns OK has set both file names to a path that the merge
of some root with the URI, stripped of its leading slashes, produced. -/
theorem setDocRoot_ok_path (rt : Runtime) (conf : vhost_dbd_conf) (dbd : Option ap_dbd_t)
    (r : request_rec) (notes : apr_table_t)
    (h : (setDocRoot rt conf dbd r notes).status = OK) :
    ∃ uri root path, r.fields.uri = some uri
      ∧ rt.apr_filepath_merge root (uri.dropWhile (fun c => c == '/'))
          (APR_FILEPATH_TRUENAME ||| APR_FILEPATH_SECUREROOT) = some path
      ∧ (setDocRoot rt conf dbd r notes).filename = some path
      ∧ (setDocRoot rt conf dbd r notes).canonical_filename = some path := by
  have key : ∀ (uri key root : CStr) (rv : Int) (o : Outcome),
      (mapToFile rt uri key root rv o).status = OK →
      ∃ path, rt.apr_filepath_merge root (uri.dropWhile (fun c => c == '/'))
          (APR_FILEPATH_TRUENAME ||| APR_FILEPATH_SECUREROOT) = some path
        ∧ (mapToFile rt uri key root rv o).filename = some path
        ∧ (mapToFile rt uri key root rv o).canonical_filename = some path := by
    intro uri key root rv o hs
    rcases mapToFile_cases rt uri key root rv o with ⟨_, e⟩ | ⟨_, _, e⟩ | ⟨_, path, hm, e⟩
    · rw [e] at hs; simp [OK, DECLINED] at hs
    · rw [e] at hs; simp [OK, HTTP_FORBIDDEN] at hs
    · exact ⟨path, hm, by rw [e], by rw [e]⟩
  revert h
  unfold setDocRoot
  simp only []
  split
  · intro h; simp [unchanged, OK, DECLINED] at h
  · split
    · intro h; simp [OK, HTTP_FORBIDDEN] at h
    · split
      · intro h; simp [OK, HTTP_BAD_REQUEST] at h
      · rename_i uri huri
        split
        · intro h; simp [OK, HTTP_BAD_REQUEST] at h
        · split
          · intro h
            obtain ⟨path, h1, h2, h3⟩ := key _ _ _ _ _ h
            exact ⟨uri, _, path, huri, h1, h2, h3⟩
          · unfold runQuery
            simp only []
            split
            · intro h; simp [OK, HTTP_INTERNAL_SERVER_ERROR] at h
            · split
              · intro h; simp [OK, HTTP_INTERNAL_SERVER_ERROR] at h
              · split
                · intro h; simp [OK, HTTP_INTERNAL_SERVER_ERROR] at h
                · unfold readResult
                  simp only []
                  repeat' split
                  all_goals first
                    | (intro h
                       simp [OK, DECLINED, HTTP_FORBIDDEN, HTTP_INTERNAL_SERVER_ERROR] at h
                       done)
                    | (intro h
                       obtain ⟨path, h1, h2, h3⟩ := key _ _ _ _ _ h
                       exact ⟨uri, _, path, huri, h1, h2, h3⟩)

end VhostDbd

namespace VhostDbd

/-- C7: let `root` be the root a call resolves, from the notes or from the
first row of a fresh result, and not the sentinel.  The URI is a run of
slashes followed by the stripped URI, which does not begin with a slash; the
root and the stripped URI are merged under `APR_FILEPATH_SECUREROOT`; a failed
merge gives status 403 and leaves the file names alone; a merge that gives
`path` gives OK with `path` as file name and canonical file name; so OK is
returned only with a path the merge produced. -/
theorem root_merged_with_stripped_uri (rt : Runtime) (conf : vhost_dbd_conf) (label : CStr)
    (dbd : Option ap_dbd_t) (r : request_rec) (notes : apr_table_t) (uri root : CStr)
    (hl : conf.label = some label) (hp : r.fields.proxyreq = 0)
    (hu : r.fields.uri = some uri) (hv : invalidUri uri = false)
    (hroot : root ≠ NO_DOCROOT)
    (hres : apr_table_get notes (requestKey rt conf r) = some root
      ∨ ∃ d stmt args row rest, dbd = some d
          ∧ (setDocRoot rt conf dbd r notes).db.executed = [(stmt, args)]
          ∧ (d.pselect stmt args).1 = 0
          ∧ (d.pselect stmt args).2.num_tuples ≤ 1 ∧ (d.pselect stmt args).2.num_tuples ≠ 0
          ∧ (d.pselect stmt args).2.num_cols ≠ 0
          ∧ (d.pselect stmt args).2.rows = row :: rest
          ∧ apr_dbd_get_entry row 0 = some root ∧ root ≠ []) :
    (∃ k, uri = List.replicate k '/' ++ uri.dropWhile (fun c => c == '/'))
      ∧ (uri.dropWhile (fun c => c == '/')).head? ≠ some '/'
      ∧ (rt.apr_filepath_merge root (uri.dropWhile (fun c => c == '/'))
            (APR_FILEPATH_TRUENAME ||| APR_FILEPATH_SECUREROOT) = none →
          (setDocRoot rt conf dbd r notes).status = HTTP_FORBIDDEN
            ∧ (setDocRoot rt conf dbd r notes).filename = r.fields.filename
            ∧ (setDocRoot rt conf dbd r notes).canonical_filename = r.fields.canonical_filename)
      ∧ (∀ path, rt.apr_filepath_merge root (uri.dropWhile (fun c => c == '/'))
            (APR_FILEPATH_TRUENAME ||| APR_FILEPATH_SECUREROOT) = some path →
          (setDocRoot rt conf dbd r notes).status = OK
            ∧ (setDocRoot rt conf dbd r notes).filename = some path
            ∧ (setDocRoot rt conf dbd r notes).canonical_filename = some path)
      ∧ ((setDocRoot rt conf dbd r notes).status = OK →
          ∃ path, rt.apr_filepath_merge root (uri.dropWhile (fun c => c == '/'))
              (APR_FILEPATH_TRUENAME ||| APR_FILEPATH_SECUREROOT) = some path
            ∧ (setDocRoot rt conf dbd r notes).filename = some path
            ∧ (setDocRoot rt conf dbd r notes).canonical_filename = some path) := by
  have main : ∃ key o, setDocRoot rt conf dbd r notes = mapToFile rt uri key root 0 o
      ∧ o.filename = r.fields.filename ∧ o.canonical_filename = r.fields.canonical_filename := by
    rcases hres with hhit | ⟨d, stmt, args, row, rest, rfl, hex, hrv, h1, h0, hc, hrows, hent, hne⟩
    · refine ⟨requestKey rt conf r, unchanged r notes, ?_, rfl, rfl⟩
      have hk : apr_table_get notes (cacheKey (collectParams rt conf r uri)) = some root := by
        simpa [requestKey, hu] using hhit
      unfold setDocRoot
      simp [hl, hp, hu, hv, hk, requestKey]
    · obtain ⟨uri2, _, hu2, _, _, _, _, _, _, hrun⟩ := setDocRoot_inv rt conf d r notes stmt args hex hrv
      rw [hu] at hu2
      cases hu2
      exact ⟨_, _, hrun.trans (readResult_row rt uri _ 0 _ _ _ row rest root h1 h0 hc hrows hent hne),
        rfl, rfl⟩
  obtain ⟨key, o, hrun, hf, hcf⟩ := main
  obtain ⟨hnone, hsome⟩ := mapToFile_root rt uri key root o hroot
  rw [hrun]
  refine ⟨(dropWhile_slash uri).1, (dropWhile_slash uri).2, ?_, hsome, ?_⟩
  · intro hn
    rw [← hf, ← hcf]
    exact hnone hn
  · intro hok
    cases hm : rt.apr_filepath_merge root (uri.dropWhile (fun c => c == '/'))
        (APR_FILEPATH_TRUENAME ||| APR_FILEPATH_SECUREROOT) with
    | none =>
      rw [(hnone hm).1] at hok
      simp [HTTP_FORBIDDEN, OK] at hok
    | some path => exact ⟨path, rfl, (hsome path hm).2⟩

/-- C7, on an example: the root `/srv/site1` of a fresh row and the URI
`/x/y`; with a merge that joins its arguments the file name is
`/srv/site1/x/y`. -/
theorem root_merged_with_stripped_uri_witness :
    (setDocRoot exampleRuntime hostConf (some (fixedDb siteRow)) hostRequest []).filename
        = some "/srv/site1/x/y".toList
      ∧ ((∃ k, "/x/y".toList
            = List.replicate k '/' ++ "/x/y".toList.dropWhile (fun c => c == '/'))
        ∧ ("/x/y".toList.dropWhile (fun c => c == '/')).head? ≠ some '/'
        ∧ (exampleRuntime.apr_filepath_merge "/srv/site1".toList
              ("/x/y".toList.dropWhile (fun c => c == '/'))
              (APR_FILEPATH_TRUENAME ||| APR_FILEPATH_SECUREROOT) = none →
            (setDocRoot exampleRuntime hostConf (some (fixedDb siteRow)) hostRequest []).status
                = HTTP_FORBIDDEN
              ∧ (setDocRoot exampleRuntime hostConf (some (fixedDb siteRow)) hostRequest []).filename
                = hostRequest.fields.filename
              ∧ (setDocRoot exampleRuntime hostConf (some (fixedDb siteRow)) hostRequest
                  []).canonical_filename = hostRequest.fields.canonical_filename)
        ∧ (∀ path, exampleRuntime.apr_filepath_merge "/srv/site1".toList
              ("/x/y".toList.dropWhile (fun c => c == '/'))
              (APR_FILEPATH_TRUENAME ||| APR_FILEPATH_SECUREROOT) = some path →
            (setDocRoot exampleRuntime hostConf (some (fixedDb siteRow)) hostRequest []).status = OK
              ∧ (setDocRoot exampleRuntime hostConf (some (fixedDb siteRow)) hostRequest []).filename
                = some path
              ∧ (setDocRoot exampleRuntime hostConf (some (fixedDb siteRow)) hostRequest
                  []).canonical_filename = some path)
        ∧ ((setDocRoot exampleRuntime hostConf (some (fixedDb siteRow)) hostRequest []).status = OK →
            ∃ path, exampleRuntime.apr_filepath_merge "/srv/site1".toList
                ("/x/y".toList.dropWhile (fun c => c == '/'))
                (APR_FILEPATH_TRUENAME ||| APR_FILEPATH_SECUREROOT) = some path
              ∧ (setDocRoot exampleRuntime hostConf (some (fixedDb siteRow)) hostRequest []).filename
                = some path
              ∧ (setDocRoot exampleRuntime hostConf (some (fixedDb siteRow)) hostRequest
                  []).canonical_filename = some path)) :=
  ⟨by decide,
    root_merged_with_stripped_uri exampleRuntime hostConf "vhost_dbd_1".toList
      (some (fixedDb siteRow)) hostRequest [] "/x/y".toList "/srv/site1".toList
      (by decide) (by decide) (by decide) (by decide) (by decide)
      (Or.inr ⟨fixedDb siteRow, 1, [some "a.example".toList],
        [some "/srv/site1".toList, some "dark".toList], [], rfl, by decide, rfl, by decide,
        by decide, by decide, rfl, by decide, by decide⟩)⟩

end VhostDbd

namespace VhostDbd

/-! ## C8: the leading segments of the URI -/

/-- The walk over the string `c0 :: rest` with `j ≥ 1` segments asked for:
it stops just before the `j`-th slash of `rest`, or at the end of the string
when `rest` has fewer slashes. -/
theorem skipSegments_spec (rest : CStr) :
    ∀ (c0 : Char) (j : Int), 1 ≤ j →
      (((rest.count '/' : Nat) : Int) < j → skipSegments j (c0 :: rest) = rest.length + 1)
      ∧ (j ≤ ((rest.count '/' : Nat) : Int) →
          ∃ pre suf, c0 :: rest = pre ++ '/' :: suf ∧ pre ≠ []
            ∧ ((pre.tail.count '/' : Nat) : Int) = j - 1
            ∧ skipSegments j (c0 :: rest) = pre.length) := by
  induction rest with
  | nil =>
    intro c0 j hj
    have hj0 : j ≠ 0 := by omega
    refine ⟨fun _ => by simp [skipSegments, hj0], fun h => ?_⟩
    simp at h
    omega
  | cons c rest ih =>
    intro c0 j hj
    have hj0 : j ≠ 0 := by omega
    by_cases hc : c = '/'
    · subst hc
      have hskip : skipSegments j (c0 :: '/' :: rest) = 1 + skipSegments (j - 1) ('/' :: rest) := by
        simp [skipSegments, hj0]
      have hcount : (('/' :: rest).count '/' : Nat) = rest.count '/' + 1 := by simp
      by_cases hj1 : j = 1
      · subst hj1
        refine ⟨fun h => ?_, fun _ => ⟨[c0], rest, rfl, by simp, by simp, ?_⟩⟩
        · rw [hcount] at h; push_cast at h; omega
        · rw [hskip]; simp [skipSegments]
      · obtain ⟨ih1, ih2⟩ := ih '/' (j - 1) (by omega)
        refine ⟨fun h => ?_, fun h => ?_⟩
        · rw [hcount] at h; push_cast at h
          rw [hskip, ih1 (by omega)]; simp; omega
        · rw [hcount] at h; push_cast at h
          obtain ⟨pre, suf, he, hne, hcnt, hs⟩ := ih2 (by omega)
          cases pre with
          | nil => exact absurd rfl hne
          | cons p pre =>
            simp only [List.cons_append, List.cons.injEq] at he
            obtain ⟨rfl, he⟩ := he
            refine ⟨c0 :: '/' :: pre, suf, by simp [he], by simp, ?_, ?_⟩
            · simp only [List.tail_cons] at hcnt ⊢
              rw [List.count_cons_self]; push_cast; omega
            · rw [hskip, hs]; simp; omega
    · have hskip : skipSegments j (c0 :: c :: rest) = 1 + skipSegments j (c :: rest) := by
        simp [skipSegments, hj0, hc]
      have hcount : ((c :: rest).count '/' : Nat) = rest.count '/' := by
        rw [List.count_cons_of_ne]
        exact fun h => hc h.symm
      obtain ⟨ih1, ih2⟩ := ih c j hj
      refine ⟨fun h => ?_, fun h => ?_⟩
      · rw [hcount] at h
        rw [hskip, ih1 h]; simp; omega
      · rw [hcount] at h
        obtain ⟨pre, suf, he, hne, hcnt, hs⟩ := ih2 h
        cases pre with
        | nil => exact absurd rfl hne
        | cons p pre =>
          simp only [List.cons_append, List.cons.injEq] at he
          obtain ⟨rfl, he⟩ := he
          refine ⟨c0 :: c :: pre, suf, by simp [he], by simp, ?_, ?_⟩
          · simp only [List.tail_cons] at hcnt ⊢
            rw [List.count_cons_of_ne (fun h => hc h.symm)]; exact hcnt
          · rw [hskip, hs]; simp; omega

theorem leadingSegments_spec (s : CStr) (n : Nat) (hn : 1 ≤ n) :
    (s.tail.count '/' < n → leadingSegments n s = s)
      ∧ (n ≤ s.tail.count '/' →
          ∃ pre suf, s = pre ++ '/' :: suf ∧ pre ≠ [] ∧ pre.tail.count '/' = n - 1
            ∧ leadingSegments n s = pre) := by
  cases s with
  | nil =>
    refine ⟨fun _ => by simp [leadingSegments, skipSegments], fun h => ?_⟩
    simp at h; omega
  | cons c0 rest =>
    obtain ⟨h1, h2⟩ := skipSegments_spec rest c0 (n : Int) (by omega)
    simp only [List.tail_cons]
    refine ⟨fun h => ?_, fun h => ?_⟩
    · have := h1 (by omega)
      unfold leadingSegments
      rw [this]
      exact List.take_of_length_le (by simp)
    · obtain ⟨pre, suf, he, hne, hcnt, hs⟩ := h2 (by omega)
      refine ⟨pre, suf, he, hne, by omega, ?_⟩
      unfold leadingSegments
      rw [hs, he]
      simp

end VhostDbd

namespace VhostDbd

theorem collectParam_uri (rt : Runtime) (conf : vhost_dbd_conf)
    (r : request_rec) (uri : CStr) (v : ParamVars) (i : Nat)
    (hp : conf.params.getD i ParamName.hostname = ParamName.uri) :
    collectParam rt conf r uri v i
      = if conf.urisegs.getD i 0 ≠ 0 then
          if conf.urisegs.getD i 0 > v.maxseg then
            { v with params := v.params.set i
                        (some (leadingSegments (conf.urisegs.getD i 0) (rt.ap_escape_uri uri))),
                     maxseg := conf.urisegs.getD i 0,
                     keyUri := some (leadingSegments (conf.urisegs.getD i 0)
                        (rt.ap_escape_uri uri)) }
          else
            { v with params := v.params.set i
                        (some (leadingSegments (conf.urisegs.getD i 0) (rt.ap_escape_uri uri))) }
        else
          { v with params := v.params.set i (some (rt.ap_escape_uri uri)), maxseg := 10,
                   keyUri := some (rt.ap_escape_uri uri) } := by
  unfold collectParam
  rw [hp]

/-- C8: for a URI parameter at index `i` with segment count `n`, the value
stored in `params[i]` is a part of the escaped URI `s` from its start: all
of `s` when `n = 0`; for `n ≥ 1`, all of `s` when fewer than `n` slashes
follow the first character of `s`, and otherwise the part of `s` that ends
just before the `n`-th slash after the first character. -/
theorem uri_parameter_is_leading_segments (rt : Runtime) (conf : vhost_dbd_conf)
    (r : request_rec) (uri : CStr) (v : ParamVars) (i n : Nat)
    (hp : conf.params.getD i ParamName.hostname = ParamName.uri)
    (hn : conf.urisegs.getD i 0 = (n : Int)) :
    ∃ val, (collectParam rt conf r uri v i).params = v.params.set i (some val)
      ∧ val <+: rt.ap_escape_uri uri
      ∧ (n = 0 → val = rt.ap_escape_uri uri)
      ∧ (1 ≤ n →
          ((rt.ap_escape_uri uri).tail.count '/' < n → val = rt.ap_escape_uri uri)
          ∧ (n ≤ (rt.ap_escape_uri uri).tail.count '/' →
              ∃ pre suf, rt.ap_escape_uri uri = pre ++ '/' :: suf ∧ pre ≠ []
                ∧ pre.tail.count '/' = n - 1 ∧ val = pre)) := by
  by_cases h0 : n = 0
  · subst h0
    refine ⟨rt.ap_escape_uri uri, ?_, List.prefix_refl _, fun _ => rfl, fun h => by omega⟩
    rw [collectParam_uri rt conf r uri v i hp, hn]
    simp
  · have hn0 : (n : Int) ≠ 0 := by omega
    refine ⟨leadingSegments n (rt.ap_escape_uri uri), ?_, List.take_prefix _ _,
      fun h => absurd h h0, fun h => leadingSegments_spec _ n h⟩
    rw [collectParam_uri rt conf r uri v i hp, hn, if_pos hn0]
    split <;> rfl

/-- C8, on the example of the claim: the parameter URI2 for the URI `/a/b/c`
is `/a/b`. -/
theorem uri_parameter_is_leading_segments_witness :
    (collectParams exampleRuntime segmentConf segmentRequest "/a/b/c".toList).params
        = [some "/a/b".toList]
      ∧ (segmentConf.params.getD 0 ParamName.hostname = ParamName.uri
        ∧ segmentConf.urisegs.getD 0 0 = ((2 : Nat) : Int))
      ∧ ∃ val, (collectParam exampleRuntime segmentConf segmentRequest "/a/b/c".toList
            { params := [none], keyHostname := none, keyFTPuser := none, keyUri := none,
              maxseg := 0 } 0).params
          = ([none] : List (Option CStr)).set 0 (some val)
        ∧ val <+: exampleRuntime.ap_escape_uri "/a/b/c".toList
        ∧ (2 = 0 → val = exampleRuntime.ap_escape_uri "/a/b/c".toList)
        ∧ (1 ≤ 2 →
            ((exampleRuntime.ap_escape_uri "/a/b/c".toList).tail.count '/' < 2 →
              val = exampleRuntime.ap_escape_uri "/a/b/c".toList)
            ∧ (2 ≤ (exampleRuntime.ap_escape_uri "/a/b/c".toList).tail.count '/' →
                ∃ pre suf, exampleRuntime.ap_escape_uri "/a/b/c".toList = pre ++ '/' :: suf
                  ∧ pre ≠ [] ∧ pre.tail.count '/' = 2 - 1 ∧ val = pre)) :=
  ⟨by decide, ⟨by decide, by decide⟩,
    uri_parameter_is_leading_segments exampleRuntime segmentConf segmentRequest "/a/b/c".toList
      { params := [none], keyHostname := none, keyFTPuser := none, keyUri := none, maxseg := 0 }
      0 2 (by decide) (by decide)⟩

end VhostDbd

namespace VhostDbd

/-! ## C9: the URI component of the key -/

theorem isdigit_bounds (c : Char) (h : apr_isdigit c = true) : 48 ≤ c.toNat ∧ c.toNat ≤ 57 := by
  simp only [apr_isdigit, Char.isDigit, Bool.and_eq_true, decide_eq_true_eq] at h
  obtain ⟨h1, h2⟩ := h
  have h1' : (48 : UInt32).toNat ≤ c.val.toNat := (UInt32.le_def).1 h1
  have h2' : c.val.toNat ≤ (57 : UInt32).toNat := (UInt32.le_def).1 h2
  exact ⟨h1', h2'⟩

theorem NUL_not_digit : apr_isdigit NUL = false := by decide

theorem atoiDigits_stop (acc : Nat) (t : CStr) (h : t.headD NUL = NUL) :
    atoiDigits acc t = acc := by
  cases t with
  | nil => rfl
  | cons c t =>
    simp only [List.headD_cons] at h
    subst h
    simp [atoiDigits, NUL_not_digit]

/-- The number `atoi` reads from the rest of a URI token that line 355-356
accepted lies between 0 and 9. -/
theorem atoi_token (t : CStr)
    (h : t.headD NUL = NUL ∨ (apr_isdigit (t.headD NUL) = true ∧ t.tail.headD NUL = NUL)) :
    0 ≤ atoi t ∧ atoi t ≤ 9 := by
  cases t with
  | nil => decide
  | cons c t =>
    simp only [List.headD_cons, List.tail_cons] at h
    rcases h with h | ⟨hd, ht⟩
    · subst h
      have : atoi (NUL :: t) = 0 := by
        have e : List.dropWhile apr_isspace (NUL :: t) = NUL :: t := by
          apply List.dropWhile_cons_of_neg
          decide
        unfold atoi
        rw [e]
        split
        · rename_i heq; simp only [List.cons.injEq] at heq; exact absurd heq.1 (by decide)
        · rename_i heq; simp only [List.cons.injEq] at heq; exact absurd heq.1 (by decide)
        · simp [atoiDigits, NUL_not_digit]
      rw [this]; decide
    · obtain ⟨b1, b2⟩ := isdigit_bounds c hd
      have hsp : apr_isspace c = false := by
        simp only [apr_isspace, Bool.or_eq_false_iff, Bool.and_eq_false_iff, decide_eq_false_iff_not]
        omega
      have e : List.dropWhile apr_isspace (c :: t) = c :: t := by
        apply List.dropWhile_cons_of_neg
        simp [hsp]
      have hval : atoiDigits 0 (c :: t) = c.toNat - 48 := by
        simp only [atoiDigits, hd, if_true]
        rw [atoiDigits_stop _ _ ht]
        simp
      unfold atoi
      rw [e]
      split
      · rename_i heq; simp only [List.cons.injEq] at heq
        obtain ⟨rfl, _⟩ := heq
        exact absurd hd (by decide)
      · rename_i heq; simp only [List.cons.injEq] at heq
        obtain ⟨rfl, _⟩ := heq
        exact absurd hd (by decide)
      · rw [hval]; omega

end VhostDbd

namespace VhostDbd

theorem headD_drop (l : CStr) (n : Nat) : (l.drop n).headD NUL = l.getD n NUL := by
  induction l generalizing n with
  | nil => simp
  | cons c l ih =>
    cases n with
    | zero => simp
    | succ n => simp [ih n]

theorem paramKind_segs (rt : Runtime) (paramName : CStr) (code : ParamName) (n : Int)
    (h : paramKind rt paramName = some (code, some n)) : 0 ≤ n ∧ n ≤ 9 := by
  revert h
  unfold paramKind
  simp only []
  split
  · simp
  · split
    · simp
    · split
      · simp
      · split
        · simp
        · split
          · rename_i hg
            intro h
            simp only [Option.some.injEq, Prod.mk.injEq] at h
            obtain ⟨_, rfl⟩ := h
            apply atoi_token
            simp only [Bool.and_eq_true, Bool.or_eq_true, beq_iff_eq] at hg
            obtain ⟨_, hg⟩ := hg
            rw [headD_drop]
            rcases hg with hg | ⟨hd, h4⟩
            · left; exact hg
            · right
              refine ⟨hd, ?_⟩
              have : (List.drop 3 paramName).tail = List.drop 4 paramName := by
                rw [List.tail_drop]
              rw [this, headD_drop]
              exact h4
          · simp

theorem getD_set_bounds (l : List Int) (k : Nat) (a : Int)
    (hl : ∀ i, 0 ≤ l.getD i 0 ∧ l.getD i 0 ≤ 9) (ha : 0 ≤ a ∧ a ≤ 9) :
    ∀ i, 0 ≤ (l.set k a).getD i 0 ∧ (l.set k a).getD i 0 ≤ 9 := by
  intro i
  simp only [List.getD_eq_getElem?_getD, List.getElem?_set]
  have := hl i
  simp only [List.getD_eq_getElem?_getD] at this
  split
  · split
    · simpa using ha
    · simp
  · exact this

theorem setVhostQuery_urisegs (rt : Runtime) (s : DirectiveState) (sql paramName : CStr)
    (hl : ∀ i, 0 ≤ s.conf.urisegs.getD i 0 ∧ s.conf.urisegs.getD i 0 ≤ 9) :
    ∀ i, 0 ≤ (setVhostQuery rt s sql paramName).2.conf.urisegs.getD i 0
      ∧ (setVhostQuery rt s sql paramName).2.conf.urisegs.getD i 0 ≤ 9 := by
  unfold setVhostQuery
  split
  · exact hl
  · split
    · exact hl
    · split
      · exact hl
      · rename_i code segs hk
        cases segs with
        | none =>
          simp only []
          split <;> exact hl
        | some n =>
          have hn := paramKind_segs rt paramName code n hk
          simp only []
          split <;> exact getD_set_bounds _ _ _ hl hn

/-- Every segment count of a configuration the server can hold is a
single digit: 0 to 9. -/
theorem configured_urisegs (rt : Runtime) (conf : vhost_dbd_conf) (h : Configured rt conf) :
    ∀ i, 0 ≤ conf.urisegs.getD i 0 ∧ conf.urisegs.getD i 0 ≤ 9 := by
  induction h with
  | created =>
    intro i
    simp only [config_server, List.getD_eq_getElem?_getD, List.getElem?_replicate]
    split <;> simp
  | directive s sql paramName _ ih => exact setVhostQuery_urisegs rt s sql paramName ih
  | merged base add _ _ ihb iha =>
    unfold merge_config_server
    split
    · exact iha
    · exact ihb

end VhostDbd

namespace VhostDbd

theorem collectParam_other (rt : Runtime) (conf : vhost_dbd_conf)
    (r : request_rec) (uri : CStr) (v : ParamVars) (i : Nat)
    (hp : conf.params.getD i ParamName.hostname ≠ ParamName.uri) :
    (collectParam rt conf r uri v i).keyUri = v.keyUri
      ∧ (collectParam rt conf r uri v i).maxseg = v.maxseg := by
  unfold collectParam
  split
  · exact ⟨rfl, rfl⟩
  · exact ⟨rfl, rfl⟩
  · exact ⟨rfl, rfl⟩
  · exact ⟨rfl, rfl⟩
  · rename_i h; exact absurd h hp

theorem uriDescriptorsUpTo_succ (conf : vhost_dbd_conf) (k : Nat) :
    uriDescriptorsUpTo conf (k + 1)
      = uriDescriptorsUpTo conf k
        ++ (if conf.params.getD k ParamName.hostname = ParamName.uri
            then [conf.urisegs.getD k 0] else []) := by
  unfold uriDescriptorsUpTo
  rw [List.range_succ, List.filterMap_append]
  congr 1
  by_cases h : conf.params.getD k ParamName.hostname = ParamName.uri
  · simp only [List.filterMap, if_pos h]
  · simp only [List.filterMap, if_neg h]

/-- The state of the parameter loop after `k` rounds, as far as the URI
component of the key goes. -/
theorem keyUri_invariant (rt : Runtime) (conf : vhost_dbd_conf) (r : request_rec) (uri : CStr)
    (hb : ∀ i, 0 ≤ conf.urisegs.getD i 0 ∧ conf.urisegs.getD i 0 ≤ 9)
    (v0 : ParamVars) (hk0 : v0.keyUri = none) (hm0 : v0.maxseg = 0) (k : Nat) :
    (uriDescriptorsUpTo conf k = [] →
        ((List.range k).foldl (collectParam rt conf r uri) v0).keyUri = none
          ∧ ((List.range k).foldl (collectParam rt conf r uri) v0).maxseg = 0)
      ∧ (0 ∈ uriDescriptorsUpTo conf k →
        ((List.range k).foldl (collectParam rt conf r uri) v0).keyUri = some (rt.ap_escape_uri uri)
          ∧ ((List.range k).foldl (collectParam rt conf r uri) v0).maxseg = 10)
      ∧ (uriDescriptorsUpTo conf k ≠ [] → 0 ∉ uriDescriptorsUpTo conf k →
        ((List.range k).foldl (collectParam rt conf r uri) v0).maxseg ∈ uriDescriptorsUpTo conf k
          ∧ (∀ n ∈ uriDescriptorsUpTo conf k,
              n ≤ ((List.range k).foldl (collectParam rt conf r uri) v0).maxseg)
          ∧ ((List.range k).foldl (collectParam rt conf r uri) v0).keyUri
            = some (leadingSegments ((List.range k).foldl (collectParam rt conf r uri) v0).maxseg
                (rt.ap_escape_uri uri))) := by
  induction k with
  | zero =>
    simp [uriDescriptorsUpTo, hk0, hm0]
  | succ k ih =>
    rw [List.range_succ, List.foldl_append, uriDescriptorsUpTo_succ]
    simp only [List.foldl_cons, List.foldl_nil]
    generalize ((List.range k).foldl (collectParam rt conf r uri) v0) = v at ih ⊢
    generalize uriDescriptorsUpTo conf k = ns at ih ⊢
    obtain ⟨ih1, ih2, ih3⟩ := ih
    by_cases hp : conf.params.getD k ParamName.hostname = ParamName.uri
    · obtain ⟨hj0, hj9⟩ := hb k
      rw [if_pos hp, collectParam_uri rt conf r uri v k hp]
      generalize conf.urisegs.getD k 0 = j at hj0 hj9 ⊢
      by_cases hz : j = 0
      · subst hz
        simp
      · rw [if_pos hz]
        have hmem : (0 : Int) ∈ ns ++ [j] ↔ 0 ∈ ns := by
          simp only [List.mem_append, List.mem_singleton]
          constructor
          · rintro (h | h)
            · exact h
            · exact absurd h.symm hz
          · exact Or.inl
        by_cases hgt : j > v.maxseg
        · rw [if_pos hgt]
          refine ⟨fun h => by simp at h, fun h => ?_, fun _ h => ?_⟩
          · have := (ih2 (hmem.1 h)).2
            omega
          · have h0 : (0 : Int) ∉ ns := fun h' => h (hmem.2 h')
            refine ⟨by simp, ?_, rfl⟩
            intro n hn
            simp only [List.mem_append, List.mem_singleton] at hn
            rcases hn with hn | hn
            · by_cases hne : ns = []
              · subst hne; simp at hn
              · have := (ih3 hne h0).2.1 n hn
                show n ≤ j
                omega
            · show n ≤ j
              omega
        · rw [if_neg hgt]
          refine ⟨fun h => by simp at h, fun h => ih2 (hmem.1 h), fun _ h => ?_⟩
          have h0 : (0 : Int) ∉ ns := fun h' => h (hmem.2 h')
          by_cases hne : ns = []
          · have := (ih1 hne).2
            omega
          · obtain ⟨a, b, c⟩ := ih3 hne h0
            refine ⟨by simp [a], ?_, c⟩
            intro n hn
            simp only [List.mem_append, List.mem_singleton] at hn
            rcases hn with hn | hn
            · exact b n hn
            · show n ≤ v.maxseg
              omega
    · obtain ⟨e1, e2⟩ := collectParam_other rt conf r uri v k hp
      rw [if_neg hp, List.append_nil, e1, e2]
      exact ⟨ih1, ih2, ih3⟩

end VhostDbd

namespace VhostDbd

theorem configure_configured (rt : Runtime) (sql : CStr) (names : List CStr) :
    Configured rt (configure rt sql names).conf := by
  have gen : ∀ (names : List CStr) (s : DirectiveState), Configured rt s.conf →
      Configured rt (names.foldl (fun s n => (setVhostQuery rt s sql n).2) s).conf := by
    intro names
    induction names with
    | nil => intro s hs; exact hs
    | cons n rest ih =>
      intro s hs
      exact ih _ (Configured.directive s sql n hs)
  exact gen names firstState Configured.created

/-- The URI component of the key after the whole loop, for segment counts
between 0 and 9. -/
theorem keyUri_spec (rt : Runtime) (conf : vhost_dbd_conf) (r : request_rec) (uri : CStr)
    (hb : ∀ i, 0 ≤ conf.urisegs.getD i 0 ∧ conf.urisegs.getD i 0 ≤ 9) :
    (uriDescriptors conf = [] → (collectParams rt conf r uri).keyUri = none)
      ∧ (0 ∈ uriDescriptors conf →
          (collectParams rt conf r uri).keyUri = some (rt.ap_escape_uri uri))
      ∧ (uriDescriptors conf ≠ [] → 0 ∉ uriDescriptors conf →
          ∃ m ∈ uriDescriptors conf, (∀ n ∈ uriDescriptors conf, n ≤ m)
            ∧ (collectParams rt conf r uri).keyUri
              = some (leadingSegments m (rt.ap_escape_uri uri))) := by
  obtain ⟨h1, h2, h3⟩ := keyUri_invariant rt conf r uri hb
    { params := List.replicate conf.nparams none, keyHostname := none, keyFTPuser := none,
      keyUri := none, maxseg := 0 } rfl rfl conf.nparams
  refine ⟨fun h => (h1 h).1, fun h => (h2 h).1, fun hne h0 => ?_⟩
  obtain ⟨a, b, c⟩ := h3 hne h0
  exact ⟨_, a, b, c⟩

end VhostDbd

namespace VhostDbd

/-! ## C10: the exported variables -/

theorem sanitizeName_getElem? (name : CStr) (k : Nat) (c : Char) (h : name[k]? = some c) :
    (sanitizeName name)[k]? = some (if apr_isalnum c then c else '_') := by
  unfold sanitizeName
  rw [List.getElem?_map, h]
  by_cases hc : apr_isalnum c = true <;> simp [hc]

/-- A column whose name is skipped, or does not match `str`, leaves the
value of `str` alone. -/
theorem exportColumn_other (res : apr_dbd_results_t) (row : apr_dbd_row_t) (env : apr_table_t)
    (j : Nat) (str : CStr)
    (h : ∀ name, apr_dbd_get_name res j = some name → name ≠ [] →
      keyMatch (sanitizeName name) str = false) :
    apr_table_get (exportColumn res row env j) str = apr_table_get env str := by
  unfold exportColumn
  split
  · rfl
  · rename_i name hname
    by_cases hne : name = []
    · simp [hne]
    · have hm := h name hname hne
      simp only [hne, if_false]
      split
      · rw [apr_table_get_unset, hm]; simp
      · split
        · rw [apr_table_get_unset, hm]; simp
        · rw [apr_table_get_set, hm]; simp

theorem exportColumns_others (res : apr_dbd_results_t) (row : apr_dbd_row_t) (str : CStr)
    (l : List Nat) (env : apr_table_t)
    (h : ∀ j ∈ l, ∀ name, apr_dbd_get_name res j = some name → name ≠ [] →
      keyMatch (sanitizeName name) str = false) :
    apr_table_get (l.foldl (exportColumn res row) env) str = apr_table_get env str := by
  induction l generalizing env with
  | nil => rfl
  | cons a l ih =>
    rw [List.foldl_cons, ih _ (fun j hj => h j (List.mem_cons_of_mem _ hj))]
    exact exportColumn_other res row env a str (h a (List.mem_cons_self _ _))

/-- The value of the variable of column `j` just after the column is handled. -/
theorem exportColumn_self (res : apr_dbd_results_t) (row : apr_dbd_row_t) (env : apr_table_t)
    (j : Nat) (name : CStr) (hname : apr_dbd_get_name res j = some name) (hne : name ≠ []) :
    apr_table_get (exportColumn res row env j) (sanitizeName name)
      = match apr_dbd_get_entry row j with
        | none => none
        | some val => if val = [] then none else some val := by
  unfold exportColumn
  rw [hname]
  simp only [hne, if_false]
  split
  · rw [apr_table_get_unset, keyMatch_self]; simp
  · rename_i val _
    by_cases hv : val = []
    · simp only [hv, if_true]
      rw [apr_table_get_unset, keyMatch_self]; simp
    · simp only [hv, if_false]
      rw [apr_table_get_set, keyMatch_self]; simp

theorem exportColumns_list (res : apr_dbd_results_t) (row : apr_dbd_row_t)
    (j : Nat) (name : CStr) (hname : apr_dbd_get_name res j = some name) (hne : name ≠ [])
    (l : List Nat) (env : apr_table_t) (hj : j ∈ l) (hs : l.Pairwise (fun a b => a < b))
    (h : ∀ j2 ∈ l, j < j2 → ∀ name2, apr_dbd_get_name res j2 = some name2 → name2 ≠ [] →
      keyMatch (sanitizeName name2) (sanitizeName name) = false) :
    apr_table_get (l.foldl (exportColumn res row) env) (sanitizeName name)
      = match apr_dbd_get_entry row j with
        | none => none
        | some val => if val = [] then none else some val := by
  induction l generalizing env with
  | nil => simp at hj
  | cons a l ih =>
    rw [List.pairwise_cons] at hs
    obtain ⟨ha, hs⟩ := hs
    rw [List.foldl_cons]
    by_cases haj : a = j
    · subst haj
      rw [exportColumns_others res row _ l _
        (fun j2 hj2 => h j2 (List.mem_cons_of_mem _ hj2) (ha j2 hj2))]
      exact exportColumn_self res row env a name hname hne
    · have hj' : j ∈ l := by
        rcases List.mem_cons.1 hj with e | e
        · exact absurd e.symm haj
        · exact e
      exact ih _ hj' hs (fun j2 hj2 => h j2 (List.mem_cons_of_mem _ hj2))

theorem exportColumns_spec (res : apr_dbd_results_t) (row : apr_dbd_row_t) (env : apr_table_t)
    (cols : Int) (j : Nat) (name : CStr) (hj1 : 1 ≤ j) (hjc : (j : Int) < cols)
    (hname : apr_dbd_get_name res j = some name) (hne : name ≠ [])
    (h : ∀ j2 : Nat, j < j2 → (j2 : Int) < cols →
      ∀ name2, apr_dbd_get_name res j2 = some name2 → name2 ≠ [] →
      keyMatch (sanitizeName name2) (sanitizeName name) = false) :
    apr_table_get (exportColumns res row env cols) (sanitizeName name)
      = match apr_dbd_get_entry row j with
        | none => none
        | some val => if val = [] then none else some val := by
  unfold exportColumns
  have hmem : ∀ j2, j2 ∈ (List.range cols.toNat).drop 1 → (j2 : Int) < cols := by
    intro j2 hj2
    have := List.mem_range.1 (List.mem_of_mem_drop hj2)
    omega
  apply exportColumns_list res row j name hname hne
  · have hlt : j < cols.toNat := by omega
    have hsplit : List.range cols.toNat = List.range 1 ++ (List.range cols.toNat).drop 1 := by
      have : (List.range cols.toNat).take 1 = List.range 1 := by
        rw [List.take_range]
        congr 1
        omega
      rw [← this, List.take_append_drop]
    have hjin : j ∈ List.range cols.toNat := List.mem_range.2 hlt
    rw [hsplit, List.mem_append] at hjin
    rcases hjin with hin | hin
    · have := List.mem_range.1 hin
      omega
    · exact hin
  · exact (List.pairwise_lt_range _).sublist (List.drop_sublist _ _)
  · intro j2 hj2 hlt
    exact h j2 hlt (hmem j2 hj2)

end VhostDbd

namespace VhostDbd

/-- C10 (as stated, refuted): a fresh row has the root `/srv/site1`, the
column `Theme` with the value `dark` and then the column `THEME` with an
empty value.  The later column sanitizes to `THEME`, which is not the name
`Theme`, yet after the call the variable `Theme` is absent: the table of
variables compares names without regard to letter case, so the empty value of
`THEME` clears it. -/
theorem later_column_in_other_case_clears :
    sanitizeName "THEME".toList ≠ sanitizeName "Theme".toList
      ∧ (setDocRoot exampleRuntime hostConf (some (fixedDb caseRow)) hostRequest []).status = OK
      ∧ apr_table_get
          (setDocRoot exampleRuntime hostConf (some (fixedDb caseRow)) hostRequest []).subprocess_env
          (sanitizeName "Theme".toList) = none
      ∧ (setDocRoot exampleRuntime hostConf (some (fixedDb caseRow)) hostRequest []).subprocess_env
        = [] := by
  decide

/-- C10 (amended): after a fresh query whose first row has a root that is
not empty, take a column `j ≥ 1` below the column count with a name that is
not empty.  Its variable is named by the column name with every character
that is not alphanumeric replaced by `_`, the others and the length kept.
If no later column with a name that is not empty sanitizes to the same name
up to ASCII letter case, then after the call the variable holds the cell
value when that is not empty, and is absent when the cell is empty or NULL,
whatever the environment held before. -/
theorem exported_variable_of_column (rt : Runtime) (conf : vhost_dbd_conf)
    (dbd : ap_dbd_t) (r : request_rec) (notes : apr_table_t)
    (stmt : apr_dbd_prepared_t) (args : List (Option CStr))
    (row : apr_dbd_row_t) (rest : List apr_dbd_row_t) (root : CStr)
    (hex : (setDocRoot rt conf (some dbd) r notes).db.executed = [(stmt, args)])
    (hrv : (dbd.pselect stmt args).1 = 0)
    (h1 : (dbd.pselect stmt args).2.num_tuples ≤ 1)
    (h0 : (dbd.pselect stmt args).2.num_tuples ≠ 0)
    (hc : (dbd.pselect stmt args).2.num_cols ≠ 0)
    (hrows : (dbd.pselect stmt args).2.rows = row :: rest)
    (hroot : apr_dbd_get_entry row 0 = some root) (hne : root ≠ [])
    (j : Nat) (name : CStr) (hj1 : 1 ≤ j) (hjc : (j : Int) < (dbd.pselect stmt args).2.num_cols)
    (hname : apr_dbd_get_name (dbd.pselect stmt args).2 j = some name) (hnm : name ≠ [])
    (hlater : ∀ j2 : Nat, j < j2 → (j2 : Int) < (dbd.pselect stmt args).2.num_cols →
      ∀ name2, apr_dbd_get_name (dbd.pselect stmt args).2 j2 = some name2 → name2 ≠ [] →
      keyMatch (sanitizeName name2) (sanitizeName name) = false) :
    (sanitizeName name).length = name.length
      ∧ (∀ (k : Nat) (c : Char), name[k]? = some c →
          (sanitizeName name)[k]? = some (if apr_isalnum c then c else '_'))
      ∧ (∀ val, apr_dbd_get_entry row j = some val → val ≠ [] →
          apr_table_get (setDocRoot rt conf (some dbd) r notes).subprocess_env (sanitizeName name)
            = some val)
      ∧ (apr_dbd_get_entry row j = none ∨ apr_dbd_get_entry row j = some [] →
          apr_table_get (setDocRoot rt conf (some dbd) r notes).subprocess_env (sanitizeName name)
            = none) := by
  obtain ⟨uri, _, _, _, _, _, _, _, _, hrun⟩ := setDocRoot_inv rt conf dbd r notes stmt args hex hrv
  have henv : (setDocRoot rt conf (some dbd) r notes).subprocess_env
      = exportColumns (dbd.pselect stmt args).2 row r.fields.subprocess_env
          (dbd.pselect stmt args).2.num_cols := by
    rw [hrun, readResult_row rt uri _ 0 _ _ _ row rest root h1 h0 hc hrows hroot hne,
      mapToFile_env]
    rfl
  have hspec := exportColumns_spec (dbd.pselect stmt args).2 row r.fields.subprocess_env
    (dbd.pselect stmt args).2.num_cols j name hj1 hjc hname hnm hlater
  rw [← henv] at hspec
  refine ⟨by simp [sanitizeName], sanitizeName_getElem? name, ?_, ?_⟩
  · intro val hval hv
    rw [hspec, hval]
    simp [hv]
  · rintro (hval | hval)
    · rw [hspec, hval]
    · rw [hspec, hval]
      simp

/-- C10 (amended), on the example of the claim: the column `theme` with the
value `dark` exports `theme=dark`; and with an empty value it clears the
`theme` the environment had before. -/
theorem exported_variable_of_column_witness :
    (apr_table_get
        (setDocRoot exampleRuntime hostConf (some (fixedDb siteRow)) hostRequest []).subprocess_env
        "theme".toList = some "dark".toList
      ∧ apr_table_get themedRequest.fields.subprocess_env "theme".toList = some "light".toList
      ∧ apr_table_get
          (setDocRoot exampleRuntime hostConf (some (fixedDb clearRow)) themedRequest
            []).subprocess_env "theme".toList = none)
    ∧ ((sanitizeName "theme".toList).length = "theme".toList.length
      ∧ (∀ (k : Nat) (c : Char), "theme".toList[k]? = some c →
          (sanitizeName "theme".toList)[k]? = some (if apr_isalnum c then c else '_'))
      ∧ (∀ val, apr_dbd_get_entry [some "/srv/site1".toList, some "dark".toList] 1 = some val →
          val ≠ [] →
          apr_table_get
            (setDocRoot exampleRuntime hostConf (some (fixedDb siteRow)) hostRequest
              []).subprocess_env (sanitizeName "theme".toList) = some val)
      ∧ (apr_dbd_get_entry [some "/srv/site1".toList, some "dark".toList] 1 = none
            ∨ apr_dbd_get_entry [some "/srv/site1".toList, some "dark".toList] 1 = some [] →
          apr_table_get
            (setDocRoot exampleRuntime hostConf (some (fixedDb siteRow)) hostRequest
              []).subprocess_env (sanitizeName "theme".toList) = none)) :=
  ⟨by decide,
    exported_variable_of_column exampleRuntime hostConf (fixedDb siteRow) hostRequest []
      1 [some "a.example".toList] [some "/srv/site1".toList, some "dark".toList] []
      "/srv/site1".toList (by decide) rfl (by decide) (by decide) (by decide) rfl (by decide)
      (by decide) 1 "theme".toList (by decide) (by decide) (by decide) (by decide)
      (fun j2 hlt hcol => by
        have : ((fixedDb siteRow).pselect 1 [some "a.example".toList]).2.num_cols = 2 := rfl
        rw [this] at hcol
        omega)⟩

end VhostDbd

namespace VhostDbd

/-! ## C2: which requests share a key -/

theorem toLower_eq_tab (c : Char) (h : c.toLower = '\t') : c = '\t' := by
  unfold Char.toLower at h
  simp only [ge_iff_le] at h
  split at h
  · rename_i hr
    obtain ⟨h1, h2⟩ := hr
    exfalso
    generalize c.toNat = n at h h1 h2
    interval_cases n <;> exact absurd h (by decide)
  · exact h

theorem tab_not_mem_lower (s : CStr) (h : '\t' ∉ s) : '\t' ∉ s.map Char.toLower := by
  intro hm
  obtain ⟨c, hc, e⟩ := List.mem_map.1 hm
  exact h (toLower_eq_tab c e ▸ hc)

theorem append_cons_inj (t : Char) (a b x y : CStr) (ha : t ∉ a) (hb : t ∉ b)
    (h : a ++ t :: x = b ++ t :: y) : a = b ∧ x = y := by
  induction a generalizing b with
  | nil =>
    cases b with
    | nil => simpa using h
    | cons c b =>
      simp only [List.nil_append, List.cons_append, List.cons.injEq] at h
      exact absurd (h.1 ▸ List.mem_cons_self _ _) hb
  | cons c a ih =>
    cases b with
    | nil =>
      simp only [List.nil_append, List.cons_append, List.cons.injEq] at h
      exact absurd (h.1 ▸ List.mem_cons_self _ _) ha
    | cons d b =>
      simp only [List.cons_append, List.cons.injEq] at h
      obtain ⟨rfl, h⟩ := h
      obtain ⟨e1, e2⟩ := ih b (fun hm => ha (List.mem_cons_of_mem _ hm))
        (fun hm => hb (List.mem_cons_of_mem _ hm)) h
      exact ⟨by rw [e1], e2⟩

/-- Keys whose host and user components hold no tab match only when the
three components agree up to letter case. -/
theorem cacheKey_match (v1 v2 : ParamVars)
    (h1 : '\t' ∉ v1.keyHostname.getD []) (h2 : '\t' ∉ v2.keyHostname.getD [])
    (u1 : '\t' ∉ v1.keyFTPuser.getD []) (u2 : '\t' ∉ v2.keyFTPuser.getD [])
    (h : keyMatch (cacheKey v1) (cacheKey v2) = true) :
    (v1.keyHostname.getD []).map Char.toLower = (v2.keyHostname.getD []).map Char.toLower
      ∧ (v1.keyFTPuser.getD []).map Char.toLower = (v2.keyFTPuser.getD []).map Char.toLower
      ∧ (v1.keyUri.getD []).map Char.toLower = (v2.keyUri.getD []).map Char.toLower := by
  rw [keyMatch_iff] at h
  unfold cacheKey at h
  simp only [List.map_append, List.append_assoc, List.map_cons, List.map_nil,
    List.singleton_append] at h
  have ht : Char.toLower '\t' = '\t' := by decide
  rw [ht] at h
  have h' := List.append_cancel_left h
  obtain ⟨e1, h''⟩ := append_cons_inj '\t' _ _ _ _ (tab_not_mem_lower _ h1)
    (tab_not_mem_lower _ h2) h'
  obtain ⟨e2, e3⟩ := append_cons_inj '\t' _ _ _ _ (tab_not_mem_lower _ u1)
    (tab_not_mem_lower _ u2) h''
  exact ⟨e1, e2, e3⟩

end VhostDbd

namespace VhostDbd

theorem collectParam_keyHostname (rt : Runtime) (conf : vhost_dbd_conf)
    (r : request_rec) (uri : CStr) (v : ParamVars) (i : Nat) :
    (collectParam rt conf r uri v i).keyHostname
      = if conf.params.getD i ParamName.hostname = ParamName.hostname
        then r.fields.hostname.map rt.ap_escape_logitem else v.keyHostname := by
  by_cases hp : conf.params.getD i ParamName.hostname = ParamName.uri
  · rw [collectParam_uri rt conf r uri v i hp, hp]
    simp only [reduceCtorEq, if_false]
    split
    · split <;> rfl
    · rfl
  · unfold collectParam
    split <;> simp_all

theorem collectParam_keyFTPuser (rt : Runtime) (conf : vhost_dbd_conf)
    (r : request_rec) (uri : CStr) (v : ParamVars) (i : Nat) :
    (collectParam rt conf r uri v i).keyFTPuser
      = if conf.params.getD i ParamName.hostname = ParamName.ftpuser
        then r.mainreq.user.map rt.ap_escape_logitem else v.keyFTPuser := by
  by_cases hp : conf.params.getD i ParamName.hostname = ParamName.uri
  · rw [collectParam_uri rt conf r uri v i hp, hp]
    simp only [reduceCtorEq, if_false]
    split
    · split <;> rfl
    · rfl
  · unfold collectParam
    split <;> simp_all

theorem keyHostname_rounds (rt : Runtime) (conf : vhost_dbd_conf) (r : request_rec) (uri : CStr)
    (v0 : ParamVars) (h0 : v0.keyHostname = none) (k : Nat) :
    ((List.range k).foldl (collectParam rt conf r uri) v0).keyHostname
      = if ParamName.hostname ∈ (List.range k).map (fun i => conf.params.getD i ParamName.hostname)
        then r.fields.hostname.map rt.ap_escape_logitem else none := by
  induction k with
  | zero => simp [h0]
  | succ k ih =>
    rw [List.range_succ, List.foldl_append, List.map_append]
    simp only [List.foldl_cons, List.foldl_nil, List.map_cons, List.map_nil, List.mem_append,
      List.mem_singleton]
    rw [collectParam_keyHostname, ih]
    generalize conf.params.getD k ParamName.hostname = c
    by_cases hc : c = ParamName.hostname
    · subst hc; simp
    · have hc2 : ¬ ParamName.hostname = c := fun e => hc e.symm
      simp [hc, hc2]

theorem keyFTPuser_rounds (rt : Runtime) (conf : vhost_dbd_conf) (r : request_rec) (uri : CStr)
    (v0 : ParamVars) (h0 : v0.keyFTPuser = none) (k : Nat) :
    ((List.range k).foldl (collectParam rt conf r uri) v0).keyFTPuser
      = if ParamName.ftpuser ∈ (List.range k).map (fun i => conf.params.getD i ParamName.hostname)
        then r.mainreq.user.map rt.ap_escape_logitem else none := by
  induction k with
  | zero => simp [h0]
  | succ k ih =>
    rw [List.range_succ, List.foldl_append, List.map_append]
    simp only [List.foldl_cons, List.foldl_nil, List.map_cons, List.map_nil, List.mem_append,
      List.mem_singleton]
    rw [collectParam_keyFTPuser, ih]
    generalize conf.params.getD k ParamName.hostname = c
    by_cases hc : c = ParamName.ftpuser
    · subst hc; simp
    · have hc2 : ¬ ParamName.ftpuser = c := fun e => hc e.symm
      simp [hc, hc2]

/-- The host component of the key: the escaped host name when HOSTNAME is
one of the parameters, and NULL otherwise. -/
theorem keyHostname_spec (rt : Runtime) (conf : vhost_dbd_conf) (r : request_rec) (uri : CStr) :
    (collectParams rt conf r uri).keyHostname
      = if ParamName.hostname ∈ paramCodes conf
        then r.fields.hostname.map rt.ap_escape_logitem else none :=
  keyHostname_rounds rt conf r uri _ rfl conf.nparams

/-- The user component of the key: the escaped user of the top-level request
when FTPUSER is one of the parameters, and NULL otherwise. -/
theorem keyFTPuser_spec (rt : Runtime) (conf : vhost_dbd_conf) (r : request_rec) (uri : CStr) :
    (collectParams rt conf r uri).keyFTPuser
      = if ParamName.ftpuser ∈ paramCodes conf
        then r.mainreq.user.map rt.ap_escape_logitem else none :=
  keyFTPuser_rounds rt conf r uri _ rfl conf.nparams

end VhostDbd

namespace VhostDbd

theorem keyUri_rounds_congr (rt : Runtime) (conf : vhost_dbd_conf) (r r2 : request_rec)
    (uri : CStr) (v0 w0 : ParamVars) (hk : v0.keyUri = w0.keyUri) (hm : v0.maxseg = w0.maxseg)
    (k : Nat) :
    ((List.range k).foldl (collectParam rt conf r uri) v0).keyUri
        = ((List.range k).foldl (collectParam rt conf r2 uri) w0).keyUri
      ∧ ((List.range k).foldl (collectParam rt conf r uri) v0).maxseg
        = ((List.range k).foldl (collectParam rt conf r2 uri) w0).maxseg := by
  induction k with
  | zero => exact ⟨hk, hm⟩
  | succ k ih =>
    rw [List.range_succ, List.foldl_append, List.foldl_append]
    simp only [List.foldl_cons, List.foldl_nil]
    generalize (List.range k).foldl (collectParam rt conf r uri) v0 = v at ih ⊢
    generalize (List.range k).foldl (collectParam rt conf r2 uri) w0 = w at ih ⊢
    obtain ⟨e1, e2⟩ := ih
    by_cases hp : conf.params.getD k ParamName.hostname = ParamName.uri
    · rw [collectParam_uri rt conf r uri v k hp, collectParam_uri rt conf r2 uri w k hp, e2]
      split
      · split
        · exact ⟨rfl, rfl⟩
        · exact ⟨e1, rfl⟩
      · exact ⟨rfl, rfl⟩
    · obtain ⟨a1, a2⟩ := collectParam_other rt conf r uri v k hp
      obtain ⟨b1, b2⟩ := collectParam_other rt conf r2 uri w k hp
      rw [a1, a2, b1, b2]
      exact ⟨e1, e2⟩

theorem withConnection_fields (c : conn_rec) (r : request_rec) :
    (r.withConnection c).fields.hostname = r.fields.hostname
      ∧ (r.withConnection c).fields.uri = r.fields.uri
      ∧ (r.withConnection c).fields.proxyreq = r.fields.proxyreq
      ∧ (r.withConnection c).mainreq.user = r.mainreq.user := by
  induction r with
  | top f => exact ⟨rfl, rfl, rfl, rfl⟩
  | sub f m ih => exact ⟨rfl, rfl, rfl, ih.2.2.2⟩

/-- The key does not depend on the local address and port of the connection. -/
theorem requestKey_withConnection (rt : Runtime) (conf : vhost_dbd_conf) (r : request_rec)
    (c : conn_rec) : requestKey rt conf (r.withConnection c) = requestKey rt conf r := by
  obtain ⟨h1, h2, _, h4⟩ := withConnection_fields c r
  unfold requestKey cacheKey
  rw [keyHostname_spec, keyHostname_spec, keyFTPuser_spec, keyFTPuser_spec, h1, h2, h4]
  have := (keyUri_rounds_congr rt conf (r.withConnection c) r (r.fields.uri.getD [])
    { params := List.replicate conf.nparams none, keyHostname := none, keyFTPuser := none,
      keyUri := none, maxseg := 0 }
    { params := List.replicate conf.nparams none, keyHostname := none, keyFTPuser := none,
      keyUri := none, maxseg := 0 } rfl rfl conf.nparams).1
  unfold collectParams
  rw [this]

theorem setDocRoot_notes_key (rt : Runtime) (conf : vhost_dbd_conf) (dbd : Option ap_dbd_t)
    (r : request_rec) (notes : apr_table_t) :
    (setDocRoot rt conf dbd r notes).notes = notes
      ∨ ∃ val, (setDocRoot rt conf dbd r notes).notes
          = apr_table_set notes (requestKey rt conf r) val := by
  unfold setDocRoot
  simp only []
  split
  · left; rfl
  · split
    · left; rfl
    · split
      · left; rfl
      · rename_i uri huri
        have hk : requestKey rt conf r = cacheKey (collectParams rt conf r uri) := by
          simp [requestKey, huri]
        rw [hk]
        split
        · left; rfl
        · split
          · rcases mapToFile_notes rt uri (cacheKey (collectParams rt conf r uri)) _ 0
              (unchanged r notes) with h | h
            · left; rw [h]; rfl
            · right; exact ⟨_, h⟩
          · rcases runQuery_notes rt conf _ dbd uri (cacheKey (collectParams rt conf r uri))
              (collectParams rt conf r uri).params (unchanged r notes) with h | ⟨val, h⟩
            · left; rw [h]; rfl
            · right; exact ⟨val, h⟩

/-- A request that passes the checks of lines 102-110 and has no value under
its key runs the query of lines 171-284. -/
theorem setDocRoot_miss (rt : Runtime) (conf : vhost_dbd_conf) (label : CStr)
    (dbd : Option ap_dbd_t) (r : request_rec) (notes : apr_table_t) (uri : CStr)
    (hl : conf.label = some label) (hp : r.fields.proxyreq = 0)
    (hu : r.fields.uri = some uri) (hv : invalidUri uri = false)
    (hmiss : apr_table_get notes (requestKey rt conf r) = none) :
    setDocRoot rt conf dbd r notes
      = runQuery rt conf label dbd uri (requestKey rt conf r)
          (collectParams rt conf r uri).params (unchanged r notes) := by
  have hk : apr_table_get notes (cacheKey (collectParams rt conf r uri)) = none := by
    simpa [requestKey, hu] using hmiss
  unfold setDocRoot
  simp [hl, hp, hu, hv, hk, requestKey]

theorem runQuery_executed_eq (rt : Runtime) (conf : vhost_dbd_conf) (label : CStr)
    (dbd : ap_dbd_t) (uri key : CStr) (params : List (Option CStr)) (o : Outcome)
    (stmt : apr_dbd_prepared_t) (hs : resolveStatement conf dbd label = some stmt) :
    (runQuery rt conf label (some dbd) uri key params o).db.executed = [(stmt, params)] := by
  unfold runQuery
  simp only [hs]
  split
  · rfl
  · rw [readResult_executed]

end VhostDbd

namespace VhostDbd

theorem escapeTabs_no_tab (s : CStr) : '\t' ∉ escapeTabs s := by
  induction s with
  | nil => simp [escapeTabs]
  | cons c s ih =>
    unfold escapeTabs
    split
    · simp only [List.mem_cons, not_or]
      exact ⟨by decide, by decide, ih⟩
    · split
      · simp only [List.mem_cons, not_or]
        exact ⟨by decide, by decide, ih⟩
      · rename_i hc _
        simp only [List.mem_cons, not_or]
        exact ⟨fun e => hc e.symm, ih⟩

theorem no_tab_escaped (rt : Runtime) (hesc : ∀ s, '\t' ∉ rt.ap_escape_logitem s)
    (o : Option CStr) (p : Prop) [Decidable p] :
    '\t' ∉ (if p then o.map rt.ap_escape_logitem else none).getD [] := by
  by_cases hp : p
  · rw [if_pos hp]
    cases o with
    | none => simp
    | some s => simpa using hesc s
  · rw [if_neg hp]
    simp

/-- The key of a request spelled out: the fixed word, the escaped host name
when HOSTNAME is a parameter, a tab, the escaped user when FTPUSER is a
parameter, a tab, and the URI component; a component that is not set adds
nothing. -/
theorem requestKey_components (rt : Runtime) (conf : vhost_dbd_conf) (r : request_rec)
    (u : CStr) (hu : r.fields.uri = some u) :
    requestKey rt conf r
      = "DBD:vhostKey=".toList
          ++ (if ParamName.hostname ∈ paramCodes conf
              then (r.fields.hostname.map rt.ap_escape_logitem).getD [] else [])
          ++ ['\t']
          ++ (if ParamName.ftpuser ∈ paramCodes conf
              then (r.mainreq.user.map rt.ap_escape_logitem).getD [] else [])
          ++ ['\t'] ++ (collectParams rt conf r u).keyUri.getD [] := by
  unfold requestKey cacheKey
  rw [hu, keyHostname_spec, keyFTPuser_spec]
  simp only [Option.getD_some]
  by_cases h1 : ParamName.hostname ∈ paramCodes conf <;>
    by_cases h2 : ParamName.ftpuser ∈ paramCodes conf <;>
    simp only [h1, h2, if_true, if_false, Option.getD_none]

/-- C2 (as stated, refuted): the configuration has the single parameter URI2.
Two requests that differ in the host name and in nothing else have the same
cache key, which holds no host name, and the second request, served after
the first on the same connection, reuses the cached root without any
database operation.  Two requests whose URI prefixes differ in letter case
have different key strings, and yet the second reuses the root cached for
the first, because the notes are looked up without regard to letter case. -/
theorem other_host_same_key :
    segmentRequest.fields.hostname ≠ otherHostRequest.fields.hostname
      ∧ requestKey exampleRuntime segmentConf segmentRequest
        = requestKey exampleRuntime segmentConf otherHostRequest
      ∧ (serve exampleRuntime segmentConf []
            [(segmentRequest, some (fixedDb siteRow)),
             (otherHostRequest, some (fixedDb siteRow))]).map
          (fun o => (o.status, o.db.acquired, o.db.executed.length))
        = [(OK, 1, 1), (OK, 0, 0)]
      ∧ requestKey exampleRuntime segmentConf segmentRequest = "DBD:vhostKey=\t\t/a/b".toList
      ∧ requestKey exampleRuntime segmentConf capitalRequest = "DBD:vhostKey=\t\t/A/B".toList
      ∧ (serve exampleRuntime segmentConf []
            [(segmentRequest, some (fixedDb siteRow)),
             (capitalRequest, some (fixedDb siteRow))]).map
          (fun o => (o.status, o.db.acquired, o.db.executed.length))
        = [(OK, 1, 1), (OK, 0, 0)] := by
  decide

/-- C2 (amended): the key is the fixed word followed by three components
separated by tabs: the escaped host name when HOSTNAME is a parameter and
nothing otherwise, the escaped FTP user when FTPUSER is a parameter and
nothing otherwise, and the URI component, which for a configuration the
server can hold is the widest URI parameter (nothing without a URI
parameter, the whole escaped URI when some count is 0, the leading segments
for the largest count otherwise).
When the escaping leaves no tab and one of these components differs between
two requests in more than ASCII letter case, the keys do not match.  When
the keys do not match, the first call changes nothing under the key of the
second request; if the notes had no value there, the second call acquires a
connection and, given a connection and a statement, executes the statement.
A request that differs only in the local address and port has the same key,
and a value the first call left under it is reused with no database
operation. -/
theorem other_key_not_reused (rt : Runtime) (conf : vhost_dbd_conf) (label : CStr)
    (r1 r2 : request_rec) (u1 u2 : CStr) (dbd1 dbd2 : Option ap_dbd_t) (notes : apr_table_t)
    (hesc : ∀ s, '\t' ∉ rt.ap_escape_logitem s)
    (hl : conf.label = some label) (hu1 : r1.fields.uri = some u1)
    (hp2 : r2.fields.proxyreq = 0) (hu2 : r2.fields.uri = some u2)
    (hv2 : invalidUri u2 = false) :
    (∀ (r : request_rec) (u : CStr), r.fields.uri = some u →
        requestKey rt conf r
          = "DBD:vhostKey=".toList
              ++ (if ParamName.hostname ∈ paramCodes conf
                  then (r.fields.hostname.map rt.ap_escape_logitem).getD [] else [])
              ++ ['\t']
              ++ (if ParamName.ftpuser ∈ paramCodes conf
                  then (r.mainreq.user.map rt.ap_escape_logitem).getD [] else [])
              ++ ['\t'] ++ (collectParams rt conf r u).keyUri.getD [])
      ∧ (Configured rt conf → ∀ (r : request_rec) (u : CStr),
          (uriDescriptors conf = [] → (collectParams rt conf r u).keyUri = none)
            ∧ (0 ∈ uriDescriptors conf →
                (collectParams rt conf r u).keyUri = some (rt.ap_escape_uri u))
            ∧ (0 ∉ uriDescriptors conf → ∀ m ∈ uriDescriptors conf,
                (∀ n ∈ uriDescriptors conf, n ≤ m) →
                (collectParams rt conf r u).keyUri
                  = some (leadingSegments m (rt.ap_escape_uri u))))
      ∧ ((ParamName.hostname ∈ paramCodes conf
          ∧ keyMatch ((r1.fields.hostname.map rt.ap_escape_logitem).getD [])
              ((r2.fields.hostname.map rt.ap_escape_logitem).getD []) = false)
        ∨ (ParamName.ftpuser ∈ paramCodes conf
          ∧ keyMatch ((r1.mainreq.user.map rt.ap_escape_logitem).getD [])
              ((r2.mainreq.user.map rt.ap_escape_logitem).getD []) = false)
        ∨ keyMatch ((collectParams rt conf r1 u1).keyUri.getD [])
            ((collectParams rt conf r2 u2).keyUri.getD []) = false →
        keyMatch (requestKey rt conf r1) (requestKey rt conf r2) = false)
      ∧ (keyMatch (requestKey rt conf r1) (requestKey rt conf r2) = false →
          apr_table_get (setDocRoot rt conf dbd1 r1 notes).notes (requestKey rt conf r2)
              = apr_table_get notes (requestKey rt conf r2)
            ∧ (apr_table_get notes (requestKey rt conf r2) = none →
                (setDocRoot rt conf dbd2 r2 (setDocRoot rt conf dbd1 r1 notes).notes).db.acquired
                    = 1
                  ∧ ∀ d stmt, dbd2 = some d → resolveStatement conf d label = some stmt →
                      (setDocRoot rt conf dbd2 r2
                          (setDocRoot rt conf dbd1 r1 notes).notes).db.executed
                        = [(stmt, (collectParams rt conf r2 u2).params)]))
      ∧ (∀ c : conn_rec, requestKey rt conf (r1.withConnection c) = requestKey rt conf r1
          ∧ (apr_table_get (setDocRoot rt conf dbd1 r1 notes).notes (requestKey rt conf r1)
                ≠ none →
              (setDocRoot rt conf dbd2 (r1.withConnection c)
                  (setDocRoot rt conf dbd1 r1 notes).notes).db = DbTrace.none)) := by
  have hk1 : requestKey rt conf r1 = cacheKey (collectParams rt conf r1 u1) := by
    simp [requestKey, hu1]
  have hk2 : requestKey rt conf r2 = cacheKey (collectParams rt conf r2 u2) := by
    simp [requestKey, hu2]
  refine ⟨fun r u hu => requestKey_components rt conf r u hu, ?_, ?_, ?_, ?_⟩
  · intro hconf r u
    obtain ⟨h1, h2, h3⟩ := keyUri_spec rt conf r u (configured_urisegs rt conf hconf)
    refine ⟨h1, h2, ?_⟩
    intro h0 m hm hmax
    obtain ⟨m2, hm2, hmax2, e⟩ := h3 (List.ne_nil_of_mem hm) h0
    have : m = m2 := le_antisymm (hmax2 m hm) (hmax m2 hm2)
    rw [this]; exact e
  · intro hd
    rw [Bool.eq_false_iff]
    intro hm
    rw [hk1, hk2] at hm
    have hcm := cacheKey_match _ _
      (by rw [keyHostname_spec]; exact no_tab_escaped rt hesc _ _)
      (by rw [keyHostname_spec]; exact no_tab_escaped rt hesc _ _)
      (by rw [keyFTPuser_spec]; exact no_tab_escaped rt hesc _ _)
      (by rw [keyFTPuser_spec]; exact no_tab_escaped rt hesc _ _) hm
    rw [keyHostname_spec, keyHostname_spec, keyFTPuser_spec, keyFTPuser_spec] at hcm
    obtain ⟨e1, e2, e3⟩ := hcm
    rcases hd with ⟨hmem, hne⟩ | ⟨hmem, hne⟩ | hne
    · rw [if_pos hmem, if_pos hmem] at e1
      rw [(keyMatch_iff _ _).2 e1] at hne
      cases hne
    · rw [if_pos hmem, if_pos hmem] at e2
      rw [(keyMatch_iff _ _).2 e2] at hne
      cases hne
    · rw [(keyMatch_iff _ _).2 e3] at hne
      cases hne
  · intro hm
    have hget : apr_table_get (setDocRoot rt conf dbd1 r1 notes).notes (requestKey rt conf r2)
        = apr_table_get notes (requestKey rt conf r2) := by
      rcases setDocRoot_notes_key rt conf dbd1 r1 notes with h | ⟨val, h⟩
      · rw [h]
      · rw [h, apr_table_get_set, hm]; simp
    refine ⟨hget, fun hnone => ?_⟩
    have hrun := setDocRoot_miss rt conf label dbd2 r2 _ u2 hl hp2 hu2 hv2 (hget.trans hnone)
    rw [hrun]
    refine ⟨runQuery_acquired _ _ _ _ _ _ _ _, ?_⟩
    intro d stmt hd hs
    subst hd
    exact runQuery_executed_eq rt conf label d u2 _ _ _ stmt hs
  · intro c
    refine ⟨requestKey_withConnection rt conf r1 c, fun hc => ?_⟩
    apply setDocRoot_hit_db
    rw [requestKey_withConnection]
    exact hc

end VhostDbd

namespace VhostDbd

/-- C2 (amended), on examples: with HOSTNAME as the only parameter the
key of a request to `a.example` holds that host name and no URI, and a
request to `b.example` after one to `a.example` runs its own query; with
URI2 as the only parameter the key of a request to `b.example` for `/a/b/c`
holds no host name and the URI component `/a/b`. -/
theorem other_key_not_reused_witness :
    (serve exampleRuntime hostConf []
          [(hostRequest, some (fixedDb siteRow)), (secondHostRequest, some (fixedDb siteRow))]).map
        (fun o => (o.status, o.db.acquired, o.db.executed.length))
      = [(OK, 1, 1), (OK, 1, 1)]
    ∧ requestKey exampleRuntime hostConf hostRequest = "DBD:vhostKey=a.example\t\t".toList
    ∧ requestKey exampleRuntime hostConf secondHostRequest = "DBD:vhostKey=b.example\t\t".toList
    ∧ requestKey exampleRuntime segmentConf otherHostRequest = "DBD:vhostKey=\t\t/a/b".toList
    ∧ ((∀ s, '\t' ∉ exampleRuntime.ap_escape_logitem s)
      ∧ hostConf.label = some "vhost_dbd_1".toList
      ∧ hostRequest.fields.uri = some "/x/y".toList
      ∧ secondHostRequest.fields.proxyreq = 0
      ∧ secondHostRequest.fields.uri = some "/x/y".toList
      ∧ invalidUri "/x/y".toList = false)
    ∧ ((∀ (r : request_rec) (u : CStr), r.fields.uri = some u →
          requestKey exampleRuntime hostConf r
            = "DBD:vhostKey=".toList
                ++ (if ParamName.hostname ∈ paramCodes hostConf
                    then (r.fields.hostname.map exampleRuntime.ap_escape_logitem).getD []
                    else [])
                ++ ['\t']
                ++ (if ParamName.ftpuser ∈ paramCodes hostConf
                    then (r.mainreq.user.map exampleRuntime.ap_escape_logitem).getD []
                    else [])
                ++ ['\t'] ++ (collectParams exampleRuntime hostConf r u).keyUri.getD [])
      ∧ (Configured exampleRuntime hostConf → ∀ (r : request_rec) (u : CStr),
          (uriDescriptors hostConf = [] →
              (collectParams exampleRuntime hostConf r u).keyUri = none)
            ∧ (0 ∈ uriDescriptors hostConf →
                (collectParams exampleRuntime hostConf r u).keyUri
                  = some (exampleRuntime.ap_escape_uri u))
            ∧ (0 ∉ uriDescriptors hostConf → ∀ m ∈ uriDescriptors hostConf,
                (∀ n ∈ uriDescriptors hostConf, n ≤ m) →
                (collectParams exampleRuntime hostConf r u).keyUri
                  = some (leadingSegments m (exampleRuntime.ap_escape_uri u))))
      ∧ ((ParamName.hostname ∈ paramCodes hostConf
          ∧ keyMatch ((hostRequest.fields.hostname.map exampleRuntime.ap_escape_logitem).getD [])
              ((secondHostRequest.fields.hostname.map exampleRuntime.ap_escape_logitem).getD [])
            = false)
        ∨ (ParamName.ftpuser ∈ paramCodes hostConf
          ∧ keyMatch ((hostRequest.mainreq.user.map exampleRuntime.ap_escape_logitem).getD [])
              ((secondHostRequest.mainreq.user.map exampleRuntime.ap_escape_logitem).getD [])
            = false)
        ∨ keyMatch ((collectParams exampleRuntime hostConf hostRequest "/x/y".toList).keyUri.getD [])
            ((collectParams exampleRuntime hostConf secondHostRequest "/x/y".toList).keyUri.getD [])
          = false →
        keyMatch (requestKey exampleRuntime hostConf hostRequest)
          (requestKey exampleRuntime hostConf secondHostRequest) = false)
      ∧ (keyMatch (requestKey exampleRuntime hostConf hostRequest)
            (requestKey exampleRuntime hostConf secondHostRequest) = false →
          apr_table_get
              (setDocRoot exampleRuntime hostConf (some (fixedDb siteRow)) hostRequest []).notes
              (requestKey exampleRuntime hostConf secondHostRequest)
              = apr_table_get [] (requestKey exampleRuntime hostConf secondHostRequest)
            ∧ (apr_table_get [] (requestKey exampleRuntime hostConf secondHostRequest) = none →
                (setDocRoot exampleRuntime hostConf (some (fixedDb siteRow)) secondHostRequest
                    (setDocRoot exampleRuntime hostConf (some (fixedDb siteRow)) hostRequest
                      []).notes).db.acquired = 1
                  ∧ ∀ d stmt, some (fixedDb siteRow) = some d →
                      resolveStatement hostConf d "vhost_dbd_1".toList = some stmt →
                      (setDocRoot exampleRuntime hostConf (some (fixedDb siteRow)) secondHostRequest
                          (setDocRoot exampleRuntime hostConf (some (fixedDb siteRow)) hostRequest
                            []).notes).db.executed
                        = [(stmt, (collectParams exampleRuntime hostConf secondHostRequest
                            "/x/y".toList).params)]))
      ∧ (∀ c : conn_rec,
          requestKey exampleRuntime hostConf (hostRequest.withConnection c)
              = requestKey exampleRuntime hostConf hostRequest
            ∧ (apr_table_get
                  (setDocRoot exampleRuntime hostConf (some (fixedDb siteRow)) hostRequest []).notes
                  (requestKey exampleRuntime hostConf hostRequest) ≠ none →
                (setDocRoot exampleRuntime hostConf (some (fixedDb siteRow))
                    (hostRequest.withConnection c)
                    (setDocRoot exampleRuntime hostConf (some (fixedDb siteRow)) hostRequest
                      []).notes).db = DbTrace.none))) :=
  ⟨by decide, by decide, by decide,
    (other_key_not_reused exampleRuntime segmentConf "vhost_dbd_1".toList segmentRequest
      otherHostRequest "/a/b/c".toList "/a/b/c".toList none none []
      (fun s => escapeTabs_no_tab s) (by decide) (by decide) (by decide) (by decide)
      (by decide)).1 otherHostRequest "/a/b/c".toList (by decide),
    ⟨fun s => escapeTabs_no_tab s, by decide, by decide, by decide, by decide, by decide⟩,
    other_key_not_reused exampleRuntime hostConf "vhost_dbd_1".toList hostRequest
      secondHostRequest "/x/y".toList "/x/y".toList (some (fixedDb siteRow))
      (some (fixedDb siteRow)) [] (fun s => escapeTabs_no_tab s) (by decide) (by decide)
      (by decide) (by decide) (by decide)⟩

end VhostDbd

namespace VhostDbd

/-! ## C11: requests rejected before any parameter -/

/-- C11: for a configuration with a statement, a proxied request gets status
403, and a request that is not proxied and whose URI is missing, or neither
begins with `/` nor is `*`, gets status 400.  In both cases the notes, the
environment and the file names are as before, no database operation is
made, and the outcome is the same for every runtime, parameter list and
database: no parameter is built. -/
theorem rejected_before_parameters (rt : Runtime) (conf : vhost_dbd_conf) (label : CStr)
    (dbd : Option ap_dbd_t) (r : request_rec) (notes : apr_table_t)
    (hl : conf.label = some label)
    (hbad : r.fields.proxyreq ≠ 0 ∨ r.fields.uri = none
      ∨ ∃ u, r.fields.uri = some u ∧ u.head? ≠ some '/' ∧ u ≠ ['*']) :
    (r.fields.proxyreq ≠ 0 → (setDocRoot rt conf dbd r notes).status = HTTP_FORBIDDEN)
      ∧ (r.fields.proxyreq = 0 → (setDocRoot rt conf dbd r notes).status = HTTP_BAD_REQUEST)
      ∧ (setDocRoot rt conf dbd r notes).notes = notes
      ∧ (setDocRoot rt conf dbd r notes).db = DbTrace.none
      ∧ (setDocRoot rt conf dbd r notes).subprocess_env = r.fields.subprocess_env
      ∧ (setDocRoot rt conf dbd r notes).filename = r.fields.filename
      ∧ (setDocRoot rt conf dbd r notes).canonical_filename = r.fields.canonical_filename
      ∧ ∀ (rt2 : Runtime) (conf2 : vhost_dbd_conf) (dbd2 : Option ap_dbd_t),
          conf2.label ≠ none →
          setDocRoot rt2 conf2 dbd2 r notes = setDocRoot rt conf dbd r notes := by
  have hinv : ∀ u, u.head? ≠ some '/' → u ≠ ['*'] → invalidUri u = true := by
    intro u h1 h2
    cases u with
    | nil => decide
    | cons c t =>
      have hc : c ≠ '/' := fun e => h1 (by simp [e])
      simp [invalidUri, hc, h2]
  have key : ∀ (rt2 : Runtime) (conf2 : vhost_dbd_conf) (dbd2 : Option ap_dbd_t),
      conf2.label ≠ none →
      setDocRoot rt2 conf2 dbd2 r notes
        = { unchanged r notes with
            status := if r.fields.proxyreq ≠ 0 then HTTP_FORBIDDEN else HTTP_BAD_REQUEST } := by
    intro rt2 conf2 dbd2 hl2
    obtain ⟨l2, hl2⟩ := Option.ne_none_iff_exists'.1 hl2
    unfold setDocRoot
    simp only [hl2]
    by_cases hp : r.fields.proxyreq ≠ 0
    · rw [if_pos hp, if_pos hp]
    · rw [if_neg hp, if_neg hp]
      rcases hbad with h | h | ⟨u, hu, h1, h2⟩
      · exact absurd h hp
      · simp only [h]
      · simp only [hu, hinv u h1 h2, if_true]
  have h0 := key rt conf dbd (by rw [hl]; simp)
  refine ⟨?_, ?_, ?_, ?_, ?_, ?_, ?_, ?_⟩
  · intro hp; rw [h0]; exact if_pos hp
  · intro hp; rw [h0]; exact if_neg (fun h => h hp)
  · rw [h0]; rfl
  · rw [h0]; rfl
  · rw [h0]; rfl
  · rw [h0]; rfl
  · rw [h0]; rfl
  · intro rt2 conf2 dbd2 hl2
    rw [h0, key rt2 conf2 dbd2 hl2]

/-- C11, on an example: a request whose URI is an absolute URL. -/
theorem rejected_before_parameters_witness :
    (setDocRoot exampleRuntime hostConf (some (fixedDb siteRow)) proxiedRequest []).status
        = HTTP_FORBIDDEN
      ∧ (hostConf.label = some "vhost_dbd_1".toList
        ∧ (absoluteUrlRequest.fields.proxyreq ≠ 0 ∨ absoluteUrlRequest.fields.uri = none
          ∨ ∃ u, absoluteUrlRequest.fields.uri = some u ∧ u.head? ≠ some '/' ∧ u ≠ ['*']))
      ∧ ((absoluteUrlRequest.fields.proxyreq ≠ 0 →
            (setDocRoot exampleRuntime hostConf (some (fixedDb siteRow)) absoluteUrlRequest
              []).status = HTTP_FORBIDDEN)
        ∧ (absoluteUrlRequest.fields.proxyreq = 0 →
            (setDocRoot exampleRuntime hostConf (some (fixedDb siteRow)) absoluteUrlRequest
              []).status = HTTP_BAD_REQUEST)
        ∧ (setDocRoot exampleRuntime hostConf (some (fixedDb siteRow)) absoluteUrlRequest
            []).notes = []
        ∧ (setDocRoot exampleRuntime hostConf (some (fixedDb siteRow)) absoluteUrlRequest
            []).db = DbTrace.none
        ∧ (setDocRoot exampleRuntime hostConf (some (fixedDb siteRow)) absoluteUrlRequest
            []).subprocess_env = absoluteUrlRequest.fields.subprocess_env
        ∧ (setDocRoot exampleRuntime hostConf (some (fixedDb siteRow)) absoluteUrlRequest
            []).filename = absoluteUrlRequest.fields.filename
        ∧ (setDocRoot exampleRuntime hostConf (some (fixedDb siteRow)) absoluteUrlRequest
            []).canonical_filename = absoluteUrlRequest.fields.canonical_filename
        ∧ ∀ (rt2 : Runtime) (conf2 : vhost_dbd_conf) (dbd2 : Option ap_dbd_t),
            conf2.label ≠ none →
            setDocRoot rt2 conf2 dbd2 absoluteUrlRequest []
              = setDocRoot exampleRuntime hostConf (some (fixedDb siteRow)) absoluteUrlRequest
                  []) :=
  have h : absoluteUrlRequest.fields.proxyreq ≠ 0 ∨ absoluteUrlRequest.fields.uri = none
      ∨ ∃ u, absoluteUrlRequest.fields.uri = some u ∧ u.head? ≠ some '/' ∧ u ≠ ['*'] :=
    Or.inr (Or.inr ⟨"http://a.example/x".toList, rfl, by decide, by decide⟩)
  ⟨by decide, ⟨by decide, h⟩,
    rejected_before_parameters exampleRuntime hostConf "vhost_dbd_1".toList
      (some (fixedDb siteRow)) absoluteUrlRequest [] (by decide) h⟩

end VhostDbd

namespace VhostDbd

/-! ## C12: a first row without a root -/

theorem readResult_no_root (rt : Runtime) (uri key : CStr) (rv : Int)
    (res : apr_dbd_results_t) (o : Outcome) (tr : DbTrace)
    (row : apr_dbd_row_t) (rest : List apr_dbd_row_t)
    (h1 : res.num_tuples ≤ 1) (h0 : res.num_tuples ≠ 0) (hc : res.num_cols ≠ 0)
    (hrows : res.rows = row :: rest)
    (hroot : apr_dbd_get_entry row 0 = none ∨ apr_dbd_get_entry row 0 = some []) :
    readResult rt uri key rv res o tr
      = { o with status := HTTP_FORBIDDEN,
                 db := { tr with get_row_calls := tr.get_row_calls + 1,
                                 fetched := tr.fetched ++ [row], unfetched := rest } } := by
  unfold readResult
  have h1' : ¬ res.num_tuples > 1 := by omega
  rcases hroot with h | h <;> simp [h1', h0, hc, hrows, apr_dbd_get_row, h]

/-- C12: when the first row of a fresh result has been fetched and its
column 0 is NULL or the empty string, the call returns status 403, which is
neither OK nor 500, whatever the other cells of the row, the other rows and
the URI of the request are; the notes and the file names are as before. -/
theorem empty_root_is_forbidden (rt : Runtime) (conf : vhost_dbd_conf)
    (dbd : ap_dbd_t) (r : request_rec) (notes : apr_table_t)
    (stmt : apr_dbd_prepared_t) (args : List (Option CStr))
    (row : apr_dbd_row_t) (rest : List apr_dbd_row_t)
    (hex : (setDocRoot rt conf (some dbd) r notes).db.executed = [(stmt, args)])
    (hrv : (dbd.pselect stmt args).1 = 0)
    (h1 : (dbd.pselect stmt args).2.num_tuples ≤ 1)
    (h0 : (dbd.pselect stmt args).2.num_tuples ≠ 0)
    (hc : (dbd.pselect stmt args).2.num_cols ≠ 0)
    (hrows : (dbd.pselect stmt args).2.rows = row :: rest)
    (hroot : apr_dbd_get_entry row 0 = none ∨ apr_dbd_get_entry row 0 = some []) :
    (setDocRoot rt conf (some dbd) r notes).status = HTTP_FORBIDDEN
      ∧ (setDocRoot rt conf (some dbd) r notes).status ≠ OK
      ∧ (setDocRoot rt conf (some dbd) r notes).status ≠ HTTP_INTERNAL_SERVER_ERROR
      ∧ (setDocRoot rt conf (some dbd) r notes).notes = notes
      ∧ (setDocRoot rt conf (some dbd) r notes).filename = r.fields.filename
      ∧ (setDocRoot rt conf (some dbd) r notes).canonical_filename
          = r.fields.canonical_filename := by
  obtain ⟨uri, _, _, _, _, _, _, _, _, hrun⟩ := setDocRoot_inv rt conf dbd r notes stmt args hex hrv
  rw [hrun, readResult_no_root rt uri _ 0 _ _ _ row rest h1 h0 hc hrows hroot]
  exact ⟨rfl, by show HTTP_FORBIDDEN ≠ OK; decide,
    by show HTTP_FORBIDDEN ≠ HTTP_INTERNAL_SERVER_ERROR; decide, rfl, rfl, rfl⟩

/-- C12, on an example: a row whose root is NULL and whose other column has
a value. -/
theorem empty_root_is_forbidden_witness :
    ((setDocRoot exampleRuntime hostConf (some (fixedDb nullRootRow)) hostRequest []).db.executed
        = [(1, [some "a.example".toList])]
      ∧ ((fixedDb nullRootRow).pselect 1 [some "a.example".toList]).1 = 0
      ∧ ((fixedDb nullRootRow).pselect 1 [some "a.example".toList]).2.num_tuples ≤ 1
      ∧ ((fixedDb nullRootRow).pselect 1 [some "a.example".toList]).2.num_tuples ≠ 0
      ∧ ((fixedDb nullRootRow).pselect 1 [some "a.example".toList]).2.num_cols ≠ 0
      ∧ ((fixedDb nullRootRow).pselect 1 [some "a.example".toList]).2.rows
          = [none, some "dark".toList] :: []
      ∧ (apr_dbd_get_entry [none, some "dark".toList] 0 = none
          ∨ apr_dbd_get_entry [none, some "dark".toList] 0 = some []))
    ∧ ((setDocRoot exampleRuntime hostConf (some (fixedDb nullRootRow)) hostRequest []).status
          = HTTP_FORBIDDEN
      ∧ (setDocRoot exampleRuntime hostConf (some (fixedDb nullRootRow)) hostRequest []).status
          ≠ OK
      ∧ (setDocRoot exampleRuntime hostConf (some (fixedDb nullRootRow)) hostRequest []).status
          ≠ HTTP_INTERNAL_SERVER_ERROR
      ∧ (setDocRoot exampleRuntime hostConf (some (fixedDb nullRootRow)) hostRequest []).notes
          = []
      ∧ (setDocRoot exampleRuntime hostConf (some (fixedDb nullRootRow)) hostRequest []).filename
          = hostRequest.fields.filename
      ∧ (setDocRoot exampleRuntime hostConf (some (fixedDb nullRootRow)) hostRequest
          []).canonical_filename = hostRequest.fields.canonical_filename) :=
  ⟨⟨by decide, rfl, by decide, by decide, by decide, rfl, Or.inl rfl⟩,
    empty_root_is_forbidden exampleRuntime hostConf (fixedDb nullRootRow) hostRequest []
      1 [some "a.example".toList] [none, some "dark".toList] [] (by decide) rfl (by decide)
      (by decide) (by decide) rfl (Or.inl rfl)⟩

/-! ## C13: the statement that is executed -/

theorem isSimpleNameLoop_spec (s : CStr) :
    (isSimpleNameLoop s = 1 ↔ ∀ c ∈ s, apr_isalnum c = true ∨ c = '_' ∨ c = '-')
      ∧ (isSimpleNameLoop s = 0 ∨ isSimpleNameLoop s = 1) := by
  induction s with
  | nil => simp [isSimpleNameLoop]
  | cons c s ih =>
    obtain ⟨ih1, ih2⟩ := ih
    unfold isSimpleNameLoop
    by_cases hc : apr_isalnum c = true ∨ c = '_' ∨ c = '-'
    · have hcond : (!apr_isalnum c && c != '_' && c != '-') = false := by
        rcases hc with h | h | h <;> simp [h]
      rw [hcond, if_neg (by decide)]
      refine ⟨⟨fun h c2 hc2 => ?_, fun h => ih1.2 (fun c2 hc2 => h c2 (List.mem_cons_of_mem _ hc2))⟩,
        ih2⟩
      rcases List.mem_cons.1 hc2 with e | e
      · rw [e]; exact hc
      · exact ih1.1 h c2 e
    · have hcond : (!apr_isalnum c && c != '_' && c != '-') = true := by
        simp only [not_or] at hc
        simp [hc.1, hc.2.1, hc.2.2]
      rw [hcond, if_pos rfl]
      exact ⟨⟨fun h => absurd h (by decide), fun h => absurd (h c (List.mem_cons_self _ _)) hc⟩,
        Or.inl rfl⟩

end VhostDbd

namespace VhostDbd

theorem isSimpleName_spec (s : CStr) :
    (isSimpleName s = 1
        ↔ s.length ≤ MAX_LABEL_SIZE ∧ ∀ c ∈ s, apr_isalnum c = true ∨ c = '_' ∨ c = '-')
      ∧ (isSimpleName s = 0 ∨ isSimpleName s = 1) := by
  obtain ⟨h1, h2⟩ := isSimpleNameLoop_spec s
  unfold isSimpleName
  by_cases hlen : s.length > MAX_LABEL_SIZE
  · rw [if_pos hlen]
    exact ⟨⟨fun h => absurd h (by decide), fun h => absurd h.1 (by omega)⟩, Or.inl rfl⟩
  · rw [if_neg hlen]
    exact ⟨⟨fun h => ⟨by omega, h1.1 h⟩, fun h => h1.2 h.2⟩, h2⟩

/-- C13: a request that passes the checks of lines 102-110 finds no value
under its key, a connection is acquired and the label of the configuration
has a prepared statement `stmt0`.  Then the statement executed is the one
prepared under `conf->sql` when `conf->sql` is a simple name that has a
prepared statement, and `stmt0` otherwise.  `isSimpleName` returns 1 exactly
for the strings of at most 32 characters that are all alphanumeric, `_` or
`-`, and 0 for the others. -/
theorem executed_statement_is_resolved (rt : Runtime) (conf : vhost_dbd_conf) (label : CStr)
    (d : ap_dbd_t) (r : request_rec) (notes : apr_table_t) (uri : CStr)
    (stmt0 : apr_dbd_prepared_t)
    (hl : conf.label = some label) (hp : r.fields.proxyreq = 0)
    (hu : r.fields.uri = some uri) (hv : invalidUri uri = false)
    (hmiss : apr_table_get notes (requestKey rt conf r) = none)
    (h0 : apr_hash_get d.prepared label = some stmt0) :
    (∀ p, isSimpleName conf.sql = 1 → apr_hash_get d.prepared conf.sql = some p →
        (setDocRoot rt conf (some d) r notes).db.executed
          = [(p, (collectParams rt conf r uri).params)])
      ∧ (isSimpleName conf.sql ≠ 1 ∨ apr_hash_get d.prepared conf.sql = none →
        (setDocRoot rt conf (some d) r notes).db.executed
          = [(stmt0, (collectParams rt conf r uri).params)])
      ∧ (∀ s : CStr, isSimpleName s = 1
          ↔ s.length ≤ 32 ∧ ∀ c ∈ s, apr_isalnum c = true ∨ c = '_' ∨ c = '-')
      ∧ (∀ s : CStr, isSimpleName s = 0 ∨ isSimpleName s = 1) := by
  have hrun := setDocRoot_miss rt conf label (some d) r notes uri hl hp hu hv hmiss
  refine ⟨?_, ?_, fun s => (isSimpleName_spec s).1, fun s => (isSimpleName_spec s).2⟩
  · intro p hs hq
    rw [hrun]
    apply runQuery_executed_eq
    unfold resolveStatement
    have hne : isSimpleName conf.sql ≠ 0 := by rw [hs]; decide
    simp only [h0, hq, if_pos hne]
  · intro h
    rw [hrun]
    apply runQuery_executed_eq
    unfold resolveStatement
    rcases h with h | h
    · have hz : ¬ isSimpleName conf.sql ≠ 0 := by
        rcases (isSimpleName_spec conf.sql).2 with e | e
        · intro hne; exact hne e
        · exact absurd e h
      simp only [h0, if_neg hz]
    · simp only [h0, h]
      split <;> rfl

/-- C13, on an example: the query text of the configuration is the label
`site_query`, prepared as statement 7, and statement 7 is executed. -/
theorem executed_statement_is_resolved_witness :
    (setDocRoot exampleRuntime aliasConf (some aliasDb) hostRequest []).db.executed
        = [(7, [some "a.example".toList])]
      ∧ (aliasConf.label = some "vhost_dbd_1".toList
        ∧ hostRequest.fields.proxyreq = 0
        ∧ hostRequest.fields.uri = some "/x/y".toList
        ∧ invalidUri "/x/y".toList = false
        ∧ apr_table_get [] (requestKey exampleRuntime aliasConf hostRequest) = none
        ∧ apr_hash_get aliasDb.prepared "vhost_dbd_1".toList = some 1)
      ∧ ((∀ p, isSimpleName aliasConf.sql = 1 → apr_hash_get aliasDb.prepared aliasConf.sql = some p →
            (setDocRoot exampleRuntime aliasConf (some aliasDb) hostRequest []).db.executed
              = [(p, (collectParams exampleRuntime aliasConf hostRequest "/x/y".toList).params)])
        ∧ (isSimpleName aliasConf.sql ≠ 1 ∨ apr_hash_get aliasDb.prepared aliasConf.sql = none →
            (setDocRoot exampleRuntime aliasConf (some aliasDb) hostRequest []).db.executed
              = [(1, (collectParams exampleRuntime aliasConf hostRequest "/x/y".toList).params)])
        ∧ (∀ s : CStr, isSimpleName s = 1
            ↔ s.length ≤ 32 ∧ ∀ c ∈ s, apr_isalnum c = true ∨ c = '_' ∨ c = '-')
        ∧ (∀ s : CStr, isSimpleName s = 0 ∨ isSimpleName s = 1)) :=
  ⟨by decide, ⟨by decide, by decide, by decide, by decide, by decide, by decide⟩,
    executed_statement_is_resolved exampleRuntime aliasConf "vhost_dbd_1".toList aliasDb
      hostRequest [] "/x/y".toList 1 (by decide) (by decide) (by decide) (by decide)
      (by decide) (by decide)⟩

/-! ## C14: the merge of two configurations -/

/-- C14: `merge_config_server base add` is `add`, whole, when `add` has a
label, and `base`, whole, when it has none; it is always one of the two. -/
theorem merge_takes_one_whole (base add : vhost_dbd_conf) :
    (add.label ≠ none → merge_config_server base add = add)
      ∧ (add.label = none → merge_config_server base add = base)
      ∧ (merge_config_server base add = add ∨ merge_config_server base add = base) := by
  unfold merge_config_server
  cases h : add.label with
  | none => simp
  | some l => simp

end VhostDbd

namespace VhostDbd

/-! ## C15: the number of parameters -/

/-- A call of `setVhostQuery` that reports an error leaves the state as it
was. -/
theorem setVhostQuery_error (rt : Runtime) (s : DirectiveState) (sql paramName : CStr)
    (h : (setVhostQuery rt s sql paramName).1 ≠ none) :
    (setVhostQuery rt s sql paramName).2 = s := by
  revert h
  unfold setVhostQuery
  split
  · intro _; rfl
  · split
    · intro _; rfl
    · split
      · intro _; rfl
      · simp only []
        split <;> intro h <;> exact absurd rfl h

/-- A call of `setVhostQuery` that reports no error: mod_dbd is loaded, the
count was below `MAX_PARAMS`, the token has a kind, the kind is written at
index `nparams` and the count grows by one. -/
theorem setVhostQuery_accepted (rt : Runtime) (s : DirectiveState) (sql paramName : CStr)
    (h : (setVhostQuery rt s sql paramName).1 = none) :
    rt.mod_dbd_loaded = true ∧ s.conf.nparams < MAX_PARAMS
      ∧ ∃ code segs, paramKind rt paramName = some (code, segs)
        ∧ (setVhostQuery rt s sql paramName).2.conf.nparams = s.conf.nparams + 1
        ∧ (setVhostQuery rt s sql paramName).2.conf.params
            = s.conf.params.set s.conf.nparams code
        ∧ (setVhostQuery rt s sql paramName).2.conf.urisegs
            = (match segs with
               | some n => s.conf.urisegs.set s.conf.nparams n
               | none => s.conf.urisegs) := by
  revert h
  unfold setVhostQuery
  split
  · intro h; cases h
  · rename_i hload
    split
    · intro h; cases h
    · rename_i hn
      split
      · intro h; cases h
      · rename_i code segs hk
        simp only []
        have hload2 : rt.mod_dbd_loaded = true := by simpa using hload
        have hn2 : s.conf.nparams < MAX_PARAMS := by omega
        split
        · intro _
          exact ⟨hload2, hn2, code, segs, hk, rfl, rfl, rfl⟩
        · intro _
          exact ⟨hload2, hn2, code, segs, hk, rfl, rfl, rfl⟩

theorem length_set_urisegs (l : List Int) (k : Nat) (segs : Option Int) :
    (match segs with
      | some n => l.set k n
      | none => l).length = l.length := by
  cases segs <;> simp

/-- The bounds every configuration the server can hold satisfies. -/
theorem configured_bounds (rt : Runtime) (conf : vhost_dbd_conf) (h : Configured rt conf) :
    conf.nparams ≤ MAX_PARAMS ∧ conf.params.length = MAX_PARAMS
      ∧ conf.urisegs.length = MAX_PARAMS := by
  induction h with
  | created => simp [config_server]
  | directive s sql paramName _ ih =>
    cases he : (setVhostQuery rt s sql paramName).1 with
    | some e =>
      rw [setVhostQuery_error rt s sql paramName (by rw [he]; simp)]
      exact ih
    | none =>
      obtain ⟨_, hn, code, segs, _, e1, e2, e3⟩ := setVhostQuery_accepted rt s sql paramName he
      rw [e1, e2, e3, length_set_urisegs]
      exact ⟨by omega, by simpa using ih.2.1, ih.2.2⟩
  | merged base add _ _ ihb iha =>
    unfold merge_config_server
    split
    · exact iha
    · exact ihb

theorem configured_loaded (rt : Runtime) (conf : vhost_dbd_conf) (h : Configured rt conf)
    (hn : 0 < conf.nparams) : rt.mod_dbd_loaded = true := by
  induction h with
  | created => simp [config_server] at hn
  | directive s sql paramName _ ih =>
    cases he : (setVhostQuery rt s sql paramName).1 with
    | some e =>
      rw [setVhostQuery_error rt s sql paramName (by rw [he]; simp)] at hn
      exact ih hn
    | none => exact (setVhostQuery_accepted rt s sql paramName he).1
  | merged base add _ _ ihb iha =>
    unfold merge_config_server at hn
    split at hn
    · exact iha hn
    · exact ihb hn

end VhostDbd

namespace VhostDbd

theorem getD_set_ne {α : Type} (l : List α) (k i : Nat) (a d : α)
    (h : (l.set k a).getD i d ≠ l.getD i d) : i = k := by
  by_contra hne
  apply h
  simp only [List.getD_eq_getElem?_getD, List.getElem?_set]
  rw [if_neg (fun e => hne e.symm)]

/-- C15: for every configuration the server can hold, `nparams` is at most
100, before and after a call of `setVhostQuery`; a call that reports no
error found `nparams` below 100 and the only cell of `params` or `urisegs`
it changes has the index `nparams`, which is below 100; a call made when
`nparams` is 100 returns the error "Too many parameters" and leaves the state
as it was. -/
theorem nparams_at_most_max (rt : Runtime) (s : DirectiveState) (sql paramName : CStr)
    (hc : Configured rt s.conf) :
    s.conf.nparams ≤ 100
      ∧ (setVhostQuery rt s sql paramName).2.conf.nparams ≤ 100
      ∧ ((setVhostQuery rt s sql paramName).1 = none → s.conf.nparams < 100)
      ∧ (∀ i, (setVhostQuery rt s sql paramName).2.conf.params.getD i ParamName.hostname
                ≠ s.conf.params.getD i ParamName.hostname
              ∨ (setVhostQuery rt s sql paramName).2.conf.urisegs.getD i 0
                ≠ s.conf.urisegs.getD i 0 →
            i = s.conf.nparams ∧ i < 100)
      ∧ (s.conf.nparams = 100 →
          setVhostQuery rt s sql paramName
            = (some "mod_vhost_dbd: Too many parameters".toList, s)) := by
  have hb := configured_bounds rt s.conf hc
  have hb2 := configured_bounds rt _ (Configured.directive s sql paramName hc)
  refine ⟨hb.1, hb2.1, ?_, ?_, ?_⟩
  · intro he
    exact (setVhostQuery_accepted rt s sql paramName he).2.1
  · intro i hi
    cases he : (setVhostQuery rt s sql paramName).1 with
    | some e =>
      rw [setVhostQuery_error rt s sql paramName (by rw [he]; simp)] at hi
      rcases hi with h | h <;> exact absurd rfl h
    | none =>
      obtain ⟨_, hn, code, segs, _, _, e2, e3⟩ := setVhostQuery_accepted rt s sql paramName he
      rw [e2, e3] at hi
      have : i = s.conf.nparams := by
        rcases hi with h | h
        · exact getD_set_ne _ _ _ _ _ h
        · cases segs with
          | none => exact absurd rfl h
          | some n => exact getD_set_ne _ _ _ _ _ h
      exact ⟨this, by rw [this]; exact hn⟩
  · intro hfull
    have hload := configured_loaded rt s.conf hc (by omega)
    unfold setVhostQuery
    have hge : s.conf.nparams ≥ MAX_PARAMS := by rw [hfull]; decide
    simp [hload, hge]

theorem setVhostQuery_ip (s : DirectiveState) (sql : CStr)
    (h : s.conf.nparams < MAX_PARAMS) :
    (setVhostQuery exampleRuntime s sql "ip".toList).2.conf.nparams = s.conf.nparams + 1 := by
  have hk : paramKind exampleRuntime "ip".toList = some (ParamName.ip, none) := by decide
  have hload : exampleRuntime.mod_dbd_loaded = true := rfl
  have hn : ¬ s.conf.nparams ≥ MAX_PARAMS := by omega
  unfold setVhostQuery
  simp only [hload, hk, hn]
  simp only [Bool.not_true, Bool.false_eq_true, if_false]
  split <;> rfl

theorem fullState_nparams : fullState.conf.nparams = 100 := by
  have gen : ∀ (n : Nat) (s : DirectiveState), s.conf.nparams + n ≤ MAX_PARAMS →
      ((List.replicate n "ip".toList).foldl
        (fun s t => (setVhostQuery exampleRuntime s
          "SELECT root FROM sites WHERE ip = %s".toList t).2) s).conf.nparams
        = s.conf.nparams + n := by
    intro n
    induction n with
    | zero => intro s _; rfl
    | succ n ih =>
      intro s hs
      rw [List.replicate_succ, List.foldl_cons, ih _ (by rw [setVhostQuery_ip s _ (by omega)]; omega),
        setVhostQuery_ip s _ (by omega)]
      omega
  have h := gen 100 firstState (by decide)
  have h0 : firstState.conf.nparams = 0 := rfl
  rw [h0, Nat.zero_add] at h
  unfold fullState configure
  rw [h]

/-- C15, on an example: after one hundred accepted tokens the next directive
is refused. -/
theorem nparams_at_most_max_witness :
    (fullState.conf.nparams = 100
      ∧ (setVhostQuery exampleRuntime fullState "SELECT 1".toList "port".toList).1
        = some "mod_vhost_dbd: Too many parameters".toList)
    ∧ Configured exampleRuntime fullState.conf
    ∧ (fullState.conf.nparams ≤ 100
      ∧ (setVhostQuery exampleRuntime fullState "SELECT 1".toList "port".toList).2.conf.nparams
          ≤ 100
      ∧ ((setVhostQuery exampleRuntime fullState "SELECT 1".toList "port".toList).1 = none →
          fullState.conf.nparams < 100)
      ∧ (∀ i, (setVhostQuery exampleRuntime fullState "SELECT 1".toList
                  "port".toList).2.conf.params.getD i ParamName.hostname
                ≠ fullState.conf.params.getD i ParamName.hostname
              ∨ (setVhostQuery exampleRuntime fullState "SELECT 1".toList
                  "port".toList).2.conf.urisegs.getD i 0
                ≠ fullState.conf.urisegs.getD i 0 →
            i = fullState.conf.nparams ∧ i < 100)
      ∧ (fullState.conf.nparams = 100 →
          setVhostQuery exampleRuntime fullState "SELECT 1".toList "port".toList
            = (some "mod_vhost_dbd: Too many parameters".toList, fullState))) :=
  ⟨⟨fullState_nparams,
      by rw [(nparams_at_most_max exampleRuntime fullState "SELECT 1".toList "port".toList
        (configure_configured exampleRuntime _ _)).2.2.2.2 fullState_nparams]⟩,
    configure_configured exampleRuntime _ _,
    nparams_at_most_max exampleRuntime fullState "SELECT 1".toList "port".toList
      (configure_configured exampleRuntime _ _)⟩

end VhostDbd

namespace VhostDbd

/-! ## C16: FTPUSER without mod_ftp -/

/-- C16 (as stated, refuted): mod_ftp is not linked and the first directive
has the token `FTPUSER`.  The handler returns the error "invalid parameter
name: FTPUSER" and `nparams` stays 0: an error is reported and the count is
not incremented. -/
theorem ftpuser_without_mod_ftp_is_an_error :
    exampleRuntime.ap_find_linked_module "mod_ftp.c".toList = false
      ∧ (setVhostQuery exampleRuntime firstState "SELECT 1".toList "FTPUSER".toList).1
        = some "mod_vhost_dbd: invalid parameter name: FTPUSER".toList
      ∧ firstState.conf.nparams = 0
      ∧ (setVhostQuery exampleRuntime firstState "SELECT 1".toList "FTPUSER".toList).2.conf.nparams
        = 0 := by
  decide

/-- C16 (amended): mod_dbd is loaded, fewer than `MAX_PARAMS` parameters are
recorded, mod_ftp is not linked, and the token compares equal to `ftpuser`
(and so not to `hostname`, `ip` or `port`, nor its first three characters to
`uri`).  Then `setVhostQuery` returns the error "invalid parameter name"
followed by the token, and the state is as before: no kind is recorded and
`nparams` is not incremented. -/
theorem ftpuser_refused_without_mod_ftp (rt : Runtime) (s : DirectiveState)
    (sql paramName : CStr)
    (hload : rt.mod_dbd_loaded = true) (hn : s.conf.nparams < MAX_PARAMS)
    (hmod : rt.ap_find_linked_module "mod_ftp.c".toList = false)
    (_hftp : rt.apr_strnatcasecmp paramName "ftpuser".toList = 0)
    (hhost : rt.apr_strnatcasecmp paramName "hostname".toList ≠ 0)
    (hip : rt.apr_strnatcasecmp paramName "ip".toList ≠ 0)
    (hport : rt.apr_strnatcasecmp paramName "port".toList ≠ 0)
    (huri : rt.apr_strnatcasecmp (paramName.take 3) "uri".toList ≠ 0) :
    setVhostQuery rt s sql paramName
        = (some ("mod_vhost_dbd: invalid parameter name: ".toList ++ paramName), s)
      ∧ (setVhostQuery rt s sql paramName).2.conf.nparams = s.conf.nparams
      ∧ (setVhostQuery rt s sql paramName).2.conf.params = s.conf.params := by
  have hk : paramKind rt paramName = none := by
    unfold paramKind
    rw [if_neg hhost, if_neg hip, if_neg hport]
    simp only [hmod, huri, decide_False, Bool.and_false, Bool.false_and, Bool.false_eq_true,
      if_false]
  have hge : ¬ s.conf.nparams ≥ MAX_PARAMS := by omega
  have e : setVhostQuery rt s sql paramName
      = (some ("mod_vhost_dbd: invalid parameter name: ".toList ++ paramName), s) := by
    unfold setVhostQuery
    simp only [hload, hk, hge]
    simp
  rw [e]
  exact ⟨rfl, rfl, rfl⟩

/-- C16 (amended), on an example: the token `FTPUSER` after one recorded
parameter. -/
theorem ftpuser_refused_without_mod_ftp_witness :
    (exampleRuntime.mod_dbd_loaded = true
      ∧ (configure exampleRuntime "SELECT 1".toList ["hostname".toList]).conf.nparams < MAX_PARAMS
      ∧ exampleRuntime.ap_find_linked_module "mod_ftp.c".toList = false
      ∧ exampleRuntime.apr_strnatcasecmp "FTPUSER".toList "ftpuser".toList = 0
      ∧ exampleRuntime.apr_strnatcasecmp "FTPUSER".toList "hostname".toList ≠ 0
      ∧ exampleRuntime.apr_strnatcasecmp "FTPUSER".toList "ip".toList ≠ 0
      ∧ exampleRuntime.apr_strnatcasecmp "FTPUSER".toList "port".toList ≠ 0
      ∧ exampleRuntime.apr_strnatcasecmp ("FTPUSER".toList.take 3) "uri".toList ≠ 0)
    ∧ (setVhostQuery exampleRuntime
          (configure exampleRuntime "SELECT 1".toList ["hostname".toList]) "SELECT 1".toList
          "FTPUSER".toList
        = (some ("mod_vhost_dbd: invalid parameter name: ".toList ++ "FTPUSER".toList),
            configure exampleRuntime "SELECT 1".toList ["hostname".toList])
      ∧ (setVhostQuery exampleRuntime
          (configure exampleRuntime "SELECT 1".toList ["hostname".toList]) "SELECT 1".toList
          "FTPUSER".toList).2.conf.nparams
        = (configure exampleRuntime "SELECT 1".toList ["hostname".toList]).conf.nparams
      ∧ (setVhostQuery exampleRuntime
          (configure exampleRuntime "SELECT 1".toList ["hostname".toList]) "SELECT 1".toList
          "FTPUSER".toList).2.conf.params
        = (configure exampleRuntime "SELECT 1".toList ["hostname".toList]).conf.params) :=
  ⟨⟨rfl, by decide, rfl, by decide, by decide, by decide, by decide, by decide⟩,
    ftpuser_refused_without_mod_ftp exampleRuntime
      (configure exampleRuntime "SELECT 1".toList ["hostname".toList]) "SELECT 1".toList
      "FTPUSER".toList rfl (by decide) rfl (by decide) (by decide) (by decide) (by decide)
      (by decide)⟩

end VhostDbd

namespace VhostDbd

/-! ## C17: the tokens of the directive -/

theorem keyMatch_length (a b : CStr) (h : keyMatch a b = true) : a.length = b.length := by
  rw [keyMatch_iff] at h
  have := congrArg List.length h
  simpa using this

theorem atoi_digit (d : Char) (hd : apr_isdigit d = true) :
    atoi [d] = ((d.toNat - 48 : Nat) : Int) := by
  obtain ⟨b1, b2⟩ := isdigit_bounds d hd
  have hsp : apr_isspace d = false := by
    simp only [apr_isspace, Bool.or_eq_false_iff, Bool.and_eq_false_iff, decide_eq_false_iff_not]
    omega
  have e : List.dropWhile apr_isspace [d] = [d] := by
    apply List.dropWhile_cons_of_neg
    simp [hsp]
  have hval : atoiDigits 0 [d] = d.toNat - 48 := by
    simp [atoiDigits, hd]
  unfold atoi
  rw [e]
  split
  · rename_i heq; simp only [List.cons.injEq] at heq
    obtain ⟨rfl, _⟩ := heq
    exact absurd hd (by decide)
  · rename_i heq; simp only [List.cons.injEq] at heq
    obtain ⟨rfl, _⟩ := heq
    exact absurd hd (by decide)
  · rw [hval]

/-- The URI branch of lines 353-361, with the comparison replaced by the
comparison without regard to case, against the claim; `w` is the word `uri`. -/
theorem uri_branch (w t : CStr) (hw : w.length = 3) (hnul : NUL ∉ t) :
    (if (keyMatch (t.take 3) w
          && (t.getD 3 NUL == NUL || (apr_isdigit (t.getD 3 NUL) && t.getD 4 NUL == NUL))) = true
      then some (ParamName.uri, some (atoi (t.drop 3))) else none)
      = (if keyMatch t w = true then some (ParamName.uri, some 0)
         else
          match t with
          | [a, b, c, d] =>
            if (keyMatch [a, b, c] w && apr_isdigit d) = true then
              some (ParamName.uri, some ((d.toNat - 48 : Nat) : Int))
            else none
          | _ => none) := by
  have hlen : ∀ x : CStr, x.length ≠ 3 → keyMatch x w = false := by
    intro x hx
    rw [Bool.eq_false_iff]
    intro h
    exact hx ((keyMatch_length _ _ h).trans hw)
  rcases t with _ | ⟨a, _ | ⟨b, _ | ⟨c, _ | ⟨d, _ | ⟨e, rest⟩⟩⟩⟩⟩
  · have h0 := hlen [] (by simp)
    simp [h0]
  · have h0 := hlen [a] (by simp)
    simp [h0]
  · have h0 := hlen [a, b] (by simp)
    simp [h0]
  · have e3 : atoi ([] : CStr) = 0 := by decide
    by_cases hk : keyMatch [a, b, c] w = true
    · simp [hk, e3]
    · simp [hk]
  · have hd : d ≠ NUL := by
      intro h
      exact hnul (by simp [h])
    have h0 := hlen [a, b, c, d] (by simp)
    by_cases hk : keyMatch [a, b, c] w = true
    · by_cases hdig : apr_isdigit d = true
      · simp [hk, hdig, atoi_digit d hdig, h0, hd]
      · simp [hk, hdig, h0, hd]
    · simp [hk, h0]
  · have hd : d ≠ NUL := by
      intro h
      exact hnul (by simp [h])
    have he : e ≠ NUL := by
      intro h
      exact hnul (by simp [h])
    have h0 := hlen (a :: b :: c :: d :: e :: rest) (by simp)
    simp [h0, hd, he]

end VhostDbd

namespace VhostDbd

/-- For a token on which `apr_strnatcasecmp` agrees with the comparison
without regard to letter case, the chain of lines 342-366 finds the kind the
claim describes. -/
theorem paramKind_eq_spec (rt : Runtime) (paramName : CStr) (hnul : NUL ∉ paramName)
    (h1 : rt.apr_strnatcasecmp paramName "hostname".toList = 0
      ↔ keyMatch paramName "hostname".toList = true)
    (h2 : rt.apr_strnatcasecmp paramName "ip".toList = 0
      ↔ keyMatch paramName "ip".toList = true)
    (h3 : rt.apr_strnatcasecmp paramName "port".toList = 0
      ↔ keyMatch paramName "port".toList = true)
    (h4 : rt.apr_strnatcasecmp paramName "ftpuser".toList = 0
      ↔ keyMatch paramName "ftpuser".toList = true)
    (h5 : rt.apr_strnatcasecmp (paramName.take 3) "uri".toList = 0
      ↔ keyMatch (paramName.take 3) "uri".toList = true) :
    paramKind rt paramName
      = specTokenKind (rt.ap_find_linked_module "mod_ftp.c".toList) paramName := by
  unfold paramKind specTokenKind
  simp only [h1, h2, h3, h4, h5, Bool.decide_eq_true]
  rw [uri_branch "uri".toList paramName (by decide) hnul]

end VhostDbd

namespace VhostDbd

theorem setVhostQuery_full (rt : Runtime) (s : DirectiveState) (sql paramName : CStr)
    (hload : rt.mod_dbd_loaded = true) (h : s.conf.nparams ≥ MAX_PARAMS) :
    setVhostQuery rt s sql paramName
      = (some "mod_vhost_dbd: Too many parameters".toList, s) := by
  unfold setVhostQuery
  rw [hload, if_neg (by decide), if_pos h]

theorem setVhostQuery_of_kind (rt : Runtime) (s : DirectiveState) (sql paramName : CStr)
    (hload : rt.mod_dbd_loaded = true) (hn : s.conf.nparams < MAX_PARAMS)
    (code : ParamName) (segs : Option Int) (hk : paramKind rt paramName = some (code, segs)) :
    (setVhostQuery rt s sql paramName).1 = none := by
  have hge : ¬ s.conf.nparams ≥ MAX_PARAMS := by omega
  unfold setVhostQuery
  rw [hload, if_neg (by decide), if_neg hge]
  simp only [hk]
  split <;> rfl

theorem setVhostQuery_no_kind (rt : Runtime) (s : DirectiveState) (sql paramName : CStr)
    (hload : rt.mod_dbd_loaded = true) (hn : s.conf.nparams < MAX_PARAMS)
    (hk : paramKind rt paramName = none) :
    setVhostQuery rt s sql paramName
      = (some ("mod_vhost_dbd: invalid parameter name: ".toList ++ paramName), s) := by
  have hge : ¬ s.conf.nparams ≥ MAX_PARAMS := by omega
  unfold setVhostQuery
  rw [hload, if_neg (by decide), if_neg hge]
  simp only [hk]

theorem getD_set_self {α : Type} (l : List α) (k : Nat) (a d : α) (h : k < l.length) :
    (l.set k a).getD k d = a := by
  simp [List.getD_eq_getElem?_getD, List.getElem?_set, h]

theorem getD_set_other {α : Type} (l : List α) (k i : Nat) (a d : α) (h : i ≠ k) :
    (l.set k a).getD i d = l.getD i d := by
  simp only [List.getD_eq_getElem?_getD, List.getElem?_set]
  rw [if_neg (fun e => h e.symm)]

/-- C17 (as stated, refuted): mod_ftp is not linked and one parameter is
recorded.  The token `ftpuser` is not accepted: the handler returns "invalid
parameter name: ftpuser" and records nothing.  And when one hundred
parameters are recorded, the token `hostname` is not recorded either, and a
token that names no kind gets the error "Too many parameters", not
"invalid parameter name". -/
theorem ftpuser_token_not_accepted :
    setVhostQuery exampleRuntime (configure exampleRuntime "SELECT 1".toList ["hostname".toList])
        "SELECT 1".toList "ftpuser".toList
      = (some "mod_vhost_dbd: invalid parameter name: ftpuser".toList,
          configure exampleRuntime "SELECT 1".toList ["hostname".toList])
    ∧ setVhostQuery exampleRuntime fullState "SELECT 1".toList "hostname".toList
      = (some "mod_vhost_dbd: Too many parameters".toList, fullState)
    ∧ setVhostQuery exampleRuntime fullState "SELECT 1".toList "bogus".toList
      = (some "mod_vhost_dbd: Too many parameters".toList, fullState) :=
  ⟨by decide,
    setVhostQuery_full exampleRuntime fullState _ _ rfl (by rw [fullState_nparams]; decide),
    setVhostQuery_full exampleRuntime fullState _ _ rfl (by rw [fullState_nparams]; decide)⟩

/-- C17 (amended): mod_dbd is loaded, fewer than `MAX_PARAMS` parameters are
recorded, and on the token `apr_strnatcasecmp` agrees with the comparison
without regard to letter case.  The accepted tokens are HOSTNAME, IP, PORT,
FTPUSER when mod_ftp is linked, URI and URI followed by one digit: for such
a token no error is returned, the kind is recorded at index `nparams`, for
URI the segment count too (the digit, or 0 for bare URI), `nparams` grows by
one and no other cell changes.  For every other token, FTPUSER without
mod_ftp among them, the error "invalid parameter name" is returned and the
state is as before. -/
theorem token_kinds_of_directive (rt : Runtime) (s : DirectiveState) (sql paramName : CStr)
    (hc : Configured rt s.conf)
    (hload : rt.mod_dbd_loaded = true) (hn : s.conf.nparams < MAX_PARAMS)
    (hnul : NUL ∉ paramName)
    (h1 : rt.apr_strnatcasecmp paramName "hostname".toList = 0
      ↔ keyMatch paramName "hostname".toList = true)
    (h2 : rt.apr_strnatcasecmp paramName "ip".toList = 0
      ↔ keyMatch paramName "ip".toList = true)
    (h3 : rt.apr_strnatcasecmp paramName "port".toList = 0
      ↔ keyMatch paramName "port".toList = true)
    (h4 : rt.apr_strnatcasecmp paramName "ftpuser".toList = 0
      ↔ keyMatch paramName "ftpuser".toList = true)
    (h5 : rt.apr_strnatcasecmp (paramName.take 3) "uri".toList = 0
      ↔ keyMatch (paramName.take 3) "uri".toList = true) :
    (∀ code segs,
        specTokenKind (rt.ap_find_linked_module "mod_ftp.c".toList) paramName
          = some (code, segs) →
        (setVhostQuery rt s sql paramName).1 = none
          ∧ (setVhostQuery rt s sql paramName).2.conf.nparams = s.conf.nparams + 1
          ∧ (setVhostQuery rt s sql paramName).2.conf.params.getD s.conf.nparams
              ParamName.hostname = code
          ∧ (∀ k, segs = some k →
              (setVhostQuery rt s sql paramName).2.conf.urisegs.getD s.conf.nparams 0 = k)
          ∧ (∀ i, i ≠ s.conf.nparams →
              (setVhostQuery rt s sql paramName).2.conf.params.getD i ParamName.hostname
                  = s.conf.params.getD i ParamName.hostname
                ∧ (setVhostQuery rt s sql paramName).2.conf.urisegs.getD i 0
                  = s.conf.urisegs.getD i 0))
      ∧ (specTokenKind (rt.ap_find_linked_module "mod_ftp.c".toList) paramName = none →
          setVhostQuery rt s sql paramName
            = (some ("mod_vhost_dbd: invalid parameter name: ".toList ++ paramName), s)) := by
  have hspec := paramKind_eq_spec rt paramName hnul h1 h2 h3 h4 h5
  obtain ⟨_, hlp, hlu⟩ := configured_bounds rt s.conf hc
  refine ⟨?_, ?_⟩
  · intro code segs hk
    rw [← hspec] at hk
    have hnone := setVhostQuery_of_kind rt s sql paramName hload hn code segs hk
    obtain ⟨_, _, code2, segs2, hk2, e1, e2, e3⟩ := setVhostQuery_accepted rt s sql paramName hnone
    rw [hk] at hk2
    simp only [Option.some.injEq, Prod.mk.injEq] at hk2
    obtain ⟨rfl, rfl⟩ := hk2
    refine ⟨hnone, e1, ?_, ?_, ?_⟩
    · rw [e2]; exact getD_set_self _ _ _ _ (by omega)
    · intro k hsegs
      subst hsegs
      rw [e3]; exact getD_set_self _ _ _ _ (by omega)
    · intro i hi
      rw [e2, e3]
      refine ⟨getD_set_other _ _ _ _ _ hi, ?_⟩
      cases segs with
      | none => rfl
      | some k => exact getD_set_other _ _ _ _ _ hi
  · intro hk
    rw [← hspec] at hk
    exact setVhostQuery_no_kind rt s sql paramName hload hn hk

end VhostDbd

namespace VhostDbd

/-- C17 (amended), on an example: after HOSTNAME the token `URI2` is recorded
at index 1 with the segment count 2, and the token `HostName` is accepted as
HOSTNAME. -/
theorem token_kinds_of_directive_witness :
    (specTokenKind false "URI2".toList = some (ParamName.uri, some 2)
      ∧ specTokenKind false "HostName".toList = some (ParamName.hostname, none)
      ∧ specTokenKind false "uri10".toList = none
      ∧ (setVhostQuery exampleRuntime
          (configure exampleRuntime "SELECT 1".toList ["hostname".toList]) "SELECT 1".toList
          "URI2".toList).2.conf.urisegs.getD 1 0 = 2)
    ∧ (Configured exampleRuntime
          (configure exampleRuntime "SELECT 1".toList ["hostname".toList]).conf
      ∧ exampleRuntime.mod_dbd_loaded = true
      ∧ (configure exampleRuntime "SELECT 1".toList ["hostname".toList]).conf.nparams < MAX_PARAMS
      ∧ NUL ∉ "URI2".toList
      ∧ (exampleRuntime.apr_strnatcasecmp "URI2".toList "hostname".toList = 0
          ↔ keyMatch "URI2".toList "hostname".toList = true)
      ∧ (exampleRuntime.apr_strnatcasecmp "URI2".toList "ip".toList = 0
          ↔ keyMatch "URI2".toList "ip".toList = true)
      ∧ (exampleRuntime.apr_strnatcasecmp "URI2".toList "port".toList = 0
          ↔ keyMatch "URI2".toList "port".toList = true)
      ∧ (exampleRuntime.apr_strnatcasecmp "URI2".toList "ftpuser".toList = 0
          ↔ keyMatch "URI2".toList "ftpuser".toList = true)
      ∧ (exampleRuntime.apr_strnatcasecmp ("URI2".toList.take 3) "uri".toList = 0
          ↔ keyMatch ("URI2".toList.take 3) "uri".toList = true))
    ∧ ((∀ code segs,
          specTokenKind (exampleRuntime.ap_find_linked_module "mod_ftp.c".toList) "URI2".toList
            = some (code, segs) →
          (setVhostQuery exampleRuntime
              (configure exampleRuntime "SELECT 1".toList ["hostname".toList]) "SELECT 1".toList
              "URI2".toList).1 = none
            ∧ (setVhostQuery exampleRuntime
                (configure exampleRuntime "SELECT 1".toList ["hostname".toList])
                "SELECT 1".toList "URI2".toList).2.conf.nparams
              = (configure exampleRuntime "SELECT 1".toList ["hostname".toList]).conf.nparams + 1
            ∧ (setVhostQuery exampleRuntime
                (configure exampleRuntime "SELECT 1".toList ["hostname".toList])
                "SELECT 1".toList "URI2".toList).2.conf.params.getD
                (configure exampleRuntime "SELECT 1".toList ["hostname".toList]).conf.nparams
                ParamName.hostname = code
            ∧ (∀ k, segs = some k →
                (setVhostQuery exampleRuntime
                  (configure exampleRuntime "SELECT 1".toList ["hostname".toList])
                  "SELECT 1".toList "URI2".toList).2.conf.urisegs.getD
                  (configure exampleRuntime "SELECT 1".toList ["hostname".toList]).conf.nparams 0
                  = k)
            ∧ (∀ i, i ≠ (configure exampleRuntime "SELECT 1".toList
                  ["hostname".toList]).conf.nparams →
                (setVhostQuery exampleRuntime
                    (configure exampleRuntime "SELECT 1".toList ["hostname".toList])
                    "SELECT 1".toList "URI2".toList).2.conf.params.getD i ParamName.hostname
                  = (configure exampleRuntime "SELECT 1".toList
                      ["hostname".toList]).conf.params.getD i ParamName.hostname
                ∧ (setVhostQuery exampleRuntime
                    (configure exampleRuntime "SELECT 1".toList ["hostname".toList])
                    "SELECT 1".toList "URI2".toList).2.conf.urisegs.getD i 0
                  = (configure exampleRuntime "SELECT 1".toList
                      ["hostname".toList]).conf.urisegs.getD i 0))
      ∧ (specTokenKind (exampleRuntime.ap_find_linked_module "mod_ftp.c".toList) "URI2".toList
            = none →
          setVhostQuery exampleRuntime
              (configure exampleRuntime "SELECT 1".toList ["hostname".toList]) "SELECT 1".toList
              "URI2".toList
            = (some ("mod_vhost_dbd: invalid parameter name: ".toList ++ "URI2".toList),
                configure exampleRuntime "SELECT 1".toList ["hostname".toList]))) :=
  ⟨by decide,
    ⟨configure_configured exampleRuntime _ _, rfl, by decide, by decide, by decide, by decide,
      by decide, by decide, by decide⟩,
    token_kinds_of_directive exampleRuntime
      (configure exampleRuntime "SELECT 1".toList ["hostname".toList]) "SELECT 1".toList
      "URI2".toList (configure_configured exampleRuntime _ _) rfl (by decide) (by decide)
      (by decide) (by decide) (by decide) (by decide) (by decide)⟩

end VhostDbd

namespace VhostDbd

/-! ## C18: a cache hit -/

/-- The environment of the request changes only in a call that executed a
statement. -/
theorem setDocRoot_env (rt : Runtime) (conf : vhost_dbd_conf) (dbd : Option ap_dbd_t)
    (r : request_rec) (notes : apr_table_t) :
    (setDocRoot rt conf dbd r notes).subprocess_env = r.fields.subprocess_env
      ∨ ∃ stmt args, (setDocRoot rt conf dbd r notes).db.executed = [(stmt, args)] := by
  unfold setDocRoot
  simp only []
  split
  · left; rfl
  · split
    · left; rfl
    · split
      · left; rfl
      · split
        · left; rfl
        · split
          · left; rw [mapToFile_env]; rfl
          · unfold runQuery
            simp only []
            split
            · left; rfl
            · split
              · left; rfl
              · split
                · left; rfl
                · right
                  exact ⟨_, _, by rw [readResult_executed]⟩

/-- C18: when the notes already hold a value for the key of the request, the
call makes no database operation (no connection acquired, no statement
executed, no row fetched) and leaves the environment of the request as it
was.  In general the environment changes only in a call that executed a
statement. -/
theorem cache_hit_without_database (rt : Runtime) (conf : vhost_dbd_conf)
    (dbd : Option ap_dbd_t) (r : request_rec) (notes : apr_table_t)
    (hhit : apr_table_get notes (requestKey rt conf r) ≠ none) :
    (setDocRoot rt conf dbd r notes).db = DbTrace.none
      ∧ (setDocRoot rt conf dbd r notes).db.acquired = 0
      ∧ (setDocRoot rt conf dbd r notes).db.executed = []
      ∧ (setDocRoot rt conf dbd r notes).db.get_row_calls = 0
      ∧ (setDocRoot rt conf dbd r notes).subprocess_env = r.fields.subprocess_env
      ∧ ∀ (dbd2 : Option ap_dbd_t) (r2 : request_rec) (notes2 : apr_table_t),
          (setDocRoot rt conf dbd2 r2 notes2).subprocess_env ≠ r2.fields.subprocess_env →
          ∃ stmt args, (setDocRoot rt conf dbd2 r2 notes2).db.executed = [(stmt, args)] := by
  have hdb := setDocRoot_hit_db rt conf dbd r notes hhit
  refine ⟨hdb, by rw [hdb]; rfl, by rw [hdb]; rfl, by rw [hdb]; rfl, ?_, ?_⟩
  · rcases setDocRoot_env rt conf dbd r notes with h | ⟨stmt, args, h⟩
    · exact h
    · rw [hdb] at h
      simp [DbTrace.none] at h
  · intro dbd2 r2 notes2 hne
    rcases setDocRoot_env rt conf dbd2 r2 notes2 with h | h
    · exact absurd h hne
    · exact h

/-- C18, on an example: the root of `hostRequest` is in the notes; the
database would return the column `theme`, and nothing is exported. -/
theorem cache_hit_without_database_witness :
    ((setDocRoot exampleRuntime hostConf (some (fixedDb siteRow)) hostRequest resolvedNotes).status
        = OK
      ∧ (setDocRoot exampleRuntime hostConf (some (fixedDb siteRow)) hostRequest
          resolvedNotes).subprocess_env = [])
    ∧ apr_table_get resolvedNotes (requestKey exampleRuntime hostConf hostRequest) ≠ none
    ∧ ((setDocRoot exampleRuntime hostConf (some (fixedDb siteRow)) hostRequest resolvedNotes).db
          = DbTrace.none
      ∧ (setDocRoot exampleRuntime hostConf (some (fixedDb siteRow)) hostRequest
          resolvedNotes).db.acquired = 0
      ∧ (setDocRoot exampleRuntime hostConf (some (fixedDb siteRow)) hostRequest
          resolvedNotes).db.executed = []
      ∧ (setDocRoot exampleRuntime hostConf (some (fixedDb siteRow)) hostRequest
          resolvedNotes).db.get_row_calls = 0
      ∧ (setDocRoot exampleRuntime hostConf (some (fixedDb siteRow)) hostRequest
          resolvedNotes).subprocess_env = hostRequest.fields.subprocess_env
      ∧ ∀ (dbd2 : Option ap_dbd_t) (r2 : request_rec) (notes2 : apr_table_t),
          (setDocRoot exampleRuntime hostConf dbd2 r2 notes2).subprocess_env
            ≠ r2.fields.subprocess_env →
          ∃ stmt args, (setDocRoot exampleRuntime hostConf dbd2 r2 notes2).db.executed
            = [(stmt, args)]) :=
  ⟨by decide, by decide,
    cache_hit_without_database exampleRuntime hostConf (some (fixedDb siteRow)) hostRequest
      resolvedNotes (by decide)⟩

end VhostDbd

namespace VhostDbd

/-! ## C19: what is stored in the notes -/

theorem mapToFile_stores (rt : Runtime) (uri key root : CStr) (rv : Int) (o : Outcome)
    (hrv : rv = 0) :
    ((mapToFile rt uri key root rv o).notes = o.notes
        ∧ (mapToFile rt uri key root rv o).filename = o.filename
        ∧ (mapToFile rt uri key root rv o).canonical_filename = o.canonical_filename
        ∧ ((mapToFile rt uri key root rv o).status = DECLINED
          ∨ (mapToFile rt uri key root rv o).status = HTTP_FORBIDDEN))
      ∨ ((mapToFile rt uri key root rv o).status = OK ∧ root ≠ NO_DOCROOT
        ∧ ∃ path, rt.apr_filepath_merge root (uri.dropWhile (fun c => c == '/'))
            (APR_FILEPATH_TRUENAME ||| APR_FILEPATH_SECUREROOT) = some path
          ∧ (mapToFile rt uri key root rv o).notes = apr_table_set o.notes key root
          ∧ (mapToFile rt uri key root rv o).filename = some path
          ∧ (mapToFile rt uri key root rv o).canonical_filename = some path) := by
  subst hrv
  rcases mapToFile_cases rt uri key root 0 o with ⟨_, e⟩ | ⟨_, _, e⟩ | ⟨hne, path, hm, e⟩
  · left; rw [e]; exact ⟨rfl, rfl, rfl, Or.inl rfl⟩
  · left; rw [e]; exact ⟨rfl, rfl, rfl, Or.inr rfl⟩
  · right; rw [e]; exact ⟨rfl, hne, path, hm, rfl, rfl, rfl⟩

/-- The ways `readResult` ends, for the status 0 of the execution: the
notes and the file names unchanged; the sentinel saved for a reported count
of 0; or a root saved after a successful merge. -/
theorem readResult_ends (rt : Runtime) (uri key : CStr) (res : apr_dbd_results_t)
    (o : Outcome) (tr : DbTrace) :
    ((readResult rt uri key 0 res o tr).notes = o.notes
        ∧ (readResult rt uri key 0 res o tr).filename = o.filename
        ∧ (readResult rt uri key 0 res o tr).canonical_filename = o.canonical_filename
        ∧ ((readResult rt uri key 0 res o tr).status = DECLINED
          ∨ (readResult rt uri key 0 res o tr).status = HTTP_FORBIDDEN
          ∨ (readResult rt uri key 0 res o tr).status = HTTP_INTERNAL_SERVER_ERROR))
      ∨ ((readResult rt uri key 0 res o tr).status = DECLINED
        ∧ (readResult rt uri key 0 res o tr).notes = apr_table_set o.notes key NO_DOCROOT
        ∧ (readResult rt uri key 0 res o tr).filename = o.filename
        ∧ (readResult rt uri key 0 res o tr).canonical_filename = o.canonical_filename
        ∧ res.num_tuples = 0)
      ∨ ((readResult rt uri key 0 res o tr).status = OK
        ∧ ∃ root path, root ≠ [] ∧ root ≠ NO_DOCROOT
          ∧ rt.apr_filepath_merge root (uri.dropWhile (fun c => c == '/'))
              (APR_FILEPATH_TRUENAME ||| APR_FILEPATH_SECUREROOT) = some path
          ∧ (readResult rt uri key 0 res o tr).notes = apr_table_set o.notes key root
          ∧ (readResult rt uri key 0 res o tr).filename = some path
          ∧ (readResult rt uri key 0 res o tr).canonical_filename = some path) := by
  unfold readResult
  simp only []
  split
  · left; exact ⟨rfl, rfl, rfl, Or.inr (Or.inr rfl)⟩
  · split
    · rename_i h0
      right; left; exact ⟨rfl, rfl, rfl, rfl, h0⟩
    · split
      · left; exact ⟨rfl, rfl, rfl, Or.inr (Or.inr rfl)⟩
      · split
        · split
          · left; exact ⟨rfl, rfl, rfl, Or.inl rfl⟩
          · left; exact ⟨rfl, rfl, rfl, Or.inr (Or.inr rfl)⟩
        · split
          · left; exact ⟨rfl, rfl, rfl, Or.inr (Or.inl rfl)⟩
          · rename_i root _
            split
            · left; exact ⟨rfl, rfl, rfl, Or.inr (Or.inl rfl)⟩
            · rename_i hne
              rcases mapToFile_stores rt uri key root 0 _ rfl with
                ⟨a, b, c, d⟩ | ⟨a, b, path, hm, e1, e2, e3⟩
              · left
                refine ⟨a, b, c, ?_⟩
                rcases d with d | d
                · exact Or.inl d
                · exact Or.inr (Or.inl d)
              · right; right
                exact ⟨a, root, path, hne, b, hm, e1, e2, e3⟩

end VhostDbd

namespace VhostDbd

theorem runQuery_ends (rt : Runtime) (conf : vhost_dbd_conf) (label : CStr)
    (dbd : Option ap_dbd_t) (uri key : CStr) (params : List (Option CStr)) (o : Outcome) :
    ((runQuery rt conf label dbd uri key params o).notes = o.notes
        ∧ (runQuery rt conf label dbd uri key params o).filename = o.filename
        ∧ (runQuery rt conf label dbd uri key params o).canonical_filename
            = o.canonical_filename
        ∧ ((runQuery rt conf label dbd uri key params o).status = DECLINED
          ∨ (runQuery rt conf label dbd uri key params o).status = HTTP_FORBIDDEN
          ∨ (runQuery rt conf label dbd uri key params o).status = HTTP_INTERNAL_SERVER_ERROR))
      ∨ ((runQuery rt conf label dbd uri key params o).status = DECLINED
        ∧ (runQuery rt conf label dbd uri key params o).notes
            = apr_table_set o.notes key NO_DOCROOT
        ∧ (runQuery rt conf label dbd uri key params o).filename = o.filename
        ∧ (runQuery rt conf label dbd uri key params o).canonical_filename
            = o.canonical_filename
        ∧ ∃ d stmt, dbd = some d
          ∧ (runQuery rt conf label dbd uri key params o).db.executed = [(stmt, params)]
          ∧ (d.pselect stmt params).1 = 0 ∧ (d.pselect stmt params).2.num_tuples = 0)
      ∨ ((runQuery rt conf label dbd uri key params o).status = OK
        ∧ ∃ root path, root ≠ [] ∧ root ≠ NO_DOCROOT
          ∧ rt.apr_filepath_merge root (uri.dropWhile (fun c => c == '/'))
              (APR_FILEPATH_TRUENAME ||| APR_FILEPATH_SECUREROOT) = some path
          ∧ (runQuery rt conf label dbd uri key params o).notes = apr_table_set o.notes key root
          ∧ (runQuery rt conf label dbd uri key params o).filename = some path
          ∧ (runQuery rt conf label dbd uri key params o).canonical_filename = some path) := by
  unfold runQuery
  simp only []
  split
  · left; exact ⟨rfl, rfl, rfl, Or.inr (Or.inr rfl)⟩
  · rename_i d
    split
    · left; exact ⟨rfl, rfl, rfl, Or.inr (Or.inr rfl)⟩
    · rename_i stmt _
      split
      · left; exact ⟨rfl, rfl, rfl, Or.inr (Or.inr rfl)⟩
      · rename_i hrv
        have hrv0 : (d.pselect stmt params).1 = 0 := by
          by_contra h
          exact hrv h
        rw [hrv0]
        rcases readResult_ends rt uri key (d.pselect stmt params).2 o
          { acquired := 1, executed := [(stmt, params)], get_row_calls := 0, fetched := [],
            unfetched := (d.pselect stmt params).2.rows } with h | ⟨a, b, c, e, f⟩ | h
        · left; exact h
        · right; left
          exact ⟨a, b, c, e, d, stmt, rfl, by rw [readResult_executed], hrv0, f⟩
        · right; right; exact h

/-- The ways a call of `setDocRoot` ends: with the notes and the file names
as before, and then with `DECLINED`, 403, 500, or 400 from the check of the
URI; with the sentinel saved after a reported count of 0; or with OK and a
root saved after a successful merge. -/
theorem setDocRoot_ends (rt : Runtime) (conf : vhost_dbd_conf) (dbd : Option ap_dbd_t)
    (r : request_rec) (notes : apr_table_t) :
    ((setDocRoot rt conf dbd r notes).notes = notes
        ∧ (setDocRoot rt conf dbd r notes).filename = r.fields.filename
        ∧ (setDocRoot rt conf dbd r notes).canonical_filename = r.fields.canonical_filename
        ∧ ((setDocRoot rt conf dbd r notes).status = DECLINED
          ∨ (setDocRoot rt conf dbd r notes).status = HTTP_FORBIDDEN
          ∨ (setDocRoot rt conf dbd r notes).status = HTTP_INTERNAL_SERVER_ERROR
          ∨ ((setDocRoot rt conf dbd r notes).status = HTTP_BAD_REQUEST
            ∧ (setDocRoot rt conf dbd r notes).db = DbTrace.none
            ∧ conf.label ≠ none ∧ r.fields.proxyreq = 0
            ∧ (r.fields.uri = none ∨ ∃ u, r.fields.uri = some u ∧ invalidUri u = true))))
      ∨ ((setDocRoot rt conf dbd r notes).status = DECLINED
        ∧ (setDocRoot rt conf dbd r notes).notes
            = apr_table_set notes (requestKey rt conf r) NO_DOCROOT
        ∧ (setDocRoot rt conf dbd r notes).filename = r.fields.filename
        ∧ (setDocRoot rt conf dbd r notes).canonical_filename = r.fields.canonical_filename
        ∧ apr_table_get notes (requestKey rt conf r) = none
        ∧ ∃ d stmt args, dbd = some d
          ∧ (setDocRoot rt conf dbd r notes).db.executed = [(stmt, args)]
          ∧ (d.pselect stmt args).1 = 0 ∧ (d.pselect stmt args).2.num_tuples = 0)
      ∨ ((setDocRoot rt conf dbd r notes).status = OK
        ∧ ∃ uri root path, r.fields.uri = some uri ∧ invalidUri uri = false
          ∧ root ≠ NO_DOCROOT
          ∧ rt.apr_filepath_merge root (uri.dropWhile (fun c => c == '/'))
              (APR_FILEPATH_TRUENAME ||| APR_FILEPATH_SECUREROOT) = some path
          ∧ (setDocRoot rt conf dbd r notes).notes
              = apr_table_set notes (requestKey rt conf r) root
          ∧ (setDocRoot rt conf dbd r notes).filename = some path
          ∧ (setDocRoot rt conf dbd r notes).canonical_filename = some path
          ∧ (apr_table_get notes (requestKey rt conf r) = some root
            ∨ (apr_table_get notes (requestKey rt conf r) = none ∧ root ≠ []))) := by
  unfold setDocRoot
  simp only []
  split
  · left; exact ⟨rfl, rfl, rfl, Or.inl rfl⟩
  · rename_i label hlabel
    have hl : conf.label ≠ none := by rw [hlabel]; simp
    split
    · left; exact ⟨rfl, rfl, rfl, Or.inr (Or.inl rfl)⟩
    · rename_i hp
      have hp0 : r.fields.proxyreq = 0 := by
        by_contra h
        exact hp h
      split
      · rename_i hu
        left
        exact ⟨rfl, rfl, rfl, Or.inr (Or.inr (Or.inr ⟨rfl, rfl, hl, hp0, Or.inl hu⟩))⟩
      · rename_i uri huri
        have hk : requestKey rt conf r = cacheKey (collectParams rt conf r uri) := by
          simp [requestKey, huri]
        rw [hk]
        split
        · rename_i hinv
          left
          exact ⟨rfl, rfl, rfl,
            Or.inr (Or.inr (Or.inr ⟨rfl, rfl, hl, hp0, Or.inr ⟨uri, huri, hinv⟩⟩))⟩
        · rename_i hinv
          have hv : invalidUri uri = false := by simpa using hinv
          split
          · rename_i root hget
            rcases mapToFile_stores rt uri (cacheKey (collectParams rt conf r uri)) root 0
              (unchanged r notes) rfl with ⟨a, b, c, d⟩ | ⟨a, b, path, hm, e1, e2, e3⟩
            · left
              refine ⟨a, b, c, ?_⟩
              rcases d with d | d
              · exact Or.inl d
              · exact Or.inr (Or.inl d)
            · right; right
              exact ⟨a, uri, root, path, huri, hv, b, hm, e1, e2, e3, Or.inl hget⟩
          · rename_i hget
            rcases runQuery_ends rt conf label dbd uri (cacheKey (collectParams rt conf r uri))
              (collectParams rt conf r uri).params (unchanged r notes) with
              ⟨a, b, c, d⟩ | ⟨a, b, c, e, d, stmt, h1, h2, h3, h4⟩
                | ⟨a, root, path, hne, hns, hm, e1, e2, e3⟩
            · left
              refine ⟨a, b, c, ?_⟩
              rcases d with d | d | d
              · exact Or.inl d
              · exact Or.inr (Or.inl d)
              · exact Or.inr (Or.inr (Or.inl d))
            · right; left
              exact ⟨a, b, c, e, hget, d, stmt, _, h1, h2, h3, h4⟩
            · right; right
              exact ⟨a, uri, root, path, huri, hv, hns, hm, e1, e2, e3, Or.inr ⟨hget, hne⟩⟩

end VhostDbd

namespace VhostDbd

theorem requestKey_isResolverKey (rt : Runtime) (conf : vhost_dbd_conf) (r : request_rec) :
    isResolverKey (requestKey rt conf r) = true := by
  unfold isResolverKey requestKey cacheKey
  simp only [List.append_assoc]
  rw [List.take_left' (by decide)]
  exact keyMatch_self _

/-- C19: a call that returns 500, 403 or 400 leaves the notes as they were.
If every value the notes hold under a resolver key is the sentinel or a
root that is not empty, is not the sentinel and was merged with success,
the same is true after the call.  When the call changes the notes, it
either saved the sentinel after an execution that reported 0 rows, or it
saved a root, other than the sentinel, after merging it with success.  The
key of the request is a resolver key. -/
theorem notes_change_only_with_good_values (rt : Runtime) (conf : vhost_dbd_conf)
    (dbd : Option ap_dbd_t) (r : request_rec) (notes : apr_table_t) :
    ((setDocRoot rt conf dbd r notes).status = HTTP_INTERNAL_SERVER_ERROR
          ∨ (setDocRoot rt conf dbd r notes).status = HTTP_FORBIDDEN
          ∨ (setDocRoot rt conf dbd r notes).status = HTTP_BAD_REQUEST →
        (setDocRoot rt conf dbd r notes).notes = notes)
      ∧ ((∀ K v, isResolverKey K = true → apr_table_get notes K = some v →
            StoredValueOk rt v) →
          ∀ K v, isResolverKey K = true →
            apr_table_get (setDocRoot rt conf dbd r notes).notes K = some v →
            StoredValueOk rt v)
      ∧ ((setDocRoot rt conf dbd r notes).notes ≠ notes →
          ((setDocRoot rt conf dbd r notes).status = DECLINED
            ∧ (setDocRoot rt conf dbd r notes).notes
                = apr_table_set notes (requestKey rt conf r) NO_DOCROOT
            ∧ ∃ d stmt args, dbd = some d
              ∧ (setDocRoot rt conf dbd r notes).db.executed = [(stmt, args)]
              ∧ (d.pselect stmt args).1 = 0 ∧ (d.pselect stmt args).2.num_tuples = 0)
          ∨ ((setDocRoot rt conf dbd r notes).status = OK
            ∧ ∃ uri root path, r.fields.uri = some uri ∧ root ≠ NO_DOCROOT
              ∧ rt.apr_filepath_merge root (uri.dropWhile (fun c => c == '/'))
                  (APR_FILEPATH_TRUENAME ||| APR_FILEPATH_SECUREROOT) = some path
              ∧ (setDocRoot rt conf dbd r notes).notes
                  = apr_table_set notes (requestKey rt conf r) root))
      ∧ isResolverKey (requestKey rt conf r) = true := by
  refine ⟨?_, ?_, ?_, requestKey_isResolverKey rt conf r⟩
  · intro hst
    rcases setDocRoot_ends rt conf dbd r notes with ⟨a, _⟩ | ⟨a, _⟩ | ⟨a, _⟩
    · exact a
    · rw [a] at hst
      rcases hst with h | h | h <;> exact absurd h (by decide)
    · rw [a] at hst
      rcases hst with h | h | h <;> exact absurd h (by decide)
  · intro hinv K v hK hget
    rcases setDocRoot_ends rt conf dbd r notes with
      ⟨a, _⟩ | ⟨_, a, _⟩ | ⟨_, uri, root, path, _, _, hns, hm, a, _, _, hold⟩
    · rw [a] at hget
      exact hinv K v hK hget
    · rw [a, apr_table_get_set] at hget
      by_cases hm : keyMatch (requestKey rt conf r) K = true
      · rw [if_pos hm] at hget
        cases hget
        exact Or.inl rfl
      · rw [if_neg hm] at hget
        exact hinv K v hK hget
    · rw [a, apr_table_get_set] at hget
      by_cases hkm : keyMatch (requestKey rt conf r) K = true
      · rw [if_pos hkm] at hget
        cases hget
        rcases hold with h | ⟨_, hne⟩
        · rw [apr_table_get_congr notes _ K hkm] at h
          exact hinv K _ hK h
        · exact Or.inr ⟨hne, hns, _, path, hm⟩
      · rw [if_neg hkm] at hget
        exact hinv K v hK hget
  · intro hne
    rcases setDocRoot_ends rt conf dbd r notes with
      ⟨a, _⟩ | ⟨s1, a, _, _, _, h⟩ | ⟨s1, uri, root, path, hu, _, hns, hm, a, _⟩
    · exact absurd a hne
    · exact Or.inl ⟨s1, a, h⟩
    · exact Or.inr ⟨s1, uri, root, path, hu, hns, hm, a⟩

end VhostDbd

namespace VhostDbd

/-! ## C20: where status 400 comes from -/

theorem setDocRoot_bad_uri (rt : Runtime) (conf : vhost_dbd_conf) (dbd : Option ap_dbd_t)
    (r : request_rec) (notes : apr_table_t)
    (hl : conf.label ≠ none) (hp : r.fields.proxyreq = 0)
    (hu : r.fields.uri = none ∨ ∃ u, r.fields.uri = some u ∧ invalidUri u = true) :
    (setDocRoot rt conf dbd r notes).status = HTTP_BAD_REQUEST := by
  obtain ⟨label, hlabel⟩ := Option.ne_none_iff_exists'.1 hl
  have hp2 : ¬ r.fields.proxyreq ≠ 0 := fun h => h hp
  unfold setDocRoot
  simp only [hlabel]
  rw [if_neg hp2]
  rcases hu with h | ⟨u, h, hinv⟩
  · simp only [h]
  · simp only [h, hinv, if_true]

/-- A call whose execution of the statement failed returns 500 at line 195. -/
theorem setDocRoot_failed_execution (rt : Runtime) (conf : vhost_dbd_conf) (d : ap_dbd_t)
    (r : request_rec) (notes : apr_table_t)
    (stmt : apr_dbd_prepared_t) (args : List (Option CStr))
    (hex : (setDocRoot rt conf (some d) r notes).db.executed = [(stmt, args)])
    (hrv : (d.pselect stmt args).1 ≠ 0) :
    (setDocRoot rt conf (some d) r notes).status = HTTP_INTERNAL_SERVER_ERROR := by
  revert hex
  unfold setDocRoot
  simp only []
  split
  · simp [unchanged, DbTrace.none]
  · split
    · simp [unchanged, DbTrace.none]
    · split
      · simp [unchanged, DbTrace.none]
      · split
        · simp [unchanged, DbTrace.none]
        · split
          · simp [mapToFile_db, unchanged, DbTrace.none]
          · unfold runQuery
            simp only []
            split
            · simp [DbTrace.none]
            · split
              · intro _; rfl
              · rw [readResult_executed]
                intro hex
                simp only [List.cons.injEq, Prod.mk.injEq, and_true] at hex
                obtain ⟨rfl, rfl⟩ := hex
                rename_i h
                exact absurd (by by_contra h2; exact h h2) hrv

/-- A call that has a root to use, from the notes or from the first row of a
fresh result, ends in the mapping step of lines 304-325 with that root and
with `rv` equal to 0. -/
theorem setDocRoot_maps_root (rt : Runtime) (conf : vhost_dbd_conf) (label : CStr)
    (dbd : Option ap_dbd_t) (r : request_rec) (notes : apr_table_t) (uri root : CStr)
    (hl : conf.label = some label) (hp : r.fields.proxyreq = 0)
    (hu : r.fields.uri = some uri) (hv : invalidUri uri = false)
    (hres : apr_table_get notes (requestKey rt conf r) = some root
      ∨ (apr_table_get notes (requestKey rt conf r) = none
        ∧ ∃ d stmt row rest, dbd = some d
          ∧ resolveStatement conf d label = some stmt
          ∧ (d.pselect stmt (collectParams rt conf r uri).params).1 = 0
          ∧ (d.pselect stmt (collectParams rt conf r uri).params).2.num_tuples ≤ 1
          ∧ (d.pselect stmt (collectParams rt conf r uri).params).2.num_tuples ≠ 0
          ∧ (d.pselect stmt (collectParams rt conf r uri).params).2.num_cols ≠ 0
          ∧ (d.pselect stmt (collectParams rt conf r uri).params).2.rows = row :: rest
          ∧ apr_dbd_get_entry row 0 = some root ∧ root ≠ [])) :
    ∃ o, setDocRoot rt conf dbd r notes = mapToFile rt uri (requestKey rt conf r) root 0 o
      ∧ o.filename = r.fields.filename
      ∧ o.canonical_filename = r.fields.canonical_filename := by
  rcases hres with hhit | ⟨hmiss, d, stmt, row, rest, rfl, hs, hrv, h1, h0, hc, hrows, hent, hne⟩
  · refine ⟨unchanged r notes, ?_, rfl, rfl⟩
    have hk : apr_table_get notes (cacheKey (collectParams rt conf r uri)) = some root := by
      simpa [requestKey, hu] using hhit
    unfold setDocRoot
    simp [hl, hp, hu, hv, hk, requestKey]
  · have hex : (setDocRoot rt conf (some d) r notes).db.executed
        = [(stmt, (collectParams rt conf r uri).params)] := by
      rw [setDocRoot_miss rt conf label (some d) r notes uri hl hp hu hv hmiss]
      exact runQuery_executed_eq rt conf label d uri _ _ _ stmt hs
    obtain ⟨uri2, _, hu2, _, _, _, _, _, _, hrun⟩ :=
      setDocRoot_inv rt conf d r notes stmt _ hex hrv
    rw [hu] at hu2
    cases hu2
    exact ⟨_, hrun.trans (readResult_row rt uri _ 0 _ _ _ row rest root h1 h0 hc hrows hent hne),
      rfl, rfl⟩

/-- C20: the call returns 400 exactly when the configuration has a label,
the request is not proxied and its URI is missing or fails the check of line
106; then no database operation was made and nothing was changed.  A
statement whose execution returns a status other than 0 ends the call with
500, so the final return is reached only with `rv` equal to 0: for a URI
that passes the check the status is OK, `DECLINED`, 403 or 500, and a call
that sets the file name returns OK.  A call that has a root to use, found in
the notes or read from the first row of a fresh result, is the mapping step
of lines 304-325 run with `rv` equal to 0; when that root is not the
sentinel and the path merge succeeds, the call returns OK with the merged
path as file name. -/
theorem bad_request_only_from_uri_check (rt : Runtime) (conf : vhost_dbd_conf)
    (dbd : Option ap_dbd_t) (r : request_rec) (notes : apr_table_t) :
    ((setDocRoot rt conf dbd r notes).status = HTTP_BAD_REQUEST
        ↔ conf.label ≠ none ∧ r.fields.proxyreq = 0
          ∧ (r.fields.uri = none ∨ ∃ u, r.fields.uri = some u ∧ invalidUri u = true))
      ∧ ((setDocRoot rt conf dbd r notes).status = HTTP_BAD_REQUEST →
          (setDocRoot rt conf dbd r notes).db = DbTrace.none
            ∧ (setDocRoot rt conf dbd r notes).notes = notes
            ∧ (setDocRoot rt conf dbd r notes).filename = r.fields.filename)
      ∧ (∀ d stmt args, dbd = some d →
          (setDocRoot rt conf dbd r notes).db.executed = [(stmt, args)] →
          (d.pselect stmt args).1 ≠ 0 →
          (setDocRoot rt conf dbd r notes).status = HTTP_INTERNAL_SERVER_ERROR)
      ∧ (∀ uri, r.fields.uri = some uri → invalidUri uri = false →
          (setDocRoot rt conf dbd r notes).status = OK
            ∨ (setDocRoot rt conf dbd r notes).status = DECLINED
            ∨ (setDocRoot rt conf dbd r notes).status = HTTP_FORBIDDEN
            ∨ (setDocRoot rt conf dbd r notes).status = HTTP_INTERNAL_SERVER_ERROR)
      ∧ ((setDocRoot rt conf dbd r notes).filename ≠ r.fields.filename →
          (setDocRoot rt conf dbd r notes).status = OK)
      ∧ (∀ label uri root, conf.label = some label → r.fields.proxyreq = 0 →
          r.fields.uri = some uri → invalidUri uri = false →
          (apr_table_get notes (requestKey rt conf r) = some root
            ∨ (apr_table_get notes (requestKey rt conf r) = none
              ∧ ∃ d stmt row rest, dbd = some d
                ∧ resolveStatement conf d label = some stmt
                ∧ (d.pselect stmt (collectParams rt conf r uri).params).1 = 0
                ∧ (d.pselect stmt (collectParams rt conf r uri).params).2.num_tuples ≤ 1
                ∧ (d.pselect stmt (collectParams rt conf r uri).params).2.num_tuples ≠ 0
                ∧ (d.pselect stmt (collectParams rt conf r uri).params).2.num_cols ≠ 0
                ∧ (d.pselect stmt (collectParams rt conf r uri).params).2.rows = row :: rest
                ∧ apr_dbd_get_entry row 0 = some root ∧ root ≠ [])) →
          (∃ o, setDocRoot rt conf dbd r notes
              = mapToFile rt uri (requestKey rt conf r) root 0 o)
            ∧ (root ≠ NO_DOCROOT →
                ∀ path, rt.apr_filepath_merge root (uri.dropWhile (fun c => c == '/'))
                    (APR_FILEPATH_TRUENAME ||| APR_FILEPATH_SECUREROOT) = some path →
                  (setDocRoot rt conf dbd r notes).status = OK
                    ∧ (setDocRoot rt conf dbd r notes).filename = some path
                    ∧ (setDocRoot rt conf dbd r notes).canonical_filename = some path)) := by
  have hends := setDocRoot_ends rt conf dbd r notes
  have h400 : (setDocRoot rt conf dbd r notes).status = HTTP_BAD_REQUEST →
      (setDocRoot rt conf dbd r notes).db = DbTrace.none
        ∧ (setDocRoot rt conf dbd r notes).notes = notes
        ∧ (setDocRoot rt conf dbd r notes).filename = r.fields.filename
        ∧ conf.label ≠ none ∧ r.fields.proxyreq = 0
        ∧ (r.fields.uri = none ∨ ∃ u, r.fields.uri = some u ∧ invalidUri u = true) := by
    intro hst
    rcases hends with ⟨a, b, _, h⟩ | ⟨s1, _⟩ | ⟨s1, _⟩
    · rcases h with h | h | h | ⟨_, hdb, hl, hp, hu⟩
      · rw [h] at hst; exact absurd hst (by decide)
      · rw [h] at hst; exact absurd hst (by decide)
      · rw [h] at hst; exact absurd hst (by decide)
      · exact ⟨hdb, a, b, hl, hp, hu⟩
    · rw [s1] at hst; exact absurd hst (by decide)
    · rw [s1] at hst; exact absurd hst (by decide)
  refine ⟨⟨fun h => (h400 h).2.2.2, fun h => setDocRoot_bad_uri rt conf dbd r notes h.1 h.2.1 h.2.2⟩,
    fun h => ⟨(h400 h).1, (h400 h).2.1, (h400 h).2.2.1⟩, ?_, ?_, ?_, ?_⟩
  · intro d stmt args hd hex hrv
    subst hd
    exact setDocRoot_failed_execution rt conf d r notes stmt args hex hrv
  · intro uri hu hv
    rcases hends with ⟨_, _, _, h⟩ | ⟨s1, _⟩ | ⟨s1, _⟩
    · rcases h with h | h | h | ⟨_, _, _, _, hbad⟩
      · exact Or.inr (Or.inl h)
      · exact Or.inr (Or.inr (Or.inl h))
      · exact Or.inr (Or.inr (Or.inr h))
      · rcases hbad with h | ⟨u, h1, h2⟩
        · rw [hu] at h; cases h
        · rw [hu] at h1; cases h1; rw [hv] at h2; cases h2
    · exact Or.inr (Or.inl s1)
    · exact Or.inl s1
  · intro hne
    rcases hends with ⟨_, b, _⟩ | ⟨_, _, b, _⟩ | ⟨s1, _⟩
    · exact absurd b hne
    · exact absurd b hne
    · exact s1
  · intro label uri root hl hp hu hv hres
    obtain ⟨o, hrun, _, _⟩ := setDocRoot_maps_root rt conf label dbd r notes uri root hl hp hu hv hres
    refine ⟨⟨o, hrun⟩, fun hroot path hm => ?_⟩
    rw [hrun]
    exact (mapToFile_root rt uri _ root o hroot).2 path hm

/-- C20, on examples: a request whose URI is an absolute URL gets 400; the
request for `/x/y` whose fresh row has the root `/srv/site1`, and the same
request with that root in the notes, both reach the merge, which succeeds,
and return OK with the file name `/srv/site1/x/y`. -/
theorem bad_request_only_from_uri_check_witness :
    (setDocRoot exampleRuntime hostConf (some (fixedDb siteRow)) absoluteUrlRequest []).status
        = HTTP_BAD_REQUEST
      ∧ ((setDocRoot exampleRuntime hostConf (some (fixedDb siteRow)) hostRequest []).status = OK
        ∧ (setDocRoot exampleRuntime hostConf (some (fixedDb siteRow)) hostRequest []).filename
          = some "/srv/site1/x/y".toList
        ∧ (setDocRoot exampleRuntime hostConf (some (fixedDb siteRow)) hostRequest
            []).canonical_filename = some "/srv/site1/x/y".toList)
      ∧ ((setDocRoot exampleRuntime hostConf none hostRequest resolvedNotes).status = OK
        ∧ (setDocRoot exampleRuntime hostConf none hostRequest resolvedNotes).filename
          = some "/srv/site1/x/y".toList
        ∧ (setDocRoot exampleRuntime hostConf none hostRequest resolvedNotes).canonical_filename
          = some "/srv/site1/x/y".toList) :=
  ⟨(bad_request_only_from_uri_check exampleRuntime hostConf (some (fixedDb siteRow))
      absoluteUrlRequest []).1.2
      ⟨by decide, by decide, Or.inr ⟨"http://a.example/x".toList, by decide, by decide⟩⟩,
    ((bad_request_only_from_uri_check exampleRuntime hostConf (some (fixedDb siteRow))
      hostRequest []).2.2.2.2.2 "vhost_dbd_1".toList "/x/y".toList "/srv/site1".toList
      (by decide) (by decide) (by decide) (by decide)
      (Or.inr ⟨by decide, fixedDb siteRow, 1,
        [some "/srv/site1".toList, some "dark".toList], [], rfl, by decide, by decide,
        by decide, by decide, by decide, by decide, by decide, by decide⟩)).2
      (by decide) "/srv/site1/x/y".toList (by decide),
    ((bad_request_only_from_uri_check exampleRuntime hostConf none
      hostRequest resolvedNotes).2.2.2.2.2 "vhost_dbd_1".toList "/x/y".toList
      "/srv/site1".toList (by decide) (by decide) (by decide) (by decide)
      (Or.inl (by decide))).2
      (by decide) "/srv/site1/x/y".toList (by decide)⟩

end VhostDbd
